import Mathlib

/-!
Verification of the C AST ingestion/normalization core (ast-importer/src/c_ast):
a shallow embedding of conversion.rs and mod.rs, together with theorems that
settle the specification claims about identifier correspondence, the
worklist-driven conversion engine, expression-as-statement lifting, type alias
resolution, and the store invariants.

The foreign input format (AstContext, AstNode, TypeNode and their extra-field
accessors) lives in clang_ast.rs, which is not part of the sources provided;
those definitions are modelled from the spec (sections 3 and 6) and are marked
as such below.  Everything else is translated directly from the source files.

Conventions: Rust HashMap is modelled as an association list with an insert
that overwrites the binding of an existing key; Rust u64 ids are Nat (no id
arithmetic overflows are reachable since ids are only ever incremented from 0);
Rust panics are modelled as Except errors; the single println diagnostic for
unsupported AST tags is modelled as an explicit diagnostics list on the
conversion state; f64 literal payloads are carried opaquely as their bit
pattern (a Nat), which the conversion never inspects.
-/

/-- Association list lookup, modelling HashMap.get. -/
def alookup {α β : Type} [DecidableEq α] : List (α × β) → α → Option β
  | [], _ => none
  | (k, v) :: t, k' => if k = k' then some v else alookup t k'

/-- Association list insert, modelling HashMap.insert: overwrites an existing
binding in place, otherwise appends. -/
def ainsert {α β : Type} [DecidableEq α] : List (α × β) → α → β → List (α × β)
  | [], k, v => [(k, v)]
  | (k', v') :: t, k, v => if k' = k then (k, v) :: t else (k', v') :: ainsert t k v

/-- Foreign node ids (assigned by the excluded C front end). -/
abbrev ClangId := Nat

/-- Internal ids minted by the conversion. -/
abbrev NewId := Nat

/-- Possible node types: a bit set over node categories (conversion.rs). -/
abbrev NodeType := Nat

namespace node_types

def FUNC_TYPE   : NodeType := 0b0000000001
def OTHER_TYPE  : NodeType := 0b0000000010
def TYPE        : NodeType := FUNC_TYPE ||| OTHER_TYPE
def EXPR        : NodeType := 0b0000000100
def FIELD_DECL  : NodeType := 0b0000001000
def VAR_DECL    : NodeType := 0b0000010000
def RECORD_DECL : NodeType := 0b0000100000
def TYPDEF_DECL : NodeType := 0b0001000000
def OTHER_DECL  : NodeType := 0b0010000000
def DECL        : NodeType := FIELD_DECL ||| VAR_DECL ||| RECORD_DECL ||| TYPDEF_DECL ||| OTHER_DECL
def LABEL_STMT  : NodeType := 0b0100000000
def OTHER_STMT  : NodeType := 0b1000000000
def STMT        : NodeType := LABEL_STMT ||| OTHER_STMT
def ANYTHING    : NodeType := TYPE ||| EXPR ||| DECL ||| STMT

end node_types

/-- Modelled from the spec: the loosely typed extra-field payloads of a foreign
node, each holding one of string, unsigned integer, floating point (carried as
its bit pattern), boolean, or list (clang_ast.rs is not among the provided
sources). -/
inductive LitValue : Type
  | str (s : String)
  | uint (n : Nat)
  | flt (bits : Nat)
  | boolean (b : Bool)
  | arr (l : List LitValue)

/-- Modelled from the spec: the discriminant tags of foreign AST nodes.  The
tags matched by conversion.rs are listed, plus representative tags for
constructs the conversion does not support. -/
inductive ASTEntryTag : Type
  | TagFunctionDecl
  | TagVarDecl
  | TagRecordDecl
  | TagFieldDecl
  | TagTypedefDecl
  | TagCompoundStmt
  | TagDeclStmt
  | TagReturnStmt
  | TagIfStmt
  | TagGotoStmt
  | TagNullStmt
  | TagForStmt
  | TagWhileStmt
  | TagDoStmt
  | TagLabelStmt
  | TagParenExpr
  | TagIntegerLiteral
  | TagCharacterLiteral
  | TagFloatingLiteral
  | TagUnaryOperator
  | TagImplicitCastExpr
  | TagCallExpr
  | TagMemberExpr
  | TagBinaryOperator
  | TagDeclRefExpr
  | TagArraySubscriptExpr
  | TagBreakStmt
  | TagContinueStmt
  | TagSwitchStmt
deriving DecidableEq, Repr

/-- Modelled from the spec: the discriminant tags of foreign type nodes.  The
tags matched by conversion.rs are listed, plus representative unsupported
tags. -/
inductive TypeTag : Type
  | TagBool
  | TagVoid
  | TagChar
  | TagInt
  | TagShort
  | TagLong
  | TagLongLong
  | TagUInt
  | TagUChar
  | TagSChar
  | TagUShort
  | TagULong
  | TagULongLong
  | TagDouble
  | TagLongDouble
  | TagFloat
  | TagPointer
  | TagRecordType
  | TagFunctionType
  | TagTypeOfType
  | TagTypedefType
  | TagDecayedType
  | TagElaboratedType
  | TagComplexType
  | TagConstantArrayType
deriving DecidableEq, Repr

/-- Modelled from the spec: a foreign AST node: discriminant tag, optional
child ids (absence is meaningful), source position, loosely typed extras, and
an optional foreign type reference. -/
structure AstNode : Type where
  tag : ASTEntryTag
  children : List (Option ClangId)
  line : Nat
  column : Nat
  fileid : Nat
  type_id : Option ClangId
  extras : List LitValue

/-- Modelled from the spec: a foreign type node: type-tag discriminant, a
constant-qualifier flag, and tag-specific extras. -/
structure TypeNode : Type where
  tag : TypeTag
  constant : Bool
  extras : List LitValue

/-- Modelled from the spec: the untyped input context: ast nodes, type nodes,
the top-level ids (kept in their given order), and the file-id map. -/
structure AstContext : Type where
  ast_nodes : List (ClangId × AstNode)
  type_nodes : List (ClangId × TypeNode)
  top_nodes : List ClangId
  files : List (Nat × String)

/-- Modelled from the spec: extract an unsigned integer extra field. -/
def expect_u64 : LitValue → Option Nat
  | .uint n => some n
  | _ => none

/-- Modelled from the spec: extract a string extra field. -/
def expect_str : LitValue → Option String
  | .str s => some s
  | _ => none

/-- Modelled from the spec: extract a floating extra field (its bit pattern). -/
def expect_f64 : LitValue → Option Nat
  | .flt b => some b
  | _ => none

/-- Modelled from the spec: extract a boolean extra field. -/
def expect_bool : LitValue → Option Bool
  | .boolean b => some b
  | _ => none

/-- Modelled from the spec: extract a list extra field. -/
def expect_array : LitValue → Option (List LitValue)
  | .arr l => some l
  | _ => none

/-- Internal type node id (mod.rs). -/
structure CTypeId : Type where
  id : Nat
deriving DecidableEq, Repr

/-- Internal expression node id (mod.rs). -/
structure CExprId : Type where
  id : Nat
deriving DecidableEq, Repr

/-- Internal declaration node id (mod.rs). -/
structure CDeclId : Type where
  id : Nat
deriving DecidableEq, Repr

/-- Internal statement node id (mod.rs). -/
structure CStmtId : Type where
  id : Nat
deriving DecidableEq, Repr

/-- Labels point into the StmtKind.Label that declared the label (mod.rs). -/
abbrev CLabelId := CStmtId

/-- Records always contain DeclKind.Field entries (mod.rs). -/
abbrev CFieldId := CDeclId

/-- Parameters always contain DeclKind.Variable entries (mod.rs). -/
abbrev CParamId := CDeclId

/-- Function declarations always have types which are TypeKind.Function (mod.rs). -/
abbrev CFuncTypeId := CTypeId

/-- Record types need to point to DeclKind.Record (mod.rs). -/
abbrev CRecordId := CDeclId

/-- Typedef types need to point to DeclKind.Typedef (mod.rs). -/
abbrev CTypedefId := CDeclId

/-- Represents a position inside a C source file (mod.rs). -/
structure SrcLoc : Type where
  line : Nat
  column : Nat
  fileid : Nat
deriving DecidableEq, Repr

/-- Represents some AST node possibly with source location information bundled
with it (mod.rs). -/
structure Located (T : Type) : Type where
  loc : Option SrcLoc
  kind : T
deriving DecidableEq, Repr

/-- Type qualifiers (mod.rs). -/
structure Qualifiers : Type where
  is_const : Bool
  is_restrict : Bool
  is_volatile : Bool
deriving DecidableEq, Repr

/-- Qualified type (mod.rs). -/
structure CQualTypeId : Type where
  qualifiers : Qualifiers
  ctype : CTypeId
deriving DecidableEq, Repr

/-- Represents a unary operator in C (mod.rs). -/
inductive UnOp : Type
  | AddressOf
  | Deref
  | Plus
  | Increment
  | Negate
  | Decrement
  | Complement
  | Not
deriving DecidableEq, Repr

/-- Represents a binary operator in C (mod.rs). -/
inductive BinOp : Type
  | Multiply
  | Divide
  | Modulus
  | Add
  | Subtract
  | ShiftLeft
  | ShiftRight
  | Less
  | Greater
  | LessEqual
  | GreaterEqual
  | EqualEqual
  | NotEqual
  | BitAnd
  | BitXor
  | BitOr
  | And
  | Or
  | AssignAdd
  | AssignSubtract
  | AssignMultiply
  | AssignDivide
  | AssignModulus
  | AssignBitXor
  | AssignShiftLeft
  | AssignShiftRight
  | AssignBitOr
  | AssignBitAnd
  | Assign
  | Comma
deriving DecidableEq, Repr

/-- Literal payloads (mod.rs); the f64 payload is carried as its bit pattern. -/
inductive CLiteral : Type
  | Integer (v : Nat)
  | Character (v : Nat)
  | Floating (bits : Nat)
deriving DecidableEq, Repr

/-- Represents an expression in C (mod.rs). -/
inductive CExprKind : Type
  | Literal (ty : CTypeId) (l : CLiteral)
  | Unary (ty : CTypeId) (op : UnOp) (pre : Bool) (operand : CExprId)
  | Binary (ty : CTypeId) (op : BinOp) (lhs : CExprId) (rhs : CExprId)
  | ImplicitCast (ty : CTypeId) (e : CExprId)
  | DeclRef (ty : CTypeId) (d : CDeclId)
  | Call (ty : CTypeId) (func : CExprId) (args : List CExprId)
  | Member (ty : CTypeId) (base : CExprId) (field : CDeclId)
  | ArraySubscript (ty : CTypeId) (lhs : CExprId) (rhs : CExprId)
deriving DecidableEq, Repr

abbrev CExpr := Located CExprKind

/-- Represents a statement in C (mod.rs). -/
inductive CStmtKind : Type
  | Label (s : CStmtId)
  | Case (e : CExpr) (s : CStmtId)
  | Default (s : CStmtId)
  | Compound (stmts : List CStmtId)
  | Expr (e : CExprId)
  | Empty
  | If (scrutinee : CExprId) (true_variant : CStmtId) (false_variant : Option CStmtId)
  | Switch (scrutinee : CExprId) (body : CStmtId)
  | While (condition : CExprId) (body : CStmtId)
  | DoWhile (body : CStmtId) (condition : CExprId)
  | ForLoop (init : Option CStmtId) (condition : Option CExprId)
      (increment : Option CExprId) (body : CStmtId)
  | Goto (l : CLabelId)
  | Break
  | Continue
  | Return (e : Option CExprId)
  | Decls (ds : List CDeclId)
deriving DecidableEq, Repr

abbrev CStmt := Located CStmtKind

/-- Represents a type in C (mod.rs). -/
inductive CTypeKind : Type
  | Void
  | Bool
  | Size
  | Char
  | SChar
  | Short
  | Int
  | Long
  | LongLong
  | UChar
  | UShort
  | UInt
  | ULong
  | ULongLong
  | Float
  | Double
  | LongDouble
  | Complex (t : CTypeId)
  | Pointer (q : CQualTypeId)
  | ConstantArray (q : CQualTypeId) (n : Nat)
  | IncompleteArray (q : CQualTypeId)
  | VariableArray (q : CQualTypeId) (e : CExprId)
  | TypeOf (t : CTypeId)
  | TypeOfExpr (e : CExprId)
  | Function (ret : CQualTypeId) (args : List CQualTypeId)
  | Typedef (d : CTypedefId)
  | Decayed (t : CTypeId)
  | Elaborated (t : CTypeId)
  | Record (d : CRecordId)
  | Enum (d : CDeclId)
deriving DecidableEq, Repr

abbrev CType := Located CTypeKind

/-- Declarations (mod.rs). -/
inductive CDeclKind : Type
  | Function (typ : CFuncTypeId) (name : String) (parameters : List CParamId) (body : CStmtId)
  | Variable (ident : String) (initializer : Option CExprId) (typ : CQualTypeId)
  | Typedef (name : String) (typ : CTypeId)
  | Record (name : Option String) (fields : List CFieldId)
  | Field (name : String)
deriving DecidableEq, Repr

abbrev CDecl := Located CDeclKind

/-- AST context containing all of the nodes of the converted AST (mod.rs). -/
structure TypedAstContext : Type where
  c_types : List (CTypeId × CType)
  c_exprs : List (CExprId × CExpr)
  c_decls : List (CDeclId × CDecl)
  c_stmts : List (CStmtId × CStmt)
  c_decls_top : List CDeclId
  c_files : List (Nat × String)
deriving DecidableEq, Repr

/-- TypedAstContext.new (mod.rs). -/
def TypedAstContext.new : TypedAstContext :=
  { c_types := [], c_exprs := [], c_decls := [], c_stmts := [],
    c_decls_top := [], c_files := [] }

/-- Indexed lookup into the type namespace; a missing node is a fatal
condition in the source (the Index impl panics), modelled as none. -/
def TypedAstContext.indexType (ctx : TypedAstContext) (i : CTypeId) : Option CType :=
  alookup ctx.c_types i

/-- Indexed lookup into the expression namespace (panics in the source on a
missing node, modelled as none). -/
def TypedAstContext.indexExpr (ctx : TypedAstContext) (i : CExprId) : Option CExpr :=
  alookup ctx.c_exprs i

/-- Indexed lookup into the declaration namespace (panics in the source on a
missing node, modelled as none). -/
def TypedAstContext.indexDecl (ctx : TypedAstContext) (i : CDeclId) : Option CDecl :=
  alookup ctx.c_decls i

/-- Indexed lookup into the statement namespace (panics in the source on a
missing node, modelled as none). -/
def TypedAstContext.indexStmt (ctx : TypedAstContext) (i : CStmtId) : Option CStmt :=
  alookup ctx.c_stmts i

/-- TypedAstContext.resolve_type_id (mod.rs): chases through the transparent
type forms until reaching a non-transparent form.  The source recursion has no
cycle guard and its index operations panic on missing nodes; both
non-termination (given enough fuel, unreachable on acyclic input) and the
panics are modelled as none. -/
def TypedAstContext.resolve_type_id (ctx : TypedAstContext) : Nat → CTypeId → Option CTypeId
  | 0, _ => none
  | fuel + 1, typ =>
    match ctx.indexType typ with
    | none => none
    | some ty =>
      match ty.kind with
      | .Elaborated t2 => ctx.resolve_type_id fuel t2
      | .Decayed t2 => ctx.resolve_type_id fuel t2
      | .TypeOf t2 => ctx.resolve_type_id fuel t2
      | .Typedef decl =>
        match ctx.indexDecl decl with
        | none => none
        | some d =>
          match d.kind with
          | .Typedef _ t2 => ctx.resolve_type_id fuel t2
          | _ => none
      | _ => some typ

/-- TypedAstContext.resolve_type (mod.rs): resolve the id, then dereference. -/
def TypedAstContext.resolve_type (ctx : TypedAstContext) (fuel : Nat) (typ : CTypeId) :
    Option CType :=
  match ctx.resolve_type_id fuel typ with
  | none => none
  | some i => ctx.indexType i

/-- Set insert modelling HashSet.insert: no duplicates. -/
def sinsert {α : Type} [DecidableEq α] (l : List α) (a : α) : List α :=
  if a ∈ l then l else a :: l

/-- The fatal failure modes of the conversion (each corresponds to a panic in
conversion.rs). -/
inductive ConvError : Type
  | typeMismatch (node_id : ClangId) (expected actual : NodeType)
  | missingTypeNode (node_id : ClangId)
  | missingAstNode (node_id : ClangId)
  | extraction (msg : String)
  | unknownUnaryOperator (op : String)
  | unimplementedBinaryOperator
  | unsupportedTypeTag (t : TypeTag) (expected : NodeType)
  | expectedExprOrStmt
deriving DecidableEq, Repr

/-- Correspondence between old/new IDs (conversion.rs). -/
structure IdMapper : Type where
  new_id_source : NewId
  old_to_new : List (ClangId × NewId)
  new_to_old : List (NewId × ClangId)
deriving DecidableEq, Repr

/-- IdMapper.new (conversion.rs). -/
def IdMapper.new : IdMapper :=
  { new_id_source := 0, old_to_new := [], new_to_old := [] }

/-- Create a fresh NEW_ID not corresponding to a CLANG_ID (conversion.rs). -/
def IdMapper.fresh_id (m : IdMapper) : NewId × IdMapper :=
  (m.new_id_source + 1, { m with new_id_source := m.new_id_source + 1 })

/-- Lookup the NEW_ID corresponding to a CLANG_ID (conversion.rs). -/
def IdMapper.get_new (m : IdMapper) (old_id : ClangId) : Option NewId :=
  alookup m.old_to_new old_id

/-- Lookup (or create if not found) a NEW_ID corresponding to a CLANG_ID
(conversion.rs). -/
def IdMapper.get_or_create_new (m : IdMapper) (old_id : ClangId) : NewId × IdMapper :=
  match m.get_new old_id with
  | some new_id => (new_id, m)
  | none =>
    let (new_id, m') := m.fresh_id
    (new_id, { m' with old_to_new := ainsert m'.old_to_new old_id new_id })

/-- Lookup the CLANG_ID corresponding to a NEW_ID (conversion.rs). -/
def IdMapper.get_old (m : IdMapper) (new_id : NewId) : Option ClangId :=
  alookup m.new_to_old new_id

/-- If old_id is already present, map other_old_id to point to the same NewId
(conversion.rs). -/
def IdMapper.merge_old (m : IdMapper) (old_id other_old_id : ClangId) :
    Option NewId × IdMapper :=
  match m.get_new old_id with
  | some new_id =>
    (some new_id, { m with old_to_new := ainsert m.old_to_new other_old_id new_id })
  | none => (none, m)

/-- Transfer location information off of an AstNode onto something Located
(conversion.rs). -/
def located {T : Type} (node : AstNode) (t : T) : Located T :=
  { loc := some { line := node.line, column := node.column, fileid := node.fileid },
    kind := t }

/-- Wrap something into a Located node without any location information
(conversion.rs). -/
def not_located {T : Type} (t : T) : Located T :=
  { loc := none, kind := t }

/-- Extract the qualifiers off of a TypeNode (conversion.rs). -/
def qualifiers (ty_node : TypeNode) : Qualifiers :=
  { is_const := ty_node.constant, is_restrict := false, is_volatile := false }

/-- This stores the information needed to convert an AstContext into a
TypedAstContext (conversion.rs).  The extra diagnostics field models the
stdout println for AST tags the conversion does not support; the head of
visit_as is the top of the stack of nodes to visit. -/
structure ConversionContext : Type where
  id_mapper : IdMapper
  processed_nodes : List (NewId × NodeType)
  visit_as : List (ClangId × NodeType)
  typed_context : TypedAstContext
  diagnostics : List (ASTEntryTag × NodeType)
deriving DecidableEq, Repr

/-- ConversionContext.new (conversion.rs): seed with the top-level nodes that
are present in the untyped context, expected to be DECLs.  The source pushes
them in order onto a Vec and pops from the back, so with a head-is-top stack
the seeds appear reversed. -/
def ConversionContext.new (untyped_context : AstContext) : ConversionContext :=
  { id_mapper := IdMapper.new
    processed_nodes := []
    visit_as :=
      ((untyped_context.top_nodes.filter
          (fun t => (alookup untyped_context.ast_nodes t).isSome)).reverse).map
        (fun t => (t, node_types.DECL))
    typed_context := TypedAstContext.new
    diagnostics := [] }

/-- Records the fact that we will need to visit a Clang node and the type we
want it to have; returns the new ID that identifies this node
(conversion.rs visit_node_type). -/
def ConversionContext.visit_node_type (s : ConversionContext) (node_id : ClangId)
    (node_ty : NodeType) : NewId × ConversionContext :=
  let s1 := { s with visit_as := (node_id, node_ty) :: s.visit_as }
  let (new_id, m) := s1.id_mapper.get_or_create_new node_id
  (new_id, { s1 with id_mapper := m })

/-- visit_node_type specialized to type nodes (conversion.rs visit_type). -/
def ConversionContext.visit_type (s : ConversionContext) (node_id : ClangId) :
    CTypeId × ConversionContext :=
  let (i, s') := s.visit_node_type node_id node_types.TYPE
  (⟨i⟩, s')

/-- visit_node_type specialized to statement nodes (conversion.rs visit_stmt). -/
def ConversionContext.visit_stmt (s : ConversionContext) (node_id : ClangId) :
    CStmtId × ConversionContext :=
  let (i, s') := s.visit_node_type node_id node_types.STMT
  (⟨i⟩, s')

/-- visit_node_type specialized to expression nodes (conversion.rs visit_expr). -/
def ConversionContext.visit_expr (s : ConversionContext) (node_id : ClangId) :
    CExprId × ConversionContext :=
  let (i, s') := s.visit_node_type node_id node_types.EXPR
  (⟨i⟩, s')

/-- visit_node_type specialized to declaration nodes (conversion.rs visit_decl). -/
def ConversionContext.visit_decl (s : ConversionContext) (node_id : ClangId) :
    CDeclId × ConversionContext :=
  let (i, s') := s.visit_node_type node_id node_types.DECL
  (⟨i⟩, s')

/-- Add a CType node into the TypedAstContext (conversion.rs add_type). -/
def ConversionContext.add_type (s : ConversionContext) (id : NewId) (typ : CType) :
    ConversionContext :=
  { s with typed_context :=
      { s.typed_context with c_types := ainsert s.typed_context.c_types ⟨id⟩ typ } }

/-- Add a CStmt node into the TypedAstContext (conversion.rs add_stmt). -/
def ConversionContext.add_stmt (s : ConversionContext) (id : NewId) (stmt : CStmt) :
    ConversionContext :=
  { s with typed_context :=
      { s.typed_context with c_stmts := ainsert s.typed_context.c_stmts ⟨id⟩ stmt } }

/-- Add a CExpr node into the TypedAstContext (conversion.rs add_expr). -/
def ConversionContext.add_expr (s : ConversionContext) (id : NewId) (expr : CExpr) :
    ConversionContext :=
  { s with typed_context :=
      { s.typed_context with c_exprs := ainsert s.typed_context.c_exprs ⟨id⟩ expr } }

/-- Add a CDecl node into the TypedAstContext (conversion.rs add_decl). -/
def ConversionContext.add_decl (s : ConversionContext) (id : NewId) (decl : CDecl) :
    ConversionContext :=
  { s with typed_context :=
      { s.typed_context with c_decls := ainsert s.typed_context.c_decls ⟨id⟩ decl } }

/-- Record the type a processed node was classified as
(the processed_nodes.insert calls in conversion.rs). -/
def ConversionContext.set_processed (s : ConversionContext) (id : NewId) (ty : NodeType) :
    ConversionContext :=
  { s with processed_nodes := ainsert s.processed_nodes id ty }

/-- Record an unsupported-AST-tag diagnostic (the println in conversion.rs). -/
def ConversionContext.diag (s : ConversionContext) (t : ASTEntryTag) (expected : NodeType) :
    ConversionContext :=
  { s with diagnostics := (t, expected) :: s.diagnostics }

/-- Mark an internal id as top-level (the c_decls_top.insert in conversion.rs
convert). -/
def ConversionContext.mark_top (s : ConversionContext) (new_id : NewId) : ConversionContext :=
  { s with typed_context :=
      { s.typed_context with
          c_decls_top := sinsert s.typed_context.c_decls_top ⟨new_id⟩ } }

/-- Clang has Expression <: Statement, but we make that explicit via the
CStmtKind.Expr statement constructor; this converts expressions into
statements depending on the expected type argument
(conversion.rs expr_possibly_as_stmt). -/
def ConversionContext.expr_possibly_as_stmt (s : ConversionContext) (expected_ty : NodeType)
    (new_id : NewId) (node : AstNode) (expr : CExprKind) : Except ConvError ConversionContext :=
  if expected_ty &&& node_types.STMT ≠ 0 then
    let (new_expr_id, m) := s.id_mapper.fresh_id
    let s1 := { s with id_mapper := m }
    let s2 := (s1.add_expr new_expr_id (located node expr)).set_processed new_expr_id
      node_types.EXPR
    let s3 := (s2.add_stmt new_id (located node (CStmtKind.Expr ⟨new_expr_id⟩))).set_processed
      new_id node_types.STMT
    .ok s3
  else if expected_ty &&& node_types.EXPR ≠ 0 then
    .ok ((s.add_expr new_id (located node expr)).set_processed new_id node_types.EXPR)
  else
    .error .expectedExprOrStmt

/-- Extract an unsigned integer from the i-th extra field; models the Vec
index panic and the expect panic of conversion.rs uniformly. -/
def extraU64 (extras : List LitValue) (i : Nat) (msg : String) : Except ConvError Nat :=
  match extras.get? i with
  | none => .error (.extraction msg)
  | some v =>
    match expect_u64 v with
    | none => .error (.extraction msg)
    | some n => .ok n

/-- Extract a string from the i-th extra field (see extraU64). -/
def extraStr (extras : List LitValue) (i : Nat) (msg : String) : Except ConvError String :=
  match extras.get? i with
  | none => .error (.extraction msg)
  | some v =>
    match expect_str v with
    | none => .error (.extraction msg)
    | some n => .ok n

/-- Extract a float bit pattern from the i-th extra field (see extraU64). -/
def extraF64 (extras : List LitValue) (i : Nat) (msg : String) : Except ConvError Nat :=
  match extras.get? i with
  | none => .error (.extraction msg)
  | some v =>
    match expect_f64 v with
    | none => .error (.extraction msg)
    | some n => .ok n

/-- Extract a boolean from the i-th extra field (see extraU64). -/
def extraBool (extras : List LitValue) (i : Nat) (msg : String) : Except ConvError Bool :=
  match extras.get? i with
  | none => .error (.extraction msg)
  | some v =>
    match expect_bool v with
    | none => .error (.extraction msg)
    | some n => .ok n

/-- Extract a list from the i-th extra field (see extraU64). -/
def extraArr (extras : List LitValue) (i : Nat) (msg : String) :
    Except ConvError (List LitValue) :=
  match extras.get? i with
  | none => .error (.extraction msg)
  | some v =>
    match expect_array v with
    | none => .error (.extraction msg)
    | some n => .ok n

/-- A required child at index i: models node.children[i].expect(msg)
(both the index panic and the expect panic). -/
def requiredChild (children : List (Option ClangId)) (i : Nat) (msg : String) :
    Except ConvError ClangId :=
  match children.get? i with
  | none => .error (.extraction msg)
  | some none => .error (.extraction msg)
  | some (some c) => .ok c

/-- An optional child at index i: models node.children[i].map(...); the index
itself still panics when out of bounds. -/
def optionalChild (children : List (Option ClangId)) (i : Nat) (msg : String) :
    Except ConvError (Option ClangId) :=
  match children.get? i with
  | none => .error (.extraction msg)
  | some c => .ok c

/-- The required foreign type reference of a node:
models node.type_id.expect(msg). -/
def requiredTypeId (node : AstNode) (msg : String) : Except ConvError ClangId :=
  match node.type_id with
  | none => .error (.extraction msg)
  | some t => .ok t

/-- The unary operator decoding table of conversion.rs (TagUnaryOperator). -/
def decodeUnOp : String → Except ConvError UnOp
  | "&" => .ok .AddressOf
  | "*" => .ok .Deref
  | "+" => .ok .Plus
  | "-" => .ok .Negate
  | "~" => .ok .Complement
  | "!" => .ok .Not
  | "++" => .ok .Increment
  | "--" => .ok .Decrement
  | o => .error (.unknownUnaryOperator o)

/-- The binary operator decoding table of conversion.rs (TagBinaryOperator). -/
def decodeBinOp : String → Except ConvError BinOp
  | "*" => .ok .Multiply
  | "/" => .ok .Divide
  | "%" => .ok .Modulus
  | "+" => .ok .Add
  | "-" => .ok .Subtract
  | "<<" => .ok .ShiftLeft
  | ">>" => .ok .ShiftRight
  | "<" => .ok .Less
  | ">" => .ok .Greater
  | "<=" => .ok .LessEqual
  | ">=" => .ok .GreaterEqual
  | "==" => .ok .EqualEqual
  | "!=" => .ok .NotEqual
  | "&" => .ok .BitAnd
  | "^" => .ok .BitXor
  | "|" => .ok .BitOr
  | "&&" => .ok .And
  | "||" => .ok .Or
  | "+=" => .ok .AssignAdd
  | "-=" => .ok .AssignSubtract
  | "*=" => .ok .AssignMultiply
  | "/=" => .ok .AssignDivide
  | "%=" => .ok .AssignModulus
  | "^=" => .ok .AssignBitXor
  | "<<=" => .ok .AssignShiftLeft
  | ">>=" => .ok .AssignShiftRight
  | "|=" => .ok .AssignBitOr
  | "&=" => .ok .AssignBitAnd
  | "=" => .ok .Assign
  | "," => .ok .Comma
  | _ => .error .unimplementedBinaryOperator

/-- Visit a list of required children under one expected type, in order; this
models the iterator-map patterns of conversion.rs (compound statement
children, declaration statement children, call arguments, function
parameters, record fields). -/
def visitChildrenAs (ty : NodeType) (msg : String) :
    List (Option ClangId) → ConversionContext →
    Except ConvError (List NewId × ConversionContext)
  | [], s => .ok ([], s)
  | none :: _, _ => .error (.extraction msg)
  | some id :: rest, s =>
    let (i, s1) := s.visit_node_type id ty
    match visitChildrenAs ty msg rest s1 with
    | .error e => .error e
    | .ok (is, s2) => .ok (i :: is, s2)

/-- Visit the children of a function type extras array: each element is a
foreign type id whose type node supplies the qualifiers
(conversion.rs TagFunctionType). -/
def visitFuncTypeArgs (untyped_context : AstContext) :
    List LitValue → ConversionContext →
    Except ConvError (List CQualTypeId × ConversionContext)
  | [], s => .ok ([], s)
  | cbor :: rest, s =>
    match expect_u64 cbor with
    | none => .error (.extraction "Bad function type child id")
    | some ty_node_id =>
      match alookup untyped_context.type_nodes ty_node_id with
      | none => .error (.extraction "Function type child not found")
      | some ty_node =>
        let (ty_node_new_id, s1) := s.visit_type ty_node_id
        match visitFuncTypeArgs untyped_context rest s1 with
        | .error e => .error e
        | .ok (qs, s2) =>
          .ok ({ qualifiers := qualifiers ty_node, ctype := ty_node_new_id } :: qs, s2)

/-- Visit an optional statement child (the .map(visit_stmt) pattern). -/
def ConversionContext.visit_opt_stmt (s : ConversionContext) :
    Option ClangId → Option CStmtId × ConversionContext
  | none => (none, s)
  | some i =>
    let (st, s') := s.visit_stmt i
    (some st, s')

/-- Visit an optional expression child (the .map(visit_expr) pattern). -/
def ConversionContext.visit_opt_expr (s : ConversionContext) :
    Option ClangId → Option CExprId × ConversionContext
  | none => (none, s)
  | some i =>
    let (e, s') := s.visit_expr i
    (some e, s')

/-- One primitive scalar type case of visit_node (conversion.rs): the arm
requires OTHER_TYPE in the expected mask, otherwise control falls through to
the panicking default arm of the type match. -/
def ConversionContext.prim_type_case (s : ConversionContext) (new_id : NewId)
    (expected_ty : NodeType) (t : TypeTag) (k : CTypeKind) :
    Except ConvError ConversionContext :=
  if expected_ty &&& node_types.OTHER_TYPE ≠ 0 then
    .ok ((s.add_type new_id (not_located k)).set_processed new_id node_types.OTHER_TYPE)
  else .error (.unsupportedTypeTag t expected_ty)

open node_types

/-- Visit one node (conversion.rs visit_node): kind-directed dispatch on the
expected mask and the foreign tag.  Guard failures on type tags fall to the
panicking default arm of the type match; guard failures and unknown tags on
AST nodes fall to the println default arm, modelled by diag. -/
def ConversionContext.visit_node (s : ConversionContext) (untyped_context : AstContext)
    (node_id : ClangId) (new_id : NewId) (expected_ty : NodeType) :
    Except ConvError ConversionContext :=
  if expected_ty &&& TYPE ≠ 0 then
    match alookup untyped_context.type_nodes node_id with
    | none => .error (.missingTypeNode node_id)
    | some ty_node =>
      match ty_node.tag with
      | .TagBool => s.prim_type_case new_id expected_ty .TagBool .Bool
      | .TagVoid => s.prim_type_case new_id expected_ty .TagVoid .Void
      | .TagChar => s.prim_type_case new_id expected_ty .TagChar .Char
      | .TagInt => s.prim_type_case new_id expected_ty .TagInt .Int
      | .TagShort => s.prim_type_case new_id expected_ty .TagShort .Short
      | .TagLong => s.prim_type_case new_id expected_ty .TagLong .Long
      | .TagLongLong => s.prim_type_case new_id expected_ty .TagLongLong .LongLong
      | .TagUInt => s.prim_type_case new_id expected_ty .TagUInt .UInt
      | .TagUChar => s.prim_type_case new_id expected_ty .TagUChar .UChar
      | .TagSChar => s.prim_type_case new_id expected_ty .TagSChar .SChar
      | .TagUShort => s.prim_type_case new_id expected_ty .TagUShort .UShort
      | .TagULong => s.prim_type_case new_id expected_ty .TagULong .ULong
      | .TagULongLong => s.prim_type_case new_id expected_ty .TagULongLong .ULongLong
      | .TagDouble => s.prim_type_case new_id expected_ty .TagDouble .Double
      | .TagLongDouble => s.prim_type_case new_id expected_ty .TagLongDouble .LongDouble
      | .TagFloat => s.prim_type_case new_id expected_ty .TagFloat .Float
      | .TagPointer =>
        if expected_ty &&& OTHER_TYPE ≠ 0 then
          match extraU64 ty_node.extras 0 "Pointer child not found" with
          | .error e => .error e
          | .ok pointed =>
            let (pointed_new, s1) := s.visit_type pointed
            let pointed_ty : CQualTypeId :=
              { qualifiers := qualifiers ty_node, ctype := pointed_new }
            .ok ((s1.add_type new_id (not_located (.Pointer pointed_ty))).set_processed
              new_id OTHER_TYPE)
        else .error (.unsupportedTypeTag .TagPointer expected_ty)
      | .TagRecordType =>
        if expected_ty &&& OTHER_TYPE ≠ 0 then
          match extraU64 ty_node.extras 0 "Record decl not found" with
          | .error e => .error e
          | .ok decl =>
            let (decl_new, s1) := s.visit_node_type decl RECORD_DECL
            .ok ((s1.add_type new_id (not_located (.Record ⟨decl_new⟩))).set_processed
              new_id OTHER_TYPE)
        else .error (.unsupportedTypeTag .TagRecordType expected_ty)
      | .TagFunctionType =>
        if expected_ty &&& FUNC_TYPE ≠ 0 then
          match extraArr ty_node.extras 0 "Function type expects array argument" with
          | .error e => .error e
          | .ok cbors =>
            match visitFuncTypeArgs untyped_context cbors s with
            | .error e => .error e
            | .ok (arguments, s1) =>
              match arguments with
              | [] => .error (.extraction "remove called on an empty function type arguments list")
              | ret :: args =>
                .ok ((s1.add_type new_id (not_located (.Function ret args))).set_processed
                  new_id FUNC_TYPE)
        else .error (.unsupportedTypeTag .TagFunctionType expected_ty)
      | .TagTypeOfType =>
        if expected_ty &&& OTHER_TYPE ≠ 0 then
          match extraU64 ty_node.extras 0 "Type of (type) child not found" with
          | .error e => .error e
          | .ok type_of_old =>
            let (type_of, s1) := s.visit_type type_of_old
            .ok ((s1.add_type new_id (not_located (.TypeOf type_of))).set_processed
              new_id OTHER_TYPE)
        else .error (.unsupportedTypeTag .TagTypeOfType expected_ty)
      | .TagTypedefType =>
        if expected_ty &&& OTHER_TYPE ≠ 0 then
          match extraU64 ty_node.extras 0 "Typedef decl not found" with
          | .error e => .error e
          | .ok decl =>
            let (decl_new, s1) := s.visit_node_type decl TYPDEF_DECL
            .ok ((s1.add_type new_id (not_located (.Typedef ⟨decl_new⟩))).set_processed
              new_id OTHER_TYPE)
        else .error (.unsupportedTypeTag .TagTypedefType expected_ty)
      | .TagDecayedType =>
        if expected_ty &&& OTHER_TYPE ≠ 0 then
          match extraU64 ty_node.extras 0 "Decayed type child not found" with
          | .error e => .error e
          | .ok decayed_id =>
            let (decayed, s1) := s.visit_type decayed_id
            .ok ((s1.add_type new_id (not_located (.Decayed decayed))).set_processed
              new_id OTHER_TYPE)
        else .error (.unsupportedTypeTag .TagDecayedType expected_ty)
      | .TagElaboratedType =>
        if expected_ty &&& OTHER_TYPE ≠ 0 then
          match extraU64 ty_node.extras 0 "Elaborated type child not found" with
          | .error e => .error e
          | .ok elaborated_id =>
            let (elaborated, s1) := s.visit_type elaborated_id
            .ok ((s1.add_type new_id (not_located (.Elaborated elaborated))).set_processed
              new_id OTHER_TYPE)
        else .error (.unsupportedTypeTag .TagElaboratedType expected_ty)
      | t => .error (.unsupportedTypeTag t expected_ty)
  else
    match alookup untyped_context.ast_nodes node_id with
    | none => .error (.missingAstNode node_id)
    | some node =>
      match node.tag with
      | .TagCompoundStmt =>
        if expected_ty &&& OTHER_STMT ≠ 0 then
          match visitChildrenAs STMT "Compound stmt child not found" node.children s with
          | .error e => .error e
          | .ok (ids, s1) =>
            .ok ((s1.add_stmt new_id
                (located node (.Compound (ids.map CStmtId.mk)))).set_processed
              new_id OTHER_STMT)
        else .ok (s.diag node.tag expected_ty)
      | .TagDeclStmt =>
        if expected_ty &&& OTHER_STMT ≠ 0 then
          match visitChildrenAs DECL "Decl not found in decl-statement" node.children s with
          | .error e => .error e
          | .ok (ids, s1) =>
            .ok ((s1.add_stmt new_id
                (located node (.Decls (ids.map CDeclId.mk)))).set_processed
              new_id OTHER_STMT)
        else .ok (s.diag node.tag expected_ty)
      | .TagReturnStmt =>
        if expected_ty &&& OTHER_STMT ≠ 0 then
          match optionalChild node.children 0 "Return statement child index out of bounds" with
          | .error e => .error e
          | .ok c =>
            let (return_expr_opt, s1) := s.visit_opt_expr c
            .ok ((s1.add_stmt new_id (located node (.Return return_expr_opt))).set_processed
              new_id OTHER_STMT)
        else .ok (s.diag node.tag expected_ty)
      | .TagIfStmt =>
        if expected_ty &&& OTHER_STMT ≠ 0 then
          match requiredChild node.children 0 "If condition expression not found" with
          | .error e => .error e
          | .ok scrutinee_old =>
            let (scrutinee, s1) := s.visit_expr scrutinee_old
            match requiredChild node.children 1 "If then body statement not found" with
            | .error e => .error e
            | .ok true_variant_old =>
              let (true_variant, s2) := s1.visit_stmt true_variant_old
              match optionalChild node.children 2 "If statement child index out of bounds" with
              | .error e => .error e
              | .ok false_old =>
                let (false_variant, s3) := s2.visit_opt_stmt false_old
                .ok ((s3.add_stmt new_id
                    (located node (.If scrutinee true_variant false_variant))).set_processed
                  new_id OTHER_STMT)
        else .ok (s.diag node.tag expected_ty)
      | .TagGotoStmt =>
        if expected_ty &&& OTHER_STMT ≠ 0 then
          match requiredChild node.children 0 "Goto target label not found" with
          | .error e => .error e
          | .ok target_label_old =>
            let (target_label, s1) := s.visit_node_type target_label_old LABEL_STMT
            .ok ((s1.add_stmt new_id (located node (.Goto ⟨target_label⟩))).set_processed
              new_id OTHER_STMT)
        else .ok (s.diag node.tag expected_ty)
      | .TagNullStmt =>
        if expected_ty &&& OTHER_STMT ≠ 0 then
          .ok (s.add_stmt new_id (located node .Empty))
        else .ok (s.diag node.tag expected_ty)
      | .TagForStmt =>
        if expected_ty &&& OTHER_STMT ≠ 0 then
          match optionalChild node.children 0 "For statement child index out of bounds" with
          | .error e => .error e
          | .ok c0 =>
            let (init, s1) := s.visit_opt_stmt c0
            match optionalChild node.children 1 "For statement child index out of bounds" with
            | .error e => .error e
            | .ok c1 =>
              let (condition, s2) := s1.visit_opt_expr c1
              match optionalChild node.children 2 "For statement child index out of bounds" with
              | .error e => .error e
              | .ok c2 =>
                let (increment, s3) := s2.visit_opt_expr c2
                match requiredChild node.children 3 "For loop body not found" with
                | .error e => .error e
                | .ok body_old =>
                  let (body, s4) := s3.visit_stmt body_old
                  .ok (s4.add_stmt new_id
                    (located node (.ForLoop init condition increment body)))
        else .ok (s.diag node.tag expected_ty)
      | .TagWhileStmt =>
        if expected_ty &&& OTHER_STMT ≠ 0 then
          match requiredChild node.children 0 "While loop condition not found" with
          | .error e => .error e
          | .ok condition_old =>
            let (condition, s1) := s.visit_expr condition_old
            match requiredChild node.children 1 "While loop body not found" with
            | .error e => .error e
            | .ok body_old =>
              let (body, s2) := s1.visit_stmt body_old
              .ok (s2.add_stmt new_id (located node (.While condition body)))
        else .ok (s.diag node.tag expected_ty)
      | .TagDoStmt =>
        if expected_ty &&& OTHER_STMT ≠ 0 then
          match requiredChild node.children 0 "Do loop body not found" with
          | .error e => .error e
          | .ok body_old =>
            let (body, s1) := s.visit_stmt body_old
            match requiredChild node.children 1 "Do loop condition not found" with
            | .error e => .error e
            | .ok condition_old =>
              let (condition, s2) := s1.visit_expr condition_old
              .ok (s2.add_stmt new_id (located node (.DoWhile body condition)))
        else .ok (s.diag node.tag expected_ty)
      | .TagLabelStmt =>
        if expected_ty &&& LABEL_STMT ≠ 0 then
          match requiredChild node.children 0 "Label statement not found" with
          | .error e => .error e
          | .ok pointed_stmt_old =>
            let (pointed_stmt, s1) := s.visit_stmt pointed_stmt_old
            .ok ((s1.add_stmt new_id (located node (.Label pointed_stmt))).set_processed
              new_id LABEL_STMT)
        else .ok (s.diag node.tag expected_ty)
      | .TagParenExpr =>
        if expected_ty &&& (EXPR ||| STMT) ≠ 0 then
          match requiredChild node.children 0 "Expected wrapped paren expression" with
          | .error e => .error e
          | .ok wrapped =>
            let s1 := { s with id_mapper := (s.id_mapper.merge_old node_id wrapped).2 }
            let (_, s2) := s1.visit_node_type wrapped expected_ty
            .ok s2
        else .ok (s.diag node.tag expected_ty)
      | .TagIntegerLiteral =>
        if expected_ty &&& (EXPR ||| STMT) ≠ 0 then
          match extraU64 node.extras 0 "Expected integer literal value" with
          | .error e => .error e
          | .ok value =>
            match requiredTypeId node "Expected expression to have type" with
            | .error e => .error e
            | .ok ty_old =>
              let (ty, s1) := s.visit_type ty_old
              s1.expr_possibly_as_stmt expected_ty new_id node (.Literal ty (.Integer value))
        else .ok (s.diag node.tag expected_ty)
      | .TagCharacterLiteral =>
        if expected_ty &&& (EXPR ||| STMT) ≠ 0 then
          match extraU64 node.extras 0 "Expected character literal value" with
          | .error e => .error e
          | .ok value =>
            match requiredTypeId node "Expected expression to have type" with
            | .error e => .error e
            | .ok ty_old =>
              let (ty, s1) := s.visit_type ty_old
              s1.expr_possibly_as_stmt expected_ty new_id node (.Literal ty (.Character value))
        else .ok (s.diag node.tag expected_ty)
      | .TagFloatingLiteral =>
        if expected_ty &&& (EXPR ||| STMT) ≠ 0 then
          match extraF64 node.extras 0 "Expected float literal value" with
          | .error e => .error e
          | .ok value =>
            match requiredTypeId node "Expected expression to have type" with
            | .error e => .error e
            | .ok ty_old =>
              let (ty, s1) := s.visit_type ty_old
              s1.expr_possibly_as_stmt expected_ty new_id node (.Literal ty (.Floating value))
        else .ok (s.diag node.tag expected_ty)
      | .TagUnaryOperator =>
        if expected_ty &&& (EXPR ||| STMT) ≠ 0 then
          match extraStr node.extras 0 "Expected operator" with
          | .error e => .error e
          | .ok op_str =>
            match decodeUnOp op_str with
            | .error e => .error e
            | .ok operator =>
              match requiredChild node.children 0 "Expected operand" with
              | .error e => .error e
              | .ok operand_old =>
                let (operand, s1) := s.visit_expr operand_old
                match requiredTypeId node "Expected expression to have type" with
                | .error e => .error e
                | .ok ty_old =>
                  let (ty, s2) := s1.visit_type ty_old
                  match extraBool node.extras 1 "Expected prefix information" with
                  | .error e => .error e
                  | .ok pre =>
                    s2.expr_possibly_as_stmt expected_ty new_id node
                      (.Unary ty operator pre operand)
        else .ok (s.diag node.tag expected_ty)
      | .TagImplicitCastExpr =>
        if expected_ty &&& (EXPR ||| STMT) ≠ 0 then
          match requiredChild node.children 0 "Expected expression for implicit cast" with
          | .error e => .error e
          | .ok expression_old =>
            let (expression, s1) := s.visit_expr expression_old
            match requiredTypeId node "Expected type for implicit cast" with
            | .error e => .error e
            | .ok typ_old =>
              let (typ, s2) := s1.visit_type typ_old
              s2.expr_possibly_as_stmt expected_ty new_id node (.ImplicitCast typ expression)
        else .ok (s.diag node.tag expected_ty)
      | .TagCallExpr =>
        if expected_ty &&& (EXPR ||| STMT) ≠ 0 then
          match requiredChild node.children 0 "Expected function for function call" with
          | .error e => .error e
          | .ok func_old =>
            let (func, s1) := s.visit_expr func_old
            match visitChildrenAs EXPR "Expected call expression argument"
                (node.children.drop 1) s1 with
            | .error e => .error e
            | .ok (args, s2) =>
              match requiredTypeId node "Expected expression to have type" with
              | .error e => .error e
              | .ok ty_old =>
                let (ty, s3) := s2.visit_type ty_old
                s3.expr_possibly_as_stmt expected_ty new_id node
                  (.Call ty func (args.map CExprId.mk))
        else .ok (s.diag node.tag expected_ty)
      | .TagMemberExpr =>
        if expected_ty &&& (EXPR ||| STMT) ≠ 0 then
          match requiredChild node.children 0 "Expected base for member expression" with
          | .error e => .error e
          | .ok base_old =>
            let (base, s1) := s.visit_expr base_old
            match requiredChild node.children 1 "Expected field for member expression" with
            | .error e => .error e
            | .ok field_old =>
              let (field, s2) := s1.visit_decl field_old
              match requiredTypeId node "Expected expression to have type" with
              | .error e => .error e
              | .ok ty_old =>
                let (ty, s3) := s2.visit_type ty_old
                s3.expr_possibly_as_stmt expected_ty new_id node (.Member ty base field)
        else .ok (s.diag node.tag expected_ty)
      | .TagBinaryOperator =>
        if expected_ty &&& (EXPR ||| STMT) ≠ 0 then
          match extraStr node.extras 0 "Expected operator" with
          | .error e => .error e
          | .ok op_str =>
            match decodeBinOp op_str with
            | .error e => .error e
            | .ok operator =>
              match requiredChild node.children 0 "Expected left operand" with
              | .error e => .error e
              | .ok left_operand_old =>
                let (left_operand, s1) := s.visit_expr left_operand_old
                match requiredChild node.children 1 "Expected right operand" with
                | .error e => .error e
                | .ok right_operand_old =>
                  let (right_operand, s2) := s1.visit_expr right_operand_old
                  match requiredTypeId node "Expected expression to have type" with
                  | .error e => .error e
                  | .ok ty_old =>
                    let (ty, s3) := s2.visit_type ty_old
                    s3.expr_possibly_as_stmt expected_ty new_id node
                      (.Binary ty operator left_operand right_operand)
        else .ok (s.diag node.tag expected_ty)
      | .TagDeclRefExpr =>
        if expected_ty &&& (EXPR ||| STMT) ≠ 0 then
          match requiredChild node.children 0 "Expected declaration on expression tag decl" with
          | .error e => .error e
          | .ok declaration_old =>
            let (declaration, s1) := s.visit_decl declaration_old
            match requiredTypeId node "Expected expression to have type" with
            | .error e => .error e
            | .ok ty_old =>
              let (ty, s2) := s1.visit_type ty_old
              s2.expr_possibly_as_stmt expected_ty new_id node (.DeclRef ty declaration)
        else .ok (s.diag node.tag expected_ty)
      | .TagArraySubscriptExpr =>
        if expected_ty &&& (EXPR ||| STMT) ≠ 0 then
          match requiredChild node.children 0 "Expected LHS on array subscript expression" with
          | .error e => .error e
          | .ok lhs_old =>
            let (lhs, s1) := s.visit_expr lhs_old
            match requiredChild node.children 1 "Expected RHS on array subscript expression" with
            | .error e => .error e
            | .ok rhs_old =>
              let (rhs, s2) := s1.visit_expr rhs_old
              match requiredTypeId node "Expected expression to have type" with
              | .error e => .error e
              | .ok ty_old =>
                let (ty, s3) := s2.visit_type ty_old
                s3.expr_possibly_as_stmt expected_ty new_id node (.ArraySubscript ty lhs rhs)
        else .ok (s.diag node.tag expected_ty)
      | .TagFunctionDecl =>
        if expected_ty &&& OTHER_DECL ≠ 0 then
          match extraStr node.extras 0 "Expected to find function name" with
          | .error e => .error e
          | .ok name =>
            match requiredTypeId node "Expected to find a type on a function decl" with
            | .error e => .error e
            | .ok typ_old =>
              let (typ, s1) := s.visit_node_type typ_old FUNC_TYPE
              match node.children.getLast? with
              | none => .error (.extraction "Expected to find a fucntion body")
              | some body_id =>
                match body_id with
                | none => .error (.extraction "Function body not found")
                | some body_old =>
                  let (body, s2) := s1.visit_stmt body_old
                  match visitChildrenAs VAR_DECL "Param field decl not found"
                      node.children.dropLast s2 with
                  | .error e => .error e
                  | .ok (parameters, s3) =>
                    .ok ((s3.add_decl new_id
                        (located node (.Function ⟨typ⟩ name
                          (parameters.map CDeclId.mk) body))).set_processed
                      new_id OTHER_DECL)
        else .ok (s.diag node.tag expected_ty)
      | .TagTypedefDecl =>
        if expected_ty &&& TYPDEF_DECL ≠ 0 then
          match extraStr node.extras 0 "Expected to find typedef name" with
          | .error e => .error e
          | .ok name =>
            match requiredTypeId node "Expected to find type on typedef declaration" with
            | .error e => .error e
            | .ok typ_old =>
              let (typ, s1) := s.visit_type typ_old
              .ok ((s1.add_decl new_id (located node (.Typedef name typ))).set_processed
                new_id TYPDEF_DECL)
        else .ok (s.diag node.tag expected_ty)
      | .TagVarDecl =>
        if expected_ty &&& VAR_DECL ≠ 0 then
          match extraStr node.extras 0 "Expected to find variable name" with
          | .error e => .error e
          | .ok ident =>
            match optionalChild node.children 0 "Variable declaration child index out of bounds" with
            | .error e => .error e
            | .ok c0 =>
              let (initializer, s1) := s.visit_opt_expr c0
              match requiredTypeId node "Expected to find type on variable declaration" with
              | .error e => .error e
              | .ok typ_old =>
                match alookup untyped_context.type_nodes typ_old with
                | none => .error (.extraction "Variable type child not found")
                | some typ_old_node =>
                  let (new_typ, s2) := s1.visit_type typ_old
                  let typ : CQualTypeId :=
                    { qualifiers := qualifiers typ_old_node, ctype := new_typ }
                  .ok ((s2.add_decl new_id
                      (located node (.Variable ident initializer typ))).set_processed
                    new_id VAR_DECL)
        else .ok (s.diag node.tag expected_ty)
      | .TagRecordDecl =>
        if expected_ty &&& RECORD_DECL ≠ 0 then
          match node.extras.get? 0 with
          | none => .error (.extraction "Record declaration extras index out of bounds")
          | some v =>
            let name : Option String := expect_str v
            match visitChildrenAs FIELD_DECL "Record field decl not found" node.children s with
            | .error e => .error e
            | .ok (fields, s1) =>
              .ok ((s1.add_decl new_id
                  (located node (.Record name (fields.map CDeclId.mk)))).set_processed
                new_id RECORD_DECL)
        else .ok (s.diag node.tag expected_ty)
      | .TagFieldDecl =>
        if expected_ty &&& FIELD_DECL ≠ 0 then
          match extraStr node.extras 0 "A field needs a name" with
          | .error e => .error e
          | .ok name =>
            .ok ((s.add_decl new_id (located node (.Field name))).set_processed
              new_id FIELD_DECL)
        else .ok (s.diag node.tag expected_ty)
      | t => .ok (s.diag t expected_ty)

/-- The outcome of one iteration of the conversion worklist loop. -/
inductive StepResult : Type
  | done (s : ConversionContext)
  | next (s : ConversionContext)
  | fail (e : ConvError)
deriving DecidableEq, Repr

/-- One iteration of the worklist loop of convert (conversion.rs): pop an
entry; if its internal id was already classified, check the mask and either
skip or abort; otherwise create the internal id, mark top-level membership,
and visit the node. -/
def ConversionContext.convert_step (s : ConversionContext) (untyped_context : AstContext) :
    StepResult :=
  match s.visit_as with
  | [] => .done s
  | (node_id, expected_ty) :: rest =>
    let s0 := { s with visit_as := rest }
    match (s0.id_mapper.get_new node_id).bind
        (fun new_id => alookup s0.processed_nodes new_id) with
    | some ty =>
      if ty &&& expected_ty ≠ 0 then .next s0
      else .fail (.typeMismatch node_id expected_ty ty)
    | none =>
      let (new_id, m) := s0.id_mapper.get_or_create_new node_id
      let s1 := { s0 with id_mapper := m }
      let s2 := if node_id ∈ untyped_context.top_nodes then s1.mark_top new_id else s1
      match s2.visit_node untyped_context node_id new_id expected_ty with
      | .ok s3 => .next s3
      | .error e => .fail e

/-- The worklist loop of convert (conversion.rs), driven by fuel: ok none
models a traversal that has not finished within the fuel bound (the source
loop simply keeps running), ok (some s) is normal completion, error is a
fatal abort. -/
def ConversionContext.convert (s : ConversionContext) (untyped_context : AstContext) :
    Nat → Except ConvError (Option ConversionContext)
  | 0 => .ok none
  | fuel + 1 =>
    match s.convert_step untyped_context with
    | .done s' => .ok (some s')
    | .next s' => s'.convert untyped_context fuel
    | .fail e => .error e

/-- The transparent type forms chased by resolve_type_id: type-of, decayed,
elaborated, typedef-reference. -/
def transparentKind : CTypeKind → Bool
  | .Elaborated _ => true
  | .Decayed _ => true
  | .TypeOf _ => true
  | .Typedef _ => true
  | _ => false

/-- WrapsTo ctx t n b: starting from type id t, a finite acyclic chain of
exactly n transparent wrappers (each stored in ctx) reaches the
non-transparent type id b. -/
inductive WrapsTo (ctx : TypedAstContext) : CTypeId → Nat → CTypeId → Prop
  | base (t : CTypeId) (ty : CType) (h : ctx.indexType t = some ty)
      (hnt : transparentKind ty.kind = false) : WrapsTo ctx t 0 t
  | elaborated (t t2 b : CTypeId) (n : Nat) (ty : CType) (h : ctx.indexType t = some ty)
      (hk : ty.kind = .Elaborated t2) (h2 : WrapsTo ctx t2 n b) : WrapsTo ctx t (n + 1) b
  | decayed (t t2 b : CTypeId) (n : Nat) (ty : CType) (h : ctx.indexType t = some ty)
      (hk : ty.kind = .Decayed t2) (h2 : WrapsTo ctx t2 n b) : WrapsTo ctx t (n + 1) b
  | typeOf (t t2 b : CTypeId) (n : Nat) (ty : CType) (h : ctx.indexType t = some ty)
      (hk : ty.kind = .TypeOf t2) (h2 : WrapsTo ctx t2 n b) : WrapsTo ctx t (n + 1) b
  | typedef (t : CTypeId) (d : CTypedefId) (name : String) (t2 b : CTypeId) (n : Nat)
      (ty : CType) (dd : CDecl) (h : ctx.indexType t = some ty) (hk : ty.kind = .Typedef d)
      (hd : ctx.indexDecl d = some dd) (hdk : dd.kind = .Typedef name t2)
      (h2 : WrapsTo ctx t2 n b) : WrapsTo ctx t (n + 1) b

/-- The reachable states of the Identifier Correspondence Table: everything
obtainable from IdMapper.new by its own mutating operations. -/
inductive IdMapper.Reachable : IdMapper → Prop
  | new : IdMapper.Reachable IdMapper.new
  | fresh (m : IdMapper) (h : IdMapper.Reachable m) : IdMapper.Reachable m.fresh_id.2
  | getOrCreate (m : IdMapper) (old_id : ClangId) (h : IdMapper.Reachable m) :
      IdMapper.Reachable (m.get_or_create_new old_id).2
  | merge (m : IdMapper) (a b : ClangId) (h : IdMapper.Reachable m) :
      IdMapper.Reachable (m.merge_old a b).2

/-- Whether an AST-node tag has a handling arm of visit_node whose guard
accepts the expected mask (conversion.rs; everything else falls to the
println default arm). -/
def astSupported (t : ASTEntryTag) (e : NodeType) : Bool :=
  match t with
  | .TagCompoundStmt => decide (e &&& node_types.OTHER_STMT ≠ 0)
  | .TagDeclStmt => decide (e &&& node_types.OTHER_STMT ≠ 0)
  | .TagReturnStmt => decide (e &&& node_types.OTHER_STMT ≠ 0)
  | .TagIfStmt => decide (e &&& node_types.OTHER_STMT ≠ 0)
  | .TagGotoStmt => decide (e &&& node_types.OTHER_STMT ≠ 0)
  | .TagNullStmt => decide (e &&& node_types.OTHER_STMT ≠ 0)
  | .TagForStmt => decide (e &&& node_types.OTHER_STMT ≠ 0)
  | .TagWhileStmt => decide (e &&& node_types.OTHER_STMT ≠ 0)
  | .TagDoStmt => decide (e &&& node_types.OTHER_STMT ≠ 0)
  | .TagLabelStmt => decide (e &&& node_types.LABEL_STMT ≠ 0)
  | .TagParenExpr => decide (e &&& (node_types.EXPR ||| node_types.STMT) ≠ 0)
  | .TagIntegerLiteral => decide (e &&& (node_types.EXPR ||| node_types.STMT) ≠ 0)
  | .TagCharacterLiteral => decide (e &&& (node_types.EXPR ||| node_types.STMT) ≠ 0)
  | .TagFloatingLiteral => decide (e &&& (node_types.EXPR ||| node_types.STMT) ≠ 0)
  | .TagUnaryOperator => decide (e &&& (node_types.EXPR ||| node_types.STMT) ≠ 0)
  | .TagImplicitCastExpr => decide (e &&& (node_types.EXPR ||| node_types.STMT) ≠ 0)
  | .TagCallExpr => decide (e &&& (node_types.EXPR ||| node_types.STMT) ≠ 0)
  | .TagMemberExpr => decide (e &&& (node_types.EXPR ||| node_types.STMT) ≠ 0)
  | .TagBinaryOperator => decide (e &&& (node_types.EXPR ||| node_types.STMT) ≠ 0)
  | .TagDeclRefExpr => decide (e &&& (node_types.EXPR ||| node_types.STMT) ≠ 0)
  | .TagArraySubscriptExpr => decide (e &&& (node_types.EXPR ||| node_types.STMT) ≠ 0)
  | .TagFunctionDecl => decide (e &&& node_types.OTHER_DECL ≠ 0)
  | .TagTypedefDecl => decide (e &&& node_types.TYPDEF_DECL ≠ 0)
  | .TagVarDecl => decide (e &&& node_types.VAR_DECL ≠ 0)
  | .TagRecordDecl => decide (e &&& node_types.RECORD_DECL ≠ 0)
  | .TagFieldDecl => decide (e &&& node_types.FIELD_DECL ≠ 0)
  | _ => false

/-- Whether a type-node tag has a handling arm of visit_node whose guard
accepts the expected mask (conversion.rs; everything else falls to the
panicking default arm of the type match). -/
def typeSupported (t : TypeTag) (e : NodeType) : Bool :=
  match t with
  | .TagFunctionType => decide (e &&& node_types.FUNC_TYPE ≠ 0)
  | .TagComplexType => false
  | .TagConstantArrayType => false
  | _ => decide (e &&& node_types.OTHER_TYPE ≠ 0)

/-- x is a parenthesization node (in the foreign input) whose wrapped child
is y. -/
def parenChild (u : AstContext) (x y : ClangId) : Prop :=
  ∃ n, alookup u.ast_nodes x = some n ∧ n.tag = .TagParenExpr ∧
    n.children.get? 0 = some (some y)

/-- Strict descent along parenthesization children. -/
inductive ParenDesc (u : AstContext) : ClangId → ClangId → Prop
  | step (x y : ClangId) (h : parenChild u x y) : ParenDesc u x y
  | tail (x y z : ClangId) (h : parenChild u x y) (h2 : ParenDesc u y z) : ParenDesc u x z

/-- Tags whose visit_node arm stores a statement without recording the node in
processed_nodes (conversion.rs TagNullStmt, TagForStmt, TagWhileStmt,
TagDoStmt). -/
def stmtOnlyTag (t : ASTEntryTag) : Bool :=
  match t with
  | .TagNullStmt => true
  | .TagForStmt => true
  | .TagWhileStmt => true
  | .TagDoStmt => true
  | _ => false

/-- A foreign node that can only ever contribute statement stores while
remaining unclassified: either one of the statement tags that skip
processed_nodes, or a parenthesization chain leading to one. -/
inductive StmtOnlyChain (u : AstContext) : ClangId → Prop
  | base (x : ClangId) (n : AstNode) (h : alookup u.ast_nodes x = some n)
      (ht : stmtOnlyTag n.tag = true) : StmtOnlyChain u x
  | paren (x y : ClangId) (h : parenChild u x y) (h2 : StmtOnlyChain u y) :
      StmtOnlyChain u x

/-- The foreign-to-internal binding of the conversion state. -/
def bindOf (s : ConversionContext) (x : ClangId) : Option NewId :=
  s.id_mapper.get_new x

/-- The recorded classification of an internal id. -/
def procOf (s : ConversionContext) (i : NewId) : Option NodeType :=
  alookup s.processed_nodes i

/-- The id counter of the conversion state. -/
def srcOf (s : ConversionContext) : NewId :=
  s.id_mapper.new_id_source

/-- The foreign ast-node and type-node key spaces are disjoint. -/
def DisjointKeys (u : AstContext) : Prop :=
  ∀ p ∈ u.ast_nodes, alookup u.type_nodes p.1 = none

/-- No foreign id in the top-level set is the wrapped child of a
parenthesization node (so parenthesization collapsing never re-aliases a
top-level id). -/
def TopNotParenChild (u : AstContext) : Prop :=
  ∀ p ∈ u.ast_nodes, p.2.tag = .TagParenExpr →
    ∀ w, p.2.children.get? 0 = some (some w) → w ∉ u.top_nodes

/-- The four typed stores have pairwise disjoint sets of internal id values. -/
def StoresDisjoint (s : ConversionContext) : Prop :=
  (∀ i, (alookup s.typed_context.c_types ⟨i⟩).isSome →
    (alookup s.typed_context.c_exprs ⟨i⟩).isSome → False) ∧
  (∀ i, (alookup s.typed_context.c_types ⟨i⟩).isSome →
    (alookup s.typed_context.c_decls ⟨i⟩).isSome → False) ∧
  (∀ i, (alookup s.typed_context.c_types ⟨i⟩).isSome →
    (alookup s.typed_context.c_stmts ⟨i⟩).isSome → False) ∧
  (∀ i, (alookup s.typed_context.c_exprs ⟨i⟩).isSome →
    (alookup s.typed_context.c_decls ⟨i⟩).isSome → False) ∧
  (∀ i, (alookup s.typed_context.c_exprs ⟨i⟩).isSome →
    (alookup s.typed_context.c_stmts ⟨i⟩).isSome → False) ∧
  (∀ i, (alookup s.typed_context.c_decls ⟨i⟩).isSome →
    (alookup s.typed_context.c_stmts ⟨i⟩).isSome → False)

/-- The inductive invariant behind namespace disjointness (claim C8): id
freshness bounds, the correspondence between store membership and recorded
classification, and the structure of aliases of unclassified internal ids. -/
structure Inv8 (u : AstContext) (s : ConversionContext) : Prop where
  bind_le : ∀ x i, bindOf s x = some i → i ≤ srcOf s
  proc_le : ∀ i k, procOf s i = some k → i ≤ srcOf s
  types_le : ∀ i, (alookup s.typed_context.c_types ⟨i⟩).isSome → i ≤ srcOf s
  exprs_le : ∀ i, (alookup s.typed_context.c_exprs ⟨i⟩).isSome → i ≤ srcOf s
  decls_le : ∀ i, (alookup s.typed_context.c_decls ⟨i⟩).isSome → i ≤ srcOf s
  stmts_le : ∀ i, (alookup s.typed_context.c_stmts ⟨i⟩).isSome → i ≤ srcOf s
  types_proc : ∀ i, (alookup s.typed_context.c_types ⟨i⟩).isSome →
    procOf s i = some node_types.FUNC_TYPE ∨ procOf s i = some node_types.OTHER_TYPE
  exprs_proc : ∀ i, (alookup s.typed_context.c_exprs ⟨i⟩).isSome →
    procOf s i = some node_types.EXPR
  decls_proc : ∀ i, (alookup s.typed_context.c_decls ⟨i⟩).isSome →
    procOf s i = some node_types.FIELD_DECL ∨ procOf s i = some node_types.VAR_DECL ∨
    procOf s i = some node_types.RECORD_DECL ∨ procOf s i = some node_types.TYPDEF_DECL ∨
    procOf s i = some node_types.OTHER_DECL
  stmts_proc : ∀ i, (alookup s.typed_context.c_stmts ⟨i⟩).isSome →
    procOf s i = none ∨ procOf s i = some node_types.LABEL_STMT ∨
    procOf s i = some node_types.OTHER_STMT ∨ procOf s i = some node_types.STMT
  chainK : ∀ i, procOf s i = none → (alookup s.typed_context.c_stmts ⟨i⟩).isSome →
    ∀ x, bindOf s x = some i → StmtOnlyChain u x
  chainR : ∀ i, procOf s i = none → ∀ x y, bindOf s x = some i → bindOf s y = some i →
    x = y ∨ ParenDesc u x y ∨ ParenDesc u y x

/-- The inductive invariant behind top-level propagation (claim C7); requires
TopNotParenChild of the input. -/
structure Inv7 (u : AstContext) (s : ConversionContext) : Prop where
  bind_le : ∀ x i, bindOf s x = some i → i ≤ srcOf s
  proc_le : ∀ i k, procOf s i = some k → i ≤ srcOf s
  marked_le : ∀ d ∈ s.typed_context.c_decls_top, d.id ≤ srcOf s
  pend : ∀ f ∈ u.top_nodes, ∀ i, bindOf s f = some i →
    (⟨i⟩ : CDeclId) ∈ s.typed_context.c_decls_top ∨
    ((∃ m, (f, m) ∈ s.visit_as) ∧ ∀ x, bindOf s x = some i → x = f)
  procMarked : ∀ f ∈ u.top_nodes, ∀ i, bindOf s f = some i → ∀ k, procOf s i = some k →
    (⟨i⟩ : CDeclId) ∈ s.typed_context.c_decls_top
  markedImage : ∀ d ∈ s.typed_context.c_decls_top, ∃ f ∈ u.top_nodes, bindOf s f = some d.id

/-- Inv7 weakened right after popping a worklist entry that requests node_id:
the pending-entry witness of a top-level foreign id may be the entry just
popped (the disjunct f = node_id), to be restored by the top-level marking
performed before the node is visited. -/
def Inv7Pop (u : AstContext) (node_id : ClangId) (s : ConversionContext) : Prop :=
  (∀ x i, bindOf s x = some i → i ≤ srcOf s) ∧
  (∀ i k, procOf s i = some k → i ≤ srcOf s) ∧
  (∀ d ∈ s.typed_context.c_decls_top, d.id ≤ srcOf s) ∧
  (∀ f ∈ u.top_nodes, ∀ i, bindOf s f = some i →
    (⟨i⟩ : CDeclId) ∈ s.typed_context.c_decls_top ∨
    ((f = node_id ∨ ∃ m, (f, m) ∈ s.visit_as) ∧ ∀ x, bindOf s x = some i → x = f)) ∧
  (∀ f ∈ u.top_nodes, ∀ i, bindOf s f = some i → ∀ k, procOf s i = some k →
    (⟨i⟩ : CDeclId) ∈ s.typed_context.c_decls_top) ∧
  (∀ d ∈ s.typed_context.c_decls_top, ∃ f ∈ u.top_nodes, bindOf s f = some d.id)

/-- Every top-level foreign id backed by an ast node is either still pending
on the worklist or already bound to an internal id. -/
def SeededBound (u : AstContext) (s : ConversionContext) : Prop :=
  ∀ f ∈ u.top_nodes, (alookup u.ast_nodes f).isSome →
    (∃ m, (f, m) ∈ s.visit_as) ∨ (∃ i, bindOf s f = some i)

/-- Qualifier sets that carry neither restrict nor volatile. -/
def QualOk (q : Qualifiers) : Prop :=
  q.is_restrict = false ∧ q.is_volatile = false

/-- Every qualified type embedded in a stored type node is QualOk. -/
def TypeKindQualsOk : CTypeKind → Prop
  | .Pointer q => QualOk q.qualifiers
  | .ConstantArray q _ => QualOk q.qualifiers
  | .IncompleteArray q => QualOk q.qualifiers
  | .VariableArray q _ => QualOk q.qualifiers
  | .Function ret args => QualOk ret.qualifiers ∧ ∀ a ∈ args, QualOk a.qualifiers
  | _ => True

/-- Every qualified type embedded in a stored declaration node is QualOk. -/
def DeclKindQualsOk : CDeclKind → Prop
  | .Variable _ _ t => QualOk t.qualifiers
  | _ => True

/-- No qualified type held in the typed stores carries restrict or volatile. -/
def StateQualsOk (s : ConversionContext) : Prop :=
  (∀ p ∈ s.typed_context.c_types, TypeKindQualsOk p.2.kind) ∧
  (∀ p ∈ s.typed_context.c_decls, DeclKindQualsOk p.2.kind)

/-- One worklist iteration as a relation between conversion states. -/
def stepNext (u : AstContext) (a b : ConversionContext) : Prop :=
  a.convert_step u = .next b

/-- All states the conversion loop passes through, from a given start. -/
def StepsTo (u : AstContext) : ConversionContext → ConversionContext → Prop :=
  Relation.ReflTransGen (stepNext u)

/-- Run a conversion from the seeded initial state. -/
def runConv (u : AstContext) (fuel : Nat) : Except ConvError (Option ConversionContext) :=
  (ConversionContext.new u).convert u fuel

/-- The final state of a successful conversion run (initial state otherwise). -/
def finalState (u : AstContext) (fuel : Nat) : ConversionContext :=
  match runConv u fuel with
  | .ok (some s) => s
  | _ => ConversionContext.new u

/-- Concrete input for claim C6: a variable declaration whose type is a
complex type node, which visit_node does not support. -/
def exInputComplexVar : AstContext :=
  { ast_nodes :=
      [ (600, { tag := .TagVarDecl, children := [none], line := 1, column := 1,
                fileid := 0, type_id := some 700, extras := [.str "x"] }) ]
    type_nodes := [ (700, { tag := .TagComplexType, constant := false, extras := [] }) ]
    top_nodes := [600]
    files := [] }

/-- Concrete input for claim C7: the top-level set holds both a variable
declaration and an integer literal, and the literal is also the wrapped child
of a parenthesization node used as the variable initializer.  Collapsing the
parenthesization re-aliases foreign id 102 away from its first internal id. -/
def exInputTopParen : AstContext :=
  { ast_nodes :=
      [ (100, { tag := .TagVarDecl, children := [some 101], line := 1, column := 1,
                fileid := 0, type_id := some 200, extras := [.str "x"] })
      , (101, { tag := .TagParenExpr, children := [some 102], line := 1, column := 2,
                fileid := 0, type_id := none, extras := [] })
      , (102, { tag := .TagIntegerLiteral, children := [], line := 1, column := 3,
                fileid := 0, type_id := some 200, extras := [.uint 0] }) ]
    type_nodes := [ (200, { tag := .TagInt, constant := false, extras := [] }) ]
    top_nodes := [100, 102]
    files := [] }

/-- Concrete input for claim C8: foreign id 302 is simultaneously an ast-node
key (a null statement, used as a function body) and a type-node key (int,
used as the type of a variable declaration). -/
def exInputSharedId : AstContext :=
  { ast_nodes :=
      [ (300, { tag := .TagFunctionDecl, children := [some 302], line := 1, column := 1,
                fileid := 0, type_id := some 400, extras := [.str "f"] })
      , (301, { tag := .TagVarDecl, children := [none], line := 2, column := 1,
                fileid := 0, type_id := some 302, extras := [.str "v"] })
      , (302, { tag := .TagNullStmt, children := [], line := 1, column := 10,
                fileid := 0, type_id := none, extras := [] }) ]
    type_nodes :=
      [ (400, { tag := .TagFunctionType, constant := false, extras := [.arr [.uint 500]] })
      , (500, { tag := .TagInt, constant := false, extras := [] })
      , (302, { tag := .TagInt, constant := false, extras := [] }) ]
    top_nodes := [301, 300]
    files := [] }

/-- A small well-behaved input (one int variable declaration): disjoint key
spaces, no parenthesization, converts successfully. -/
def exInputSimple : AstContext :=
  { ast_nodes :=
      [ (10, { tag := .TagVarDecl, children := [none], line := 1, column := 1,
               fileid := 0, type_id := some 20, extras := [.str "x"] }) ]
    type_nodes := [ (20, { tag := .TagInt, constant := false, extras := [] }) ]
    top_nodes := [10]
    files := [] }

/-- The typedef name used by the resolve_type_id witness. -/
def myintName : String := "myint"

/-- A typed context holding the chain elaborated -> typedef -> int, for the
resolve_type_id witness. -/
def exChainCtx : TypedAstContext :=
  { c_types :=
      [ (⟨1⟩, not_located (.Elaborated ⟨2⟩))
      , (⟨2⟩, not_located (.Typedef ⟨3⟩))
      , (⟨4⟩, not_located .Int) ]
    c_exprs := []
    c_decls := [ (⟨3⟩, not_located (.Typedef myintName ⟨4⟩)) ]
    c_stmts := []
    c_decls_top := []
    c_files := [] }

/-- A mapper that has already seen foreign id 5 (bound to internal id 1). -/
def exMapper : IdMapper :=
  (IdMapper.new.get_or_create_new 5).2

/-- A conversion state in which foreign id 5 was already processed as an
expression, with one pending worklist entry re-requesting it. -/
def exStateProcessed : ConversionContext :=
  { id_mapper := exMapper
    processed_nodes := [(1, node_types.EXPR)]
    visit_as := [(5, node_types.EXPR)]
    typed_context := TypedAstContext.new
    diagnostics := [] }

/-- An empty foreign input. -/
def exInputEmpty : AstContext :=
  { ast_nodes := [], type_nodes := [], top_nodes := [], files := [] }

/-- An integer literal foreign node (for the lifting witness). -/
def exLiteralNode : AstNode :=
  { tag := .TagIntegerLiteral, children := [], line := 3, column := 7, fileid := 0,
    type_id := some 200, extras := [.uint 0] }

/-- A conversion state whose id counter has issued one id (for the lifting
witness, where the requested internal id 1 is already allocated). -/
def exStateOneId : ConversionContext :=
  { id_mapper := { new_id_source := 1, old_to_new := [(7, 1)], new_to_old := [] }
    processed_nodes := []
    visit_as := []
    typed_context := TypedAstContext.new
    diagnostics := [] }

/-- A null statement foreign node under an id map, for the non-fatal
diagnostic witness. -/
def exInputNullOnly : AstContext :=
  { ast_nodes :=
      [ (40, { tag := .TagNullStmt, children := [], line := 1, column := 1,
               fileid := 0, type_id := none, extras := [] }) ]
    type_nodes := [ (41, { tag := .TagComplexType, constant := false, extras := [] }) ]
    top_nodes := []
    files := [] }

/-- Every bound internal id of an id mapper is within the issued-id range. -/
def MapperBounded (m : IdMapper) : Prop :=
  ∀ x i, alookup m.old_to_new x = some i → i ≤ m.new_id_source

/-- The state evolution caused by recursively requesting child nodes: the
typed stores, the processed map and the worklist entries already present are
untouched; the id counter only grows; existing bindings persist; bindings to
already-issued ids are unchanged; fresh bindings are uniquely held and get a
pending worklist entry. -/
def VisitsOnly (s s' : ConversionContext) : Prop :=
  s'.processed_nodes = s.processed_nodes ∧
  s'.typed_context = s.typed_context ∧
  srcOf s ≤ srcOf s' ∧
  (∀ p, p ∈ s.visit_as → p ∈ s'.visit_as) ∧
  (∀ x i, bindOf s x = some i → bindOf s' x = some i) ∧
  (∀ x i, bindOf s' x = some i → i ≤ srcOf s → bindOf s x = some i) ∧
  (∀ x i, bindOf s' x = some i → bindOf s x = none → ∃ m, (x, m) ∈ s'.visit_as) ∧
  (MapperBounded s.id_mapper →
    MapperBounded s'.id_mapper ∧
    (∀ x y i, bindOf s' x = some i → bindOf s' y = some i → srcOf s < i → x = y))

/-- The possible outcomes of visit_node, abstracted to what the store
invariants need: which store receives the requested internal id, which
classification is recorded, and how the id mapper evolved. -/
inductive VNShape (u : AstContext) (s : ConversionContext) (node_id : ClangId)
    (new_id : NewId) (expected_ty : NodeType) : ConversionContext → Prop
  | diag (t : ASTEntryTag) :
      VNShape u s node_id new_id expected_ty (s.diag t expected_ty)
  | typeStore (sk : ConversionContext) (k : CTypeKind) (kind : NodeType)
      (hv : VisitsOnly s sk)
      (hkind : kind = node_types.FUNC_TYPE ∨ kind = node_types.OTHER_TYPE)
      (hq : TypeKindQualsOk k)
      (htype : (alookup u.type_nodes node_id).isSome) :
      VNShape u s node_id new_id expected_ty
        ((sk.add_type new_id (not_located k)).set_processed new_id kind)
  | stmtStore (sk : ConversionContext) (v : CStmt) (kind : NodeType)
      (hv : VisitsOnly s sk)
      (hkind : kind = node_types.OTHER_STMT ∨ kind = node_types.LABEL_STMT) :
      VNShape u s node_id new_id expected_ty
        ((sk.add_stmt new_id v).set_processed new_id kind)
  | stmtStoreNoProc (sk : ConversionContext) (v : CStmt) (node : AstNode)
      (hv : VisitsOnly s sk)
      (hast : alookup u.ast_nodes node_id = some node)
      (ht : stmtOnlyTag node.tag = true) :
      VNShape u s node_id new_id expected_ty (sk.add_stmt new_id v)
  | declStore (sk : ConversionContext) (v : CDecl) (kind : NodeType) (node : AstNode)
      (hv : VisitsOnly s sk)
      (hkind : kind = node_types.FIELD_DECL ∨ kind = node_types.VAR_DECL ∨
        kind = node_types.RECORD_DECL ∨ kind = node_types.TYPDEF_DECL ∨
        kind = node_types.OTHER_DECL)
      (hq : DeclKindQualsOk v.kind)
      (hast : alookup u.ast_nodes node_id = some node)
      (ht : stmtOnlyTag node.tag = false ∧ node.tag ≠ .TagParenExpr) :
      VNShape u s node_id new_id expected_ty
        ((sk.add_decl new_id v).set_processed new_id kind)
  | exprAsStmt (sk : ConversionContext) (node : AstNode) (ve : CExprKind)
      (s' : ConversionContext)
      (hv : VisitsOnly s sk)
      (hast : alookup u.ast_nodes node_id = some node)
      (ht : stmtOnlyTag node.tag = false ∧ node.tag ≠ .TagParenExpr)
      (hok : sk.expr_possibly_as_stmt expected_ty new_id node ve = .ok s') :
      VNShape u s node_id new_id expected_ty s'
  | paren (w : ClangId) (hpc : parenChild u node_id w) :
      VNShape u s node_id new_id expected_ty
        (({ s with id_mapper := (s.id_mapper.merge_old node_id w).2
          } : ConversionContext).visit_node_type w expected_ty).2

theorem alookup_ainsert_self {α β : Type} [DecidableEq α] (l : List (α × β)) (k : α) (v : β) :
    alookup (ainsert l k v) k = some v := by
  induction l with
  | nil => simp [ainsert, alookup]
  | cons p t ih =>
    obtain ⟨k', v'⟩ := p
    by_cases h : k' = k <;> simp [ainsert, alookup, h, ih]

theorem alookup_ainsert_ne {α β : Type} [DecidableEq α] (l : List (α × β)) (k k' : α) (v : β)
    (h : k ≠ k') : alookup (ainsert l k v) k' = alookup l k' := by
  induction l with
  | nil => simp [ainsert, alookup, h]
  | cons p t ih =>
    obtain ⟨k₀, v₀⟩ := p
    by_cases h₀ : k₀ = k
    · subst h₀
      simp [ainsert, alookup, h]
    · simp [ainsert, alookup, h₀, ih]

theorem alookup_ainsert {α β : Type} [DecidableEq α] (l : List (α × β)) (k k' : α) (v : β) :
    alookup (ainsert l k v) k' = if k = k' then some v else alookup l k' := by
  by_cases h : k = k'
  · subst h
    simp [alookup_ainsert_self]
  · simp [h, alookup_ainsert_ne l k k' v h]

theorem alookup_some_mem {α β : Type} [DecidableEq α] (l : List (α × β)) (k : α) (v : β)
    (h : alookup l k = some v) : (k, v) ∈ l := by
  induction l with
  | nil => simp [alookup] at h
  | cons p t ih =>
    obtain ⟨k₀, v₀⟩ := p
    by_cases h₀ : k₀ = k
    · subst h₀
      simp [alookup] at h
      simp [h]
    · simp [alookup, h₀] at h
      exact List.mem_cons_of_mem _ (ih h)

theorem mem_ainsert {α β : Type} [DecidableEq α] (l : List (α × β)) (k : α) (v : β)
    (p : α × β) (h : p ∈ ainsert l k v) : p = (k, v) ∨ p ∈ l := by
  induction l with
  | nil => simpa [ainsert] using h
  | cons q t ih =>
    obtain ⟨k₀, v₀⟩ := q
    by_cases h₀ : k₀ = k
    · subst h₀
      simp [ainsert] at h
      rcases h with h | h
      · left; simpa using h
      · right; simp [h]
    · simp [ainsert, h₀] at h
      rcases h with h | h
      · right; simp [h]
      · rcases ih h with h | h
        · left; exact h
        · right; simp [h]

/-- C9: in every reachable state of the Identifier Correspondence Table, the
internal-to-foreign map is empty and reverse lookup returns absence: no
operation of the table (lookup_or_create, alias, fresh) ever inserts into
new_to_old. -/
theorem claim_C9_reverse_lookup_absent (m : IdMapper) (h : m.Reachable) :
    m.new_to_old = [] ∧ ∀ i, m.get_old i = none := by
  have hempty : m.new_to_old = [] := by
    induction h with
    | new => rfl
    | fresh m h ih => simpa [IdMapper.fresh_id] using ih
    | getOrCreate m o h ih =>
      unfold IdMapper.get_or_create_new
      split
      · simpa using ih
      · simpa [IdMapper.fresh_id] using ih
    | merge m a b h ih =>
      unfold IdMapper.merge_old
      split
      · simpa using ih
      · simpa using ih
  refine ⟨hempty, fun i => ?_⟩
  simp [IdMapper.get_old, hempty, alookup]

theorem claim_C9_witness :
    (((IdMapper.new.get_or_create_new 5).2.merge_old 5 7).2).get_old 3 = none :=
  (claim_C9_reverse_lookup_absent _
    (.merge _ 5 7 (.getOrCreate _ 5 .new))).2 3

/-- C5: merge_old (alias) binds the second foreign id to the internal id of
the first when the first is known, after which both look up to the same
internal id; when the first is unknown it changes nothing and returns
absence. -/
theorem claim_C5_alias (m : IdMapper) (a b : ClangId) :
    (∀ i, m.get_new a = some i →
      m.merge_old a b = (some i, { m with old_to_new := ainsert m.old_to_new b i }) ∧
      (m.merge_old a b).2.get_new b = some i ∧
      (m.merge_old a b).2.get_new a = some i) ∧
    (m.get_new a = none → m.merge_old a b = (none, m)) := by
  constructor
  · intro i hi
    have hm : m.merge_old a b =
        (some i, { m with old_to_new := ainsert m.old_to_new b i }) := by
      unfold IdMapper.merge_old
      rw [hi]
    refine ⟨hm, ?_, ?_⟩
    · rw [hm]
      show alookup (ainsert m.old_to_new b i) b = some i
      exact alookup_ainsert_self _ _ _
    · rw [hm]
      show alookup (ainsert m.old_to_new b i) a = some i
      rw [alookup_ainsert]
      by_cases hba : b = a
      · simp [hba]
      · simpa [hba] using hi
  · intro hn
    unfold IdMapper.merge_old
    rw [hn]

theorem claim_C5_witness :
    exMapper.merge_old 5 9 =
      (some 1, { exMapper with old_to_new := ainsert exMapper.old_to_new 9 1 }) ∧
    (exMapper.merge_old 5 9).2.get_new 9 = some 1 ∧
    (exMapper.merge_old 5 9).2.get_new 5 = some 1 :=
  (claim_C5_alias exMapper 5 9).1 1 (by decide)

/-- C2: popping a worklist entry whose internal id was already classified
skips re-processing (leaving everything but the worklist unchanged) when the
recorded kind intersects the expected mask, and aborts with the structural
type-mismatch error when it does not. -/
theorem claim_C2_processed_check (u : AstContext) (s : ConversionContext)
    (node_id : ClangId) (expected_ty : NodeType) (rest : List (ClangId × NodeType))
    (i : NewId) (k : NodeType)
    (hs : s.visit_as = (node_id, expected_ty) :: rest)
    (hb : s.id_mapper.get_new node_id = some i)
    (hp : alookup s.processed_nodes i = some k) :
    (k &&& expected_ty ≠ 0 → s.convert_step u = .next { s with visit_as := rest }) ∧
    (k &&& expected_ty = 0 →
      s.convert_step u = .fail (.typeMismatch node_id expected_ty k)) := by
  have hstep : s.convert_step u =
      (if k &&& expected_ty ≠ 0 then .next { s with visit_as := rest }
       else .fail (.typeMismatch node_id expected_ty k)) := by
    unfold ConversionContext.convert_step
    rw [hs]
    dsimp only
    rw [hb]
    dsimp only [Option.bind]
    rw [hp]
  constructor
  · intro hk
    rw [hstep, if_pos hk]
  · intro hk
    rw [hstep, if_neg (by simp [hk])]

theorem claim_C2_witness :
    exStateProcessed.convert_step exInputEmpty =
      .next { exStateProcessed with visit_as := [] } :=
  (claim_C2_processed_check exInputEmpty exStateProcessed 5 node_types.EXPR [] 1
    node_types.EXPR (by decide) (by decide) (by decide)).1 (by decide)

/-- C3: lookup_or_create is idempotent per foreign id (second call returns
the same internal id and the identical mapper), and a second request for an
already-built node only records a worklist entry: visiting it again returns
the same internal id without touching the typed stores, and popping the
re-requested entry restores exactly the prior state. -/
theorem claim_C3_idempotent_resolution (m : IdMapper) (f : ClangId) (u : AstContext)
    (s : ConversionContext) (exp : NodeType) (i : NewId) (k : NodeType)
    (hb : s.id_mapper.get_new f = some i)
    (hp : alookup s.processed_nodes i = some k)
    (hk : k &&& exp ≠ 0) :
    (((m.get_or_create_new f).2.get_or_create_new f).1 = (m.get_or_create_new f).1 ∧
     ((m.get_or_create_new f).2.get_or_create_new f).2 = (m.get_or_create_new f).2) ∧
    (s.visit_node_type f exp = (i, { s with visit_as := (f, exp) :: s.visit_as }) ∧
     ({ s with visit_as := (f, exp) :: s.visit_as } : ConversionContext).convert_step u =
       .next s) := by
  refine ⟨?_, ?_, ?_⟩
  · cases hm : m.get_new f with
    | some j =>
      have h1 : m.get_or_create_new f = (j, m) := by
        unfold IdMapper.get_or_create_new
        rw [hm]
      rw [h1, h1]
      exact ⟨rfl, rfl⟩
    | none =>
      have h1 : m.get_or_create_new f =
          (m.new_id_source + 1,
           { m with new_id_source := m.new_id_source + 1
                    old_to_new := ainsert m.old_to_new f (m.new_id_source + 1) }) := by
        unfold IdMapper.get_or_create_new
        rw [hm]
        rfl
      rw [h1]
      have h2 : ({ m with new_id_source := m.new_id_source + 1
                          old_to_new := ainsert m.old_to_new f (m.new_id_source + 1)
                 } : IdMapper).get_new f = some (m.new_id_source + 1) := by
        show alookup (ainsert m.old_to_new f (m.new_id_source + 1)) f = _
        exact alookup_ainsert_self _ _ _
      unfold IdMapper.get_or_create_new
      rw [h2]
      exact ⟨rfl, rfl⟩
  · unfold ConversionContext.visit_node_type
    dsimp only
    have h1 : ({ s with visit_as := (f, exp) :: s.visit_as }
        : ConversionContext).id_mapper.get_or_create_new f = (i, s.id_mapper) := by
      unfold IdMapper.get_or_create_new
      dsimp only
      rw [hb]
    rw [h1]
  · unfold ConversionContext.convert_step
    dsimp only
    rw [hb]
    dsimp only [Option.bind]
    rw [hp]
    dsimp only
    rw [if_pos hk]

theorem claim_C3_witness :
    ((((IdMapper.new.get_or_create_new 5).2.get_or_create_new 5).1 =
        (IdMapper.new.get_or_create_new 5).1 ∧
      ((IdMapper.new.get_or_create_new 5).2.get_or_create_new 5).2 =
        (IdMapper.new.get_or_create_new 5).2) ∧
     (exStateProcessed.visit_node_type 5 node_types.EXPR =
        (1, { exStateProcessed with
                visit_as := (5, node_types.EXPR) :: exStateProcessed.visit_as }) ∧
      ({ exStateProcessed with
           visit_as := (5, node_types.EXPR) :: exStateProcessed.visit_as }
         : ConversionContext).convert_step exInputEmpty = .next exStateProcessed)) :=
  claim_C3_idempotent_resolution IdMapper.new 5 exInputEmpty exStateProcessed
    node_types.EXPR 1 node_types.EXPR (by decide) (by decide) (by decide)

/-- C1: converting an expression payload in a statement context mints the
fresh synthetic internal id new_id_source + 1, stores the expression payload
there in the expression namespace, stores an expression-statement wrapper
referencing it at the requested internal id in the statement namespace, and
the two ids are distinct. -/
theorem claim_C1_expr_as_stmt_lifting (s : ConversionContext) (expected_ty : NodeType)
    (new_id : NewId) (node : AstNode) (expr : CExprKind)
    (hstmt : expected_ty &&& node_types.STMT ≠ 0)
    (hfresh : new_id ≤ s.id_mapper.new_id_source) :
    ∃ s', s.expr_possibly_as_stmt expected_ty new_id node expr = .ok s' ∧
      s.id_mapper.new_id_source + 1 ≠ new_id ∧
      alookup s'.typed_context.c_exprs ⟨s.id_mapper.new_id_source + 1⟩ =
        some (located node expr) ∧
      alookup s'.typed_context.c_stmts ⟨new_id⟩ =
        some (located node (CStmtKind.Expr ⟨s.id_mapper.new_id_source + 1⟩)) ∧
      procOf s' (s.id_mapper.new_id_source + 1) = some node_types.EXPR ∧
      procOf s' new_id = some node_types.STMT := by
  have hne : s.id_mapper.new_id_source + 1 ≠ new_id := (Nat.lt_succ_of_le hfresh).ne'
  unfold ConversionContext.expr_possibly_as_stmt
  rw [if_pos hstmt]
  dsimp only [IdMapper.fresh_id, ConversionContext.add_expr, ConversionContext.add_stmt,
    ConversionContext.set_processed]
  refine ⟨_, rfl, hne, ?_, ?_, ?_, ?_⟩
  · exact alookup_ainsert_self _ _ _
  · exact alookup_ainsert_self _ _ _
  · show alookup (ainsert (ainsert s.processed_nodes (s.id_mapper.new_id_source + 1)
      node_types.EXPR) new_id node_types.STMT) (s.id_mapper.new_id_source + 1) = _
    rw [alookup_ainsert_ne _ _ _ _ (fun h => hne h.symm)]
    exact alookup_ainsert_self _ _ _
  · exact alookup_ainsert_self _ _ _

theorem claim_C1_witness :
    ∃ s', exStateOneId.expr_possibly_as_stmt node_types.STMT 1 exLiteralNode
        (.Literal ⟨2⟩ (.Integer 0)) = .ok s' ∧
      exStateOneId.id_mapper.new_id_source + 1 ≠ 1 ∧
      alookup s'.typed_context.c_exprs ⟨exStateOneId.id_mapper.new_id_source + 1⟩ =
        some (located exLiteralNode (.Literal ⟨2⟩ (.Integer 0))) ∧
      alookup s'.typed_context.c_stmts ⟨1⟩ =
        some (located exLiteralNode
          (CStmtKind.Expr ⟨exStateOneId.id_mapper.new_id_source + 1⟩)) ∧
      procOf s' (exStateOneId.id_mapper.new_id_source + 1) = some node_types.EXPR ∧
      procOf s' 1 = some node_types.STMT :=
  claim_C1_expr_as_stmt_lifting exStateOneId node_types.STMT 1 exLiteralNode
    (.Literal ⟨2⟩ (.Integer 0)) (by decide) (by decide)

/-- C4: resolve_type_id returns the identifier at the end of a finite acyclic
chain of transparent wrappers whenever the fuel exceeds the chain length; in
particular a type whose stored kind is already non-transparent resolves to
itself. -/
theorem claim_C4_resolve_chain (ctx : TypedAstContext) (t b : CTypeId) (n fuel : Nat)
    (h : WrapsTo ctx t n b) (hf : n < fuel) :
    ctx.resolve_type_id fuel t = some b := by
  induction h generalizing fuel with
  | base t ty hty hnt =>
    cases fuel with
    | zero => omega
    | succ fuel =>
      unfold TypedAstContext.resolve_type_id
      rw [hty]
      dsimp only
      cases hk : ty.kind <;> simp_all [transparentKind]
  | elaborated t t2 b n ty hty hk h2 ih =>
    cases fuel with
    | zero => omega
    | succ fuel =>
      unfold TypedAstContext.resolve_type_id
      rw [hty]
      dsimp only
      rw [hk]
      exact ih fuel (by omega)
  | decayed t t2 b n ty hty hk h2 ih =>
    cases fuel with
    | zero => omega
    | succ fuel =>
      unfold TypedAstContext.resolve_type_id
      rw [hty]
      dsimp only
      rw [hk]
      exact ih fuel (by omega)
  | typeOf t t2 b n ty hty hk h2 ih =>
    cases fuel with
    | zero => omega
    | succ fuel =>
      unfold TypedAstContext.resolve_type_id
      rw [hty]
      dsimp only
      rw [hk]
      exact ih fuel (by omega)
  | typedef t d name t2 b n ty dd hty hk hd hdk h2 ih =>
    cases fuel with
    | zero => omega
    | succ fuel =>
      unfold TypedAstContext.resolve_type_id
      rw [hty]
      dsimp only
      rw [hk]
      dsimp only
      rw [hd]
      dsimp only
      rw [hdk]
      exact ih fuel (by omega)

theorem claim_C4_witness :
    exChainCtx.resolve_type_id 3 ⟨1⟩ = some ⟨4⟩ ∧
    exChainCtx.resolve_type_id 1 ⟨4⟩ = some ⟨4⟩ := by
  constructor
  · exact claim_C4_resolve_chain exChainCtx ⟨1⟩ ⟨4⟩ 2 3
      (.elaborated ⟨1⟩ ⟨2⟩ ⟨4⟩ 1 (not_located (.Elaborated ⟨2⟩)) (by decide) rfl
        (.typedef ⟨2⟩ ⟨3⟩ myintName ⟨4⟩ ⟨4⟩ 0 (not_located (.Typedef ⟨3⟩))
          (not_located (.Typedef myintName ⟨4⟩)) (by decide) rfl (by decide) rfl
          (.base ⟨4⟩ (not_located .Int) (by decide) rfl)))
      (by omega)
  · exact claim_C4_resolve_chain exChainCtx ⟨4⟩ ⟨4⟩ 0 1
      (.base ⟨4⟩ (not_located .Int) (by decide) rfl) (by omega)

/-- C6 counterexample: on a concrete input whose variable declaration has a
complex type (a type-node tag the conversion does not support), the
conversion aborts with a fatal error instead of reporting a non-fatal
diagnostic and continuing, refuting the claim for type-node tags. -/
theorem claim_C6_counterexample :
    runConv exInputComplexVar 10 =
      .error (.unsupportedTypeTag .TagComplexType node_types.TYPE) := by
  rfl

/-- C6 amended: a foreign AST node whose tag is unsupported under the
requested mask is recorded as a non-fatal diagnostic, left unconverted and
conversion continues; but a foreign type node whose tag is unsupported under
the requested mask aborts the conversion with a fatal error. -/
theorem claim_C6_amended_unsupported (u : AstContext) (s : ConversionContext)
    (node_id new_id : ClangId) (e : NodeType) :
    (∀ node, alookup u.ast_nodes node_id = some node → e &&& node_types.TYPE = 0 →
      astSupported node.tag e = false →
      s.visit_node u node_id new_id e = .ok (s.diag node.tag e)) ∧
    (∀ tn, alookup u.type_nodes node_id = some tn → e &&& node_types.TYPE ≠ 0 →
      typeSupported tn.tag e = false →
      s.visit_node u node_id new_id e = .error (.unsupportedTypeTag tn.tag e)) := by
  constructor
  · intro node hn hty hsupp
    unfold ConversionContext.visit_node
    rw [if_neg (by simp [hty])]
    rw [hn]
    dsimp only
    cases htag : node.tag <;>
      rw [htag] at hsupp <;>
      simp only [astSupported] at hsupp <;>
      dsimp only <;>
      first
        | rfl
        | rw [if_neg (of_decide_eq_false hsupp)]
  · intro tn hn hty hsupp
    unfold ConversionContext.visit_node
    rw [if_pos hty]
    rw [hn]
    dsimp only
    cases htag : tn.tag <;>
      rw [htag] at hsupp <;>
      simp only [typeSupported] at hsupp <;>
      dsimp only <;>
      first
        | rfl
        | (unfold ConversionContext.prim_type_case
           rw [if_neg (of_decide_eq_false hsupp)])
        | rw [if_neg (of_decide_eq_false hsupp)]

theorem claim_C6_witness :
    ((ConversionContext.new exInputNullOnly).visit_node exInputNullOnly 40 1
        node_types.EXPR =
      .ok ((ConversionContext.new exInputNullOnly).diag .TagNullStmt node_types.EXPR)) ∧
    ((ConversionContext.new exInputNullOnly).visit_node exInputNullOnly 41 1
        node_types.TYPE =
      .error (.unsupportedTypeTag .TagComplexType node_types.TYPE)) :=
  ⟨(claim_C6_amended_unsupported exInputNullOnly _ 40 1 node_types.EXPR).1
      { tag := .TagNullStmt, children := [], line := 1, column := 1,
        fileid := 0, type_id := none, extras := [] } rfl (by decide) (by decide),
   (claim_C6_amended_unsupported exInputNullOnly _ 41 1 node_types.TYPE).2
      { tag := .TagComplexType, constant := false, extras := [] } rfl (by decide)
      (by decide)⟩

theorem get_or_create_new_of_some (m : IdMapper) (c : ClangId) (i : NewId)
    (h : m.get_new c = some i) : m.get_or_create_new c = (i, m) := by
  unfold IdMapper.get_or_create_new
  rw [h]

theorem get_or_create_new_of_none (m : IdMapper) (c : ClangId)
    (h : m.get_new c = none) : m.get_or_create_new c =
      (m.new_id_source + 1,
       { m with new_id_source := m.new_id_source + 1
                old_to_new := ainsert m.old_to_new c (m.new_id_source + 1) }) := by
  unfold IdMapper.get_or_create_new
  rw [h]
  rfl

theorem merge_old_of_some (m : IdMapper) (a b : ClangId) (i : NewId)
    (h : m.get_new a = some i) : m.merge_old a b =
      (some i, { m with old_to_new := ainsert m.old_to_new b i }) := by
  unfold IdMapper.merge_old
  rw [h]

theorem merge_old_of_none (m : IdMapper) (a b : ClangId)
    (h : m.get_new a = none) : m.merge_old a b = (none, m) := by
  unfold IdMapper.merge_old
  rw [h]

theorem visit_node_type_eq (s : ConversionContext) (c : ClangId) (t : NodeType) :
    s.visit_node_type c t =
      ((s.id_mapper.get_or_create_new c).1,
       { s with visit_as := (c, t) :: s.visit_as
                id_mapper := (s.id_mapper.get_or_create_new c).2 }) := rfl

theorem visitsOnly_refl (s : ConversionContext) : VisitsOnly s s := by
  refine ⟨rfl, rfl, le_refl _, fun p hp => hp, fun x i h => h, fun x i h _ => h,
    fun x i h hn => absurd h (by rw [hn]; simp),
    fun hb => ⟨hb, fun x y i hx hy hlt => absurd (hb x i hx) (Nat.not_le_of_gt hlt)⟩⟩

theorem visitsOnly_trans {s1 s2 s3 : ConversionContext}
    (h12 : VisitsOnly s1 s2) (h23 : VisitsOnly s2 s3) : VisitsOnly s1 s3 := by
  obtain ⟨p12, t12, src12, vas12, mono12, pull12, new12, mb12⟩ := h12
  obtain ⟨p23, t23, src23, vas23, mono23, pull23, new23, mb23⟩ := h23
  refine ⟨p23.trans p12, t23.trans t12, le_trans src12 src23,
    fun p hp => vas23 p (vas12 p hp),
    fun x i h => mono23 x i (mono12 x i h),
    fun x i h hle => pull12 x i (pull23 x i h (le_trans hle src12)) hle,
    ?_, ?_⟩
  · intro x i h hn
    cases h2 : bindOf s2 x with
    | none => exact new23 x i h h2
    | some j =>
      have h3 := mono23 x j h2
      rw [h] at h3
      obtain ⟨m, hm⟩ := new12 x j h2 hn
      exact ⟨m, vas23 _ hm⟩
  · intro hb
    obtain ⟨hb2, uniq12⟩ := mb12 hb
    obtain ⟨hb3, uniq23⟩ := mb23 hb2
    refine ⟨hb3, fun x y i hx hy hlt => ?_⟩
    by_cases hle : i ≤ srcOf s2
    · exact uniq12 x y i (pull23 x i hx hle) (pull23 y i hy hle) hlt
    · exact uniq23 x y i hx hy (lt_of_not_le hle)

theorem visitsOnly_visit_node_type (s : ConversionContext) (c : ClangId) (t : NodeType) :
    VisitsOnly s (s.visit_node_type c t).2 := by
  rw [visit_node_type_eq]
  cases h : s.id_mapper.get_new c with
  | some i =>
    rw [get_or_create_new_of_some _ _ _ h]
    exact ⟨rfl, rfl, le_refl _, fun p hp => List.mem_cons_of_mem _ hp,
      fun x j hj => hj, fun x j hj _ => hj,
      fun x j hj hn => absurd (show bindOf s x = some j from hj) (by rw [hn]; simp),
      fun hb => ⟨hb, fun x y j hx hy hlt =>
        absurd (hb x j hx) (Nat.not_le_of_gt hlt)⟩⟩
  | none =>
    rw [get_or_create_new_of_none _ _ h]
    have hlook : ∀ x : ClangId,
        alookup (ainsert s.id_mapper.old_to_new c (s.id_mapper.new_id_source + 1)) x =
        if c = x then some (s.id_mapper.new_id_source + 1)
        else alookup s.id_mapper.old_to_new x := by
      intro x
      exact alookup_ainsert _ _ _ _
    refine ⟨rfl, rfl, Nat.le_succ _, fun p hp => List.mem_cons_of_mem _ hp,
      ?_, ?_, ?_, ?_⟩
    · intro x j hj
      have hj' : alookup s.id_mapper.old_to_new x = some j := hj
      show alookup (ainsert s.id_mapper.old_to_new c (s.id_mapper.new_id_source + 1)) x
        = some j
      rw [hlook]
      by_cases hcx : c = x
      · subst hcx
        rw [show (s.id_mapper.get_new c : Option NewId) =
          alookup s.id_mapper.old_to_new c from rfl] at h
        rw [h] at hj'
        simp at hj'
      · rw [if_neg hcx]
        exact hj'
    · intro x j hj hle
      have hj' : alookup (ainsert s.id_mapper.old_to_new c
          (s.id_mapper.new_id_source + 1)) x = some j := hj
      rw [hlook] at hj'
      show alookup s.id_mapper.old_to_new x = some j
      by_cases hcx : c = x
      · rw [if_pos hcx] at hj'
        have hje : j = s.id_mapper.new_id_source + 1 := (Option.some.inj hj').symm
        have hle' : j ≤ s.id_mapper.new_id_source := hle
        rw [hje] at hle'
        exact absurd hle' (Nat.not_succ_le_self _)
      · rw [if_neg hcx] at hj'
        exact hj'
    · intro x j hj hn
      have hj' : alookup (ainsert s.id_mapper.old_to_new c
          (s.id_mapper.new_id_source + 1)) x = some j := hj
      rw [hlook] at hj'
      by_cases hcx : c = x
      · subst hcx
        exact ⟨t, List.mem_cons_self _ _⟩
      · rw [if_neg hcx] at hj'
        have hn' : alookup s.id_mapper.old_to_new x = none := hn
        rw [hn'] at hj'
        simp at hj'
    · intro hb
      constructor
      · intro x j hj
        have hj' : alookup (ainsert s.id_mapper.old_to_new c
            (s.id_mapper.new_id_source + 1)) x = some j := hj
        rw [hlook] at hj'
        show j ≤ s.id_mapper.new_id_source + 1
        by_cases hcx : c = x
        · rw [if_pos hcx] at hj'
          exact le_of_eq (Option.some.inj hj').symm
        · rw [if_neg hcx] at hj'
          exact Nat.le_succ_of_le (hb x j hj')
      · intro x y j hx hy hlt
        have hlt' : s.id_mapper.new_id_source < j := hlt
        have hx' : alookup (ainsert s.id_mapper.old_to_new c
            (s.id_mapper.new_id_source + 1)) x = some j := hx
        have hy' : alookup (ainsert s.id_mapper.old_to_new c
            (s.id_mapper.new_id_source + 1)) y = some j := hy
        rw [hlook] at hx' hy'
        by_cases hcx : c = x
        · by_cases hcy : c = y
          · rw [← hcx, ← hcy]
          · rw [if_neg hcy] at hy'
            exact absurd (hb y j hy') (Nat.not_le_of_gt hlt')
        · rw [if_neg hcx] at hx'
          exact absurd (hb x j hx') (Nat.not_le_of_gt hlt')

theorem visitsOnly_visit_type (s : ConversionContext) (c : ClangId) :
    VisitsOnly s (s.visit_type c).2 :=
  visitsOnly_visit_node_type s c node_types.TYPE

theorem visitsOnly_visit_stmt (s : ConversionContext) (c : ClangId) :
    VisitsOnly s (s.visit_stmt c).2 :=
  visitsOnly_visit_node_type s c node_types.STMT

theorem visitsOnly_visit_expr (s : ConversionContext) (c : ClangId) :
    VisitsOnly s (s.visit_expr c).2 :=
  visitsOnly_visit_node_type s c node_types.EXPR

theorem visitsOnly_visit_decl (s : ConversionContext) (c : ClangId) :
    VisitsOnly s (s.visit_decl c).2 :=
  visitsOnly_visit_node_type s c node_types.DECL

theorem visitsOnly_visit_opt_stmt (s : ConversionContext) (c : Option ClangId) :
    VisitsOnly s (s.visit_opt_stmt c).2 := by
  cases c with
  | none => exact visitsOnly_refl s
  | some i => exact visitsOnly_visit_stmt s i

theorem visitsOnly_visit_opt_expr (s : ConversionContext) (c : Option ClangId) :
    VisitsOnly s (s.visit_opt_expr c).2 := by
  cases c with
  | none => exact visitsOnly_refl s
  | some i => exact visitsOnly_visit_expr s i

theorem visitsOnly_visitChildrenAs (ty : NodeType) (msg : String)
    (l : List (Option ClangId)) (s : ConversionContext) (ids : List NewId)
    (s' : ConversionContext) (h : visitChildrenAs ty msg l s = .ok (ids, s')) :
    VisitsOnly s s' := by
  induction l generalizing s ids with
  | nil =>
    unfold visitChildrenAs at h
    cases h
    exact visitsOnly_refl _
  | cons c rest ih =>
    cases c with
    | none =>
      unfold visitChildrenAs at h
      cases h
    | some id =>
      unfold visitChildrenAs at h
      dsimp only at h
      cases hrec : visitChildrenAs ty msg rest (s.visit_node_type id ty).2 with
      | error e =>
        rw [hrec] at h
        cases h
      | ok p =>
        obtain ⟨is, s2⟩ := p
        rw [hrec] at h
        cases h
        exact visitsOnly_trans (visitsOnly_visit_node_type s id ty) (ih _ _ hrec)

theorem visitsOnly_visitFuncTypeArgs (u : AstContext) (l : List LitValue)
    (s : ConversionContext) (qs : List CQualTypeId) (s' : ConversionContext)
    (h : visitFuncTypeArgs u l s = .ok (qs, s')) :
    VisitsOnly s s' ∧ ∀ q ∈ qs, QualOk q.qualifiers := by
  induction l generalizing s qs with
  | nil =>
    unfold visitFuncTypeArgs at h
    cases h
    exact ⟨visitsOnly_refl _, by simp⟩
  | cons c rest ih =>
    unfold visitFuncTypeArgs at h
    cases hu : expect_u64 c with
    | none =>
      rw [hu] at h
      cases h
    | some tid =>
      rw [hu] at h
      dsimp only at h
      cases ht : alookup u.type_nodes tid with
      | none =>
        rw [ht] at h
        cases h
      | some tn =>
        rw [ht] at h
        dsimp only at h
        cases hrec : visitFuncTypeArgs u rest (s.visit_type tid).2 with
        | error e =>
          rw [hrec] at h
          cases h
        | ok p =>
          obtain ⟨qs2, s2⟩ := p
          rw [hrec] at h
          cases h
          obtain ⟨hv, hq⟩ := ih _ _ hrec
          refine ⟨visitsOnly_trans (visitsOnly_visit_type s tid) hv, ?_⟩
          intro q hq2
          rcases List.mem_cons.mp hq2 with hq2 | hq2
          · rw [hq2]
            exact ⟨rfl, rfl⟩
          · exact hq q hq2

theorem requiredChild_ok (l : List (Option ClangId)) (i : Nat) (msg : String) (c : ClangId)
    (h : requiredChild l i msg = .ok c) : l.get? i = some (some c) := by
  unfold requiredChild at h
  cases hl : l.get? i with
  | none =>
    rw [hl] at h
    cases h
  | some o =>
    cases o with
    | none =>
      rw [hl] at h
      cases h
    | some c2 =>
      rw [hl] at h
      cases h
      rfl

theorem shape_prim (u : AstContext) (s : ConversionContext) (node_id : ClangId)
    (new_id : NewId) (e : NodeType) (tg : TypeTag) (k : CTypeKind)
    (s' : ConversionContext)
    (htype : (alookup u.type_nodes node_id).isSome)
    (hq : TypeKindQualsOk k)
    (hok : s.prim_type_case new_id e tg k = .ok s') :
    VNShape u s node_id new_id e s' := by
  unfold ConversionContext.prim_type_case at hok
  split at hok
  · cases hok
    exact .typeStore s k node_types.OTHER_TYPE (visitsOnly_refl s) (Or.inr rfl) hq htype
  · cases hok

theorem visit_node_ok_shape (u : AstContext) (s : ConversionContext) (node_id : ClangId)
    (new_id : NewId) (e : NodeType) (s' : ConversionContext)
    (hok : s.visit_node u node_id new_id e = .ok s') :
    VNShape u s node_id new_id e s' := by
  unfold ConversionContext.visit_node at hok
  split at hok
  · -- the expected mask requests a type node
    cases hn : alookup u.type_nodes node_id with
    | none =>
      rw [hn] at hok
      cases hok
    | some tn =>
      rw [hn] at hok
      dsimp only at hok
      have htype : (alookup u.type_nodes node_id).isSome := by rw [hn]; rfl
      cases htag : tn.tag <;> rw [htag] at hok <;> dsimp only at hok
      case TagBool => exact shape_prim _ _ _ _ _ .TagBool .Bool _ htype trivial hok
      case TagVoid => exact shape_prim _ _ _ _ _ .TagVoid .Void _ htype trivial hok
      case TagChar => exact shape_prim _ _ _ _ _ .TagChar .Char _ htype trivial hok
      case TagInt => exact shape_prim _ _ _ _ _ .TagInt .Int _ htype trivial hok
      case TagShort => exact shape_prim _ _ _ _ _ .TagShort .Short _ htype trivial hok
      case TagLong => exact shape_prim _ _ _ _ _ .TagLong .Long _ htype trivial hok
      case TagLongLong => exact shape_prim _ _ _ _ _ .TagLongLong .LongLong _ htype trivial hok
      case TagUInt => exact shape_prim _ _ _ _ _ .TagUInt .UInt _ htype trivial hok
      case TagUChar => exact shape_prim _ _ _ _ _ .TagUChar .UChar _ htype trivial hok
      case TagSChar => exact shape_prim _ _ _ _ _ .TagSChar .SChar _ htype trivial hok
      case TagUShort => exact shape_prim _ _ _ _ _ .TagUShort .UShort _ htype trivial hok
      case TagULong => exact shape_prim _ _ _ _ _ .TagULong .ULong _ htype trivial hok
      case TagULongLong => exact shape_prim _ _ _ _ _ .TagULongLong .ULongLong _ htype trivial hok
      case TagDouble => exact shape_prim _ _ _ _ _ .TagDouble .Double _ htype trivial hok
      case TagLongDouble => exact shape_prim _ _ _ _ _ .TagLongDouble .LongDouble _ htype trivial hok
      case TagFloat => exact shape_prim _ _ _ _ _ .TagFloat .Float _ htype trivial hok
      case TagPointer =>
        split at hok
        · split at hok
          · cases hok
          · rename_i pointed _
            cases hok
            exact .typeStore (s.visit_type pointed).2
              (.Pointer { qualifiers := qualifiers tn, ctype := (s.visit_type pointed).1 })
              node_types.OTHER_TYPE (visitsOnly_visit_type s pointed) (Or.inr rfl)
              ⟨rfl, rfl⟩ htype
        · cases hok
      case TagRecordType =>
        split at hok
        · split at hok
          · cases hok
          · rename_i decl _
            cases hok
            exact .typeStore (s.visit_node_type decl node_types.RECORD_DECL).2
              (.Record ⟨(s.visit_node_type decl node_types.RECORD_DECL).1⟩)
              node_types.OTHER_TYPE
              (visitsOnly_visit_node_type s decl node_types.RECORD_DECL) (Or.inr rfl)
              trivial htype
        · cases hok
      case TagFunctionType =>
        split at hok
        · split at hok
          · cases hok
          · rename_i cbors _
            cases hargs : visitFuncTypeArgs u cbors s with
            | error e2 =>
              rw [hargs] at hok
              cases hok
            | ok p =>
              obtain ⟨arguments, s1⟩ := p
              rw [hargs] at hok
              dsimp only at hok
              obtain ⟨hv, hq⟩ := visitsOnly_visitFuncTypeArgs u cbors s arguments s1 hargs
              cases arguments with
              | nil => cases hok
              | cons ret args =>
                cases hok
                refine .typeStore s1 (.Function ret args) node_types.FUNC_TYPE hv
                  (Or.inl rfl) ?_ htype
                refine ⟨hq ret (List.mem_cons_self _ _), fun a ha => ?_⟩
                exact hq a (List.mem_cons_of_mem _ ha)
        · cases hok
      case TagTypeOfType =>
        split at hok
        · split at hok
          · cases hok
          · rename_i x _
            cases hok
            exact .typeStore (s.visit_type x).2 (.TypeOf (s.visit_type x).1)
              node_types.OTHER_TYPE (visitsOnly_visit_type s x) (Or.inr rfl) trivial htype
        · cases hok
      case TagTypedefType =>
        split at hok
        · split at hok
          · cases hok
          · rename_i decl _
            cases hok
            exact .typeStore (s.visit_node_type decl node_types.TYPDEF_DECL).2
              (.Typedef ⟨(s.visit_node_type decl node_types.TYPDEF_DECL).1⟩)
              node_types.OTHER_TYPE
              (visitsOnly_visit_node_type s decl node_types.TYPDEF_DECL) (Or.inr rfl)
              trivial htype
        · cases hok
      case TagDecayedType =>
        split at hok
        · split at hok
          · cases hok
          · rename_i x _
            cases hok
            exact .typeStore (s.visit_type x).2 (.Decayed (s.visit_type x).1)
              node_types.OTHER_TYPE (visitsOnly_visit_type s x) (Or.inr rfl) trivial htype
        · cases hok
      case TagElaboratedType =>
        split at hok
        · split at hok
          · cases hok
          · rename_i x _
            cases hok
            exact .typeStore (s.visit_type x).2 (.Elaborated (s.visit_type x).1)
              node_types.OTHER_TYPE (visitsOnly_visit_type s x) (Or.inr rfl) trivial htype
        · cases hok
      case TagComplexType => cases hok
      case TagConstantArrayType => cases hok
  · -- the expected mask requests an AST node
    cases hn : alookup u.ast_nodes node_id with
    | none =>
      rw [hn] at hok
      cases hok
    | some node =>
      rw [hn] at hok
      dsimp only at hok
      cases htag : node.tag <;> rw [htag] at hok <;> dsimp only at hok
      case TagCompoundStmt =>
        split at hok
        · split at hok
          · cases hok
          · rename_i p ids s1 hch
            cases hok
            exact .stmtStore s1 _ node_types.OTHER_STMT
              (visitsOnly_visitChildrenAs _ _ _ _ _ _ hch) (Or.inl rfl)
        · cases hok
          exact .diag _
      case TagDeclStmt =>
        split at hok
        · split at hok
          · cases hok
          · rename_i p ids s1 hch
            cases hok
            exact .stmtStore s1 _ node_types.OTHER_STMT
              (visitsOnly_visitChildrenAs _ _ _ _ _ _ hch) (Or.inl rfl)
        · cases hok
          exact .diag _
      case TagReturnStmt =>
        split at hok
        · split at hok
          · cases hok
          · rename_i c hc
            cases hok
            exact .stmtStore (s.visit_opt_expr c).2 _ node_types.OTHER_STMT
              (visitsOnly_visit_opt_expr s c) (Or.inl rfl)
        · cases hok
          exact .diag _
      case TagIfStmt =>
        split at hok
        · split at hok
          · cases hok
          · rename_i c0 h0
            split at hok
            · cases hok
            · rename_i c1 h1
              split at hok
              · cases hok
              · rename_i c2 h2
                cases hok
                exact .stmtStore _ _ node_types.OTHER_STMT
                  (visitsOnly_trans (visitsOnly_visit_expr s c0)
                    (visitsOnly_trans (visitsOnly_visit_stmt _ c1)
                      (visitsOnly_visit_opt_stmt _ c2))) (Or.inl rfl)
        · cases hok
          exact .diag _
      case TagGotoStmt =>
        split at hok
        · split at hok
          · cases hok
          · rename_i c0 h0
            cases hok
            exact .stmtStore _ _ node_types.OTHER_STMT
              (visitsOnly_visit_node_type s c0 node_types.LABEL_STMT) (Or.inl rfl)
        · cases hok
          exact .diag _
      case TagNullStmt =>
        split at hok
        · cases hok
          exact .stmtStoreNoProc s _ node (visitsOnly_refl s) hn (by rw [htag]; rfl)
        · cases hok
          exact .diag _
      case TagForStmt =>
        split at hok
        · split at hok
          · cases hok
          · rename_i c0 h0
            split at hok
            · cases hok
            · rename_i c1 h1
              split at hok
              · cases hok
              · rename_i c2 h2
                split at hok
                · cases hok
                · rename_i c3 h3
                  cases hok
                  exact .stmtStoreNoProc _ _ node
                    (visitsOnly_trans (visitsOnly_visit_opt_stmt s c0)
                      (visitsOnly_trans (visitsOnly_visit_opt_expr _ c1)
                        (visitsOnly_trans (visitsOnly_visit_opt_expr _ c2)
                          (visitsOnly_visit_stmt _ c3)))) hn (by rw [htag]; rfl)
        · cases hok
          exact .diag _
      case TagWhileStmt =>
        split at hok
        · split at hok
          · cases hok
          · rename_i c0 h0
            split at hok
            · cases hok
            · rename_i c1 h1
              cases hok
              exact .stmtStoreNoProc _ _ node
                (visitsOnly_trans (visitsOnly_visit_expr s c0)
                  (visitsOnly_visit_stmt _ c1)) hn (by rw [htag]; rfl)
        · cases hok
          exact .diag _
      case TagDoStmt =>
        split at hok
        · split at hok
          · cases hok
          · rename_i c0 h0
            split at hok
            · cases hok
            · rename_i c1 h1
              cases hok
              exact .stmtStoreNoProc _ _ node
                (visitsOnly_trans (visitsOnly_visit_stmt s c0)
                  (visitsOnly_visit_expr _ c1)) hn (by rw [htag]; rfl)
        · cases hok
          exact .diag _
      case TagLabelStmt =>
        split at hok
        · split at hok
          · cases hok
          · rename_i c0 h0
            cases hok
            exact .stmtStore _ _ node_types.LABEL_STMT
              (visitsOnly_visit_stmt s c0) (Or.inr rfl)
        · cases hok
          exact .diag _
      case TagParenExpr =>
        split at hok
        · split at hok
          · cases hok
          · rename_i w hw
            cases hok
            exact .paren w ⟨node, hn, htag, requiredChild_ok _ _ _ _ hw⟩
        · cases hok
          exact .diag _
      case TagIntegerLiteral =>
        split at hok
        · split at hok
          · cases hok
          · rename_i v hv
            split at hok
            · cases hok
            · rename_i ty_old hty
              exact .exprAsStmt (s.visit_type ty_old).2 node _ s'
                (visitsOnly_visit_type s ty_old) hn
                ⟨by rw [htag]; rfl, by rw [htag]; decide⟩ hok
        · cases hok
          exact .diag _
      case TagCharacterLiteral =>
        split at hok
        · split at hok
          · cases hok
          · rename_i v hv
            split at hok
            · cases hok
            · rename_i ty_old hty
              exact .exprAsStmt (s.visit_type ty_old).2 node _ s'
                (visitsOnly_visit_type s ty_old) hn
                ⟨by rw [htag]; rfl, by rw [htag]; decide⟩ hok
        · cases hok
          exact .diag _
      case TagFloatingLiteral =>
        split at hok
        · split at hok
          · cases hok
          · rename_i v hv
            split at hok
            · cases hok
            · rename_i ty_old hty
              exact .exprAsStmt (s.visit_type ty_old).2 node _ s'
                (visitsOnly_visit_type s ty_old) hn
                ⟨by rw [htag]; rfl, by rw [htag]; decide⟩ hok
        · cases hok
          exact .diag _
      case TagUnaryOperator =>
        split at hok
        · split at hok
          · cases hok
          · rename_i op_str hop
            split at hok
            · cases hok
            · rename_i op hdec
              split at hok
              · cases hok
              · rename_i c0 h0
                split at hok
                · cases hok
                · rename_i ty_old hty
                  split at hok
                  · cases hok
                  · rename_i pre hpre
                    exact .exprAsStmt _ node _ s'
                      (visitsOnly_trans (visitsOnly_visit_expr s c0)
                        (visitsOnly_visit_type _ ty_old)) hn
                      ⟨by rw [htag]; rfl, by rw [htag]; decide⟩ hok
        · cases hok
          exact .diag _
      case TagImplicitCastExpr =>
        split at hok
        · split at hok
          · cases hok
          · rename_i c0 h0
            split at hok
            · cases hok
            · rename_i ty_old hty
              exact .exprAsStmt _ node _ s'
                (visitsOnly_trans (visitsOnly_visit_expr s c0)
                  (visitsOnly_visit_type _ ty_old)) hn
                ⟨by rw [htag]; rfl, by rw [htag]; decide⟩ hok
        · cases hok
          exact .diag _
      case TagCallExpr =>
        split at hok
        · split at hok
          · cases hok
          · rename_i c0 h0
            split at hok
            · cases hok
            · rename_i p args s2 hargs
              split at hok
              · cases hok
              · rename_i ty_old hty
                exact .exprAsStmt _ node _ s'
                  (visitsOnly_trans (visitsOnly_visit_expr s c0)
                    (visitsOnly_trans (visitsOnly_visitChildrenAs _ _ _ _ _ _ hargs)
                      (visitsOnly_visit_type _ ty_old))) hn
                  ⟨by rw [htag]; rfl, by rw [htag]; decide⟩ hok
        · cases hok
          exact .diag _
      case TagMemberExpr =>
        split at hok
        · split at hok
          · cases hok
          · rename_i c0 h0
            split at hok
            · cases hok
            · rename_i c1 h1
              split at hok
              · cases hok
              · rename_i ty_old hty
                exact .exprAsStmt _ node _ s'
                  (visitsOnly_trans (visitsOnly_visit_expr s c0)
                    (visitsOnly_trans (visitsOnly_visit_decl _ c1)
                      (visitsOnly_visit_type _ ty_old))) hn
                  ⟨by rw [htag]; rfl, by rw [htag]; decide⟩ hok
        · cases hok
          exact .diag _
      case TagBinaryOperator =>
        split at hok
        · split at hok
          · cases hok
          · rename_i op_str hop
            split at hok
            · cases hok
            · rename_i op hdec
              split at hok
              · cases hok
              · rename_i c0 h0
                split at hok
                · cases hok
                · rename_i c1 h1
                  split at hok
                  · cases hok
                  · rename_i ty_old hty
                    exact .exprAsStmt _ node _ s'
                      (visitsOnly_trans (visitsOnly_visit_expr s c0)
                        (visitsOnly_trans (visitsOnly_visit_expr _ c1)
                          (visitsOnly_visit_type _ ty_old))) hn
                      ⟨by rw [htag]; rfl, by rw [htag]; decide⟩ hok
        · cases hok
          exact .diag _
      case TagDeclRefExpr =>
        split at hok
        · split at hok
          · cases hok
          · rename_i c0 h0
            split at hok
            · cases hok
            · rename_i ty_old hty
              exact .exprAsStmt _ node _ s'
                (visitsOnly_trans (visitsOnly_visit_decl s c0)
                  (visitsOnly_visit_type _ ty_old)) hn
                ⟨by rw [htag]; rfl, by rw [htag]; decide⟩ hok
        · cases hok
          exact .diag _
      case TagArraySubscriptExpr =>
        split at hok
        · split at hok
          · cases hok
          · rename_i c0 h0
            split at hok
            · cases hok
            · rename_i c1 h1
              split at hok
              · cases hok
              · rename_i ty_old hty
                exact .exprAsStmt _ node _ s'
                  (visitsOnly_trans (visitsOnly_visit_expr s c0)
                    (visitsOnly_trans (visitsOnly_visit_expr _ c1)
                      (visitsOnly_visit_type _ ty_old))) hn
                  ⟨by rw [htag]; rfl, by rw [htag]; decide⟩ hok
        · cases hok
          exact .diag _
      case TagFunctionDecl =>
        split at hok
        · split at hok
          · cases hok
          · rename_i name hname
            split at hok
            · cases hok
            · rename_i typ_old htyp
              split at hok
              · cases hok
              · rename_i body_id hlast
                split at hok
                · cases hok
                · rename_i body_old
                  split at hok
                  · cases hok
                  · rename_i p params s3 hpar
                    cases hok
                    exact .declStore s3 _ node_types.OTHER_DECL node
                      (visitsOnly_trans
                        (visitsOnly_visit_node_type s typ_old node_types.FUNC_TYPE)
                        (visitsOnly_trans (visitsOnly_visit_stmt _ body_old)
                          (visitsOnly_visitChildrenAs _ _ _ _ _ _ hpar)))
                      (Or.inr (Or.inr (Or.inr (Or.inr rfl)))) trivial hn
                      ⟨by rw [htag]; rfl, by rw [htag]; decide⟩
        · cases hok
          exact .diag _
      case TagTypedefDecl =>
        split at hok
        · split at hok
          · cases hok
          · rename_i name hname
            split at hok
            · cases hok
            · rename_i typ_old htyp
              cases hok
              exact .declStore _ _ node_types.TYPDEF_DECL node
                (visitsOnly_visit_type s typ_old)
                (Or.inr (Or.inr (Or.inr (Or.inl rfl)))) trivial hn
                ⟨by rw [htag]; rfl, by rw [htag]; decide⟩
        · cases hok
          exact .diag _
      case TagVarDecl =>
        split at hok
        · split at hok
          · cases hok
          · rename_i ident hident
            split at hok
            · cases hok
            · rename_i c0 h0
              split at hok
              · cases hok
              · rename_i typ_old htyp
                split at hok
                · cases hok
                · rename_i tn2 htn2
                  cases hok
                  exact .declStore _ _ node_types.VAR_DECL node
                    (visitsOnly_trans (visitsOnly_visit_opt_expr s c0)
                      (visitsOnly_visit_type _ typ_old))
                    (Or.inr (Or.inl rfl)) ⟨rfl, rfl⟩ hn
                    ⟨by rw [htag]; rfl, by rw [htag]; decide⟩
        · cases hok
          exact .diag _
      case TagRecordDecl =>
        split at hok
        · split at hok
          · cases hok
          · rename_i v hv
            split at hok
            · cases hok
            · rename_i p fields s1 hch
              cases hok
              exact .declStore s1 _ node_types.RECORD_DECL node
                (visitsOnly_visitChildrenAs _ _ _ _ _ _ hch)
                (Or.inr (Or.inr (Or.inl rfl))) trivial hn
                ⟨by rw [htag]; rfl, by rw [htag]; decide⟩
        · cases hok
          exact .diag _
      case TagFieldDecl =>
        split at hok
        · split at hok
          · cases hok
          · rename_i name hname
            cases hok
            exact .declStore s _ node_types.FIELD_DECL node (visitsOnly_refl s)
              (Or.inl rfl) trivial hn ⟨by rw [htag]; rfl, by rw [htag]; decide⟩
        · cases hok
          exact .diag _
      case TagBreakStmt =>
        cases hok
        exact .diag _
      case TagContinueStmt =>
        cases hok
        exact .diag _
      case TagSwitchStmt =>
        cases hok
        exact .diag _

theorem stateQualsOk_visitsOnly {s s' : ConversionContext}
    (h : StateQualsOk s) (hv : VisitsOnly s s') : StateQualsOk s' := by
  obtain ⟨hp, ht, _⟩ := hv
  constructor
  · intro p hmem
    rw [ht] at hmem
    exact h.1 p hmem
  · intro p hmem
    rw [ht] at hmem
    exact h.2 p hmem

theorem stateQualsOk_add_type {s : ConversionContext} {i : NewId} {t : CType}
    (h : StateQualsOk s) (hq : TypeKindQualsOk t.kind) :
    StateQualsOk (s.add_type i t) := by
  constructor
  · intro p hmem
    rcases mem_ainsert _ _ _ _ hmem with he | hmem2
    · rw [he]
      exact hq
    · exact h.1 p hmem2
  · intro p hmem
    exact h.2 p hmem

theorem stateQualsOk_add_decl {s : ConversionContext} {i : NewId} {d : CDecl}
    (h : StateQualsOk s) (hq : DeclKindQualsOk d.kind) :
    StateQualsOk (s.add_decl i d) := by
  constructor
  · intro p hmem
    exact h.1 p hmem
  · intro p hmem
    rcases mem_ainsert _ _ _ _ hmem with he | hmem2
    · rw [he]
      exact hq
    · exact h.2 p hmem2

theorem stateQualsOk_epas {sk s' : ConversionContext} {e : NodeType} {new_id : NewId}
    {node : AstNode} {ve : CExprKind}
    (h : StateQualsOk sk) (hok : sk.expr_possibly_as_stmt e new_id node ve = .ok s') :
    StateQualsOk s' := by
  unfold ConversionContext.expr_possibly_as_stmt at hok
  split at hok
  · cases hok
    exact h
  · split at hok
    · cases hok
      exact h
    · cases hok

theorem stateQualsOk_shape {u : AstContext} {s : ConversionContext} {node_id : ClangId}
    {new_id : NewId} {e : NodeType} {s' : ConversionContext}
    (h : StateQualsOk s) (hsh : VNShape u s node_id new_id e s') : StateQualsOk s' := by
  cases hsh with
  | diag t => exact h
  | typeStore sk k kind hv hkind hq htype =>
    exact stateQualsOk_add_type (stateQualsOk_visitsOnly h hv) hq
  | stmtStore sk v kind hv hkind =>
    exact @stateQualsOk_visitsOnly _ sk h hv
  | stmtStoreNoProc sk v node hv hast ht =>
    exact @stateQualsOk_visitsOnly _ sk h hv
  | declStore sk v kind node hv hkind hq hast ht =>
    exact stateQualsOk_add_decl (stateQualsOk_visitsOnly h hv) hq
  | exprAsStmt sk node ve s2 hv hast ht hok =>
    exact stateQualsOk_epas (stateQualsOk_visitsOnly h hv) hok
  | paren w hpc =>
    exact @stateQualsOk_visitsOnly { s with
      id_mapper := (s.id_mapper.merge_old node_id w).2 } _ h
      (visitsOnly_visit_node_type _ _ _)

theorem convert_step_done {s s2 : ConversionContext} {u : AstContext}
    (h : s.convert_step u = .done s2) : s2 = s ∧ s.visit_as = [] := by
  unfold ConversionContext.convert_step at h
  cases hvs : s.visit_as with
  | nil =>
    rw [hvs] at h
    cases h
    exact ⟨rfl, rfl⟩
  | cons hd rest =>
    obtain ⟨node_id, expected_ty⟩ := hd
    rw [hvs] at h
    dsimp only at h
    split at h
    · split at h <;> cases h
    · split at h <;> cases h

theorem convert_stepsTo {s : ConversionContext} {u : AstContext} {fuel : Nat}
    {s' : ConversionContext} (h : s.convert u fuel = .ok (some s')) :
    StepsTo u s s' := by
  induction fuel generalizing s with
  | zero =>
    unfold ConversionContext.convert at h
    simp at h
  | succ n ih =>
    unfold ConversionContext.convert at h
    cases hcs : s.convert_step u with
    | done s2 =>
      rw [hcs] at h
      cases h
      obtain ⟨he, -⟩ := convert_step_done hcs
      rw [← he]
      exact Relation.ReflTransGen.refl
    | next s2 =>
      rw [hcs] at h
      exact Relation.ReflTransGen.head hcs (ih h)
    | fail e =>
      rw [hcs] at h
      cases h

theorem stateQualsOk_step {u : AstContext} {s s' : ConversionContext}
    (h : StateQualsOk s) (hst : stepNext u s s') : StateQualsOk s' := by
  unfold stepNext ConversionContext.convert_step at hst
  cases hvs : s.visit_as with
  | nil =>
    rw [hvs] at hst
    cases hst
  | cons hd rest =>
    obtain ⟨node_id, expected_ty⟩ := hd
    rw [hvs] at hst
    dsimp only at hst
    split at hst
    · split at hst
      · cases hst
        exact h
      · cases hst
    · split at hst
      · rename_i s3 hvn
        cases hst
        have hsh := visit_node_ok_shape _ _ _ _ _ _ hvn
        refine stateQualsOk_shape ?_ hsh
        split <;> exact h
      · cases hst

theorem stateQualsOk_stepsTo {u : AstContext} {s s' : ConversionContext}
    (h : StateQualsOk s) (hst : StepsTo u s s') : StateQualsOk s' := by
  induction hst with
  | refl => exact h
  | tail hab hbc ih => exact stateQualsOk_step ih hbc

theorem stateQualsOk_init (u : AstContext) : StateQualsOk (ConversionContext.new u) :=
  ⟨fun p hp => absurd hp (List.not_mem_nil p), fun p hp => absurd hp (List.not_mem_nil p)⟩

/-- C10: the qualifier set read off a foreign type node always has restrict
and volatile false and const equal to the node's constant flag; consequently,
in every state the conversion loop can reach from a seeded initial state (in
particular in the final result), no qualified type stored anywhere in the
typed stores carries restrict or volatile. -/
theorem claim_C10_no_restrict_volatile (u : AstContext) (tn : TypeNode)
    (s' : ConversionContext) (hst : StepsTo u (ConversionContext.new u) s') :
    (qualifiers tn).is_restrict = false ∧ (qualifiers tn).is_volatile = false ∧
    (qualifiers tn).is_const = tn.constant ∧ StateQualsOk s' :=
  ⟨rfl, rfl, rfl, stateQualsOk_stepsTo (stateQualsOk_init u) hst⟩

theorem claim_C10_witness :
    (qualifiers { tag := .TagInt, constant := true, extras := [] }).is_restrict = false ∧
    (qualifiers { tag := .TagInt, constant := true, extras := [] }).is_volatile = false ∧
    (qualifiers { tag := .TagInt, constant := true, extras := [] }).is_const = true ∧
    StateQualsOk (finalState exInputSimple 10) :=
  claim_C10_no_restrict_volatile exInputSimple _ (finalState exInputSimple 10)
    (@convert_stepsTo _ _ 10 _ (by rfl))

theorem parenChild_fun {u : AstContext} {x y y' : ClangId}
    (h : parenChild u x y) (h' : parenChild u x y') : y = y' := by
  obtain ⟨n, hn, -, hc⟩ := h
  obtain ⟨n', hn', -, hc'⟩ := h'
  rw [hn] at hn'
  cases hn'
  rw [hc] at hc'
  cases hc'
  rfl

theorem parenDesc_snoc {u : AstContext} {x y z : ClangId}
    (h : ParenDesc u x y) (h2 : parenChild u y z) : ParenDesc u x z := by
  revert h2
  induction h with
  | step a b hab =>
    intro h2
    exact .tail a b z hab (.step b z h2)
  | tail a b c hab hbc ih =>
    intro h2
    exact .tail a b z hab (ih h2)

theorem parenDesc_head {u : AstContext} {x z : ClangId} (h : ParenDesc u x z) :
    ∃ y, parenChild u x y ∧ (z = y ∨ ParenDesc u y z) := by
  cases h with
  | step a b hab => exact ⟨z, hab, Or.inl rfl⟩
  | tail a b c hab hbc => exact ⟨b, hab, Or.inr hbc⟩

theorem parenDesc_soc {u : AstContext} {x g : ClangId}
    (h : ParenDesc u x g) (hg : StmtOnlyChain u g) : StmtOnlyChain u x := by
  revert hg
  induction h with
  | step a b hab =>
    intro hg
    exact .paren a b hab hg
  | tail a b c hab hbc ih =>
    intro hg
    exact .paren a b hab (ih hg)

theorem soc_ast_key {u : AstContext} {x : ClangId} (h : StmtOnlyChain u x) :
    ∃ n, alookup u.ast_nodes x = some n := by
  cases h with
  | base x n hn ht => exact ⟨n, hn⟩
  | paren x y hpc h2 =>
    obtain ⟨n, hn, -, -⟩ := hpc
    exact ⟨n, hn⟩

theorem soc_not_type_key {u : AstContext} {x : ClangId} (hdisj : DisjointKeys u)
    (h : StmtOnlyChain u x) (htype : (alookup u.type_nodes x).isSome) : False := by
  obtain ⟨n, hn⟩ := soc_ast_key h
  have := hdisj (x, n) (alookup_some_mem _ _ _ hn)
  rw [this] at htype
  cases htype

theorem soc_tag {u : AstContext} {x : ClangId} {node : AstNode}
    (h : StmtOnlyChain u x) (hast : alookup u.ast_nodes x = some node) :
    stmtOnlyTag node.tag = true ∨ node.tag = .TagParenExpr := by
  cases h with
  | base x n hn ht =>
    rw [hn] at hast
    cases hast
    exact Or.inl ht
  | paren x y hpc h2 =>
    obtain ⟨n, hn, htag, -⟩ := hpc
    rw [hn] at hast
    cases hast
    exact Or.inr htag

theorem soc_inv_paren {u : AstContext} {x w : ClangId}
    (h : StmtOnlyChain u x) (hpc : parenChild u x w) : StmtOnlyChain u w := by
  cases h with
  | base x n hn ht =>
    obtain ⟨n', hn', htag, -⟩ := hpc
    rw [hn] at hn'
    cases hn'
    rw [htag] at ht
    cases ht
  | paren x y hpc2 h2 =>
    rw [parenChild_fun hpc hpc2]
    exact h2

theorem inv8_visitsOnly {u : AstContext} {s s' : ConversionContext}
    (h : Inv8 u s) (hv : VisitsOnly s s') : Inv8 u s' := by
  obtain ⟨hp, ht, hsrc, hvas, hmono, hpull, hnew, hmb⟩ := hv
  obtain ⟨hb2, huniq⟩ := hmb h.bind_le
  have hproc : ∀ i, procOf s' i = procOf s i := by
    intro i
    unfold procOf
    rw [hp]
  have htypes : ∀ i, alookup s'.typed_context.c_types ⟨i⟩ =
      alookup s.typed_context.c_types ⟨i⟩ := by
    intro i
    rw [ht]
  have hexprs : ∀ i, alookup s'.typed_context.c_exprs ⟨i⟩ =
      alookup s.typed_context.c_exprs ⟨i⟩ := by
    intro i
    rw [ht]
  have hdecls : ∀ i, alookup s'.typed_context.c_decls ⟨i⟩ =
      alookup s.typed_context.c_decls ⟨i⟩ := by
    intro i
    rw [ht]
  have hstmts : ∀ i, alookup s'.typed_context.c_stmts ⟨i⟩ =
      alookup s.typed_context.c_stmts ⟨i⟩ := by
    intro i
    rw [ht]
  refine ⟨hb2, ?_, ?_, ?_, ?_, ?_, ?_, ?_, ?_, ?_, ?_, ?_⟩
  · intro i k hk
    rw [hproc] at hk
    exact le_trans (h.proc_le i k hk) hsrc
  · intro i hi
    rw [htypes] at hi
    exact le_trans (h.types_le i hi) hsrc
  · intro i hi
    rw [hexprs] at hi
    exact le_trans (h.exprs_le i hi) hsrc
  · intro i hi
    rw [hdecls] at hi
    exact le_trans (h.decls_le i hi) hsrc
  · intro i hi
    rw [hstmts] at hi
    exact le_trans (h.stmts_le i hi) hsrc
  · intro i hi
    rw [htypes] at hi
    rw [hproc]
    exact h.types_proc i hi
  · intro i hi
    rw [hexprs] at hi
    rw [hproc]
    exact h.exprs_proc i hi
  · intro i hi
    rw [hdecls] at hi
    rw [hproc]
    exact h.decls_proc i hi
  · intro i hi
    rw [hstmts] at hi
    rw [hproc]
    exact h.stmts_proc i hi
  · intro i hpn hst x hx
    rw [hproc] at hpn
    rw [hstmts] at hst
    exact h.chainK i hpn hst x (hpull x i hx (h.stmts_le i hst))
  · intro i hpn x y hx hy
    rw [hproc] at hpn
    by_cases hile : i ≤ srcOf s
    · exact h.chainR i hpn x y (hpull x i hx hile) (hpull y i hy hile)
    · exact Or.inl (huniq x y i hx hy (lt_of_not_le hile))

theorem inv8_add_stmt_processed {u : AstContext} {s : ConversionContext} {new_id : NewId}
    {v : CStmt} {kind : NodeType} (h : Inv8 u s)
    (hkind : kind = node_types.OTHER_STMT ∨ kind = node_types.LABEL_STMT ∨
      kind = node_types.STMT)
    (hle : new_id ≤ srcOf s) (hpn : procOf s new_id = none) :
    Inv8 u ((s.add_stmt new_id v).set_processed new_id kind) := by
  have hproc : ∀ i, procOf ((s.add_stmt new_id v).set_processed new_id kind) i =
      if new_id = i then some kind else procOf s i := by
    intro i
    show alookup (ainsert s.processed_nodes new_id kind) i = _
    rw [alookup_ainsert]
    rfl
  have hstmts : ∀ i, alookup ((s.add_stmt new_id v).set_processed new_id
      kind).typed_context.c_stmts ⟨i⟩ =
      if new_id = i then some v else alookup s.typed_context.c_stmts ⟨i⟩ := by
    intro i
    show alookup (ainsert s.typed_context.c_stmts ⟨new_id⟩ v) ⟨i⟩ = _
    rw [alookup_ainsert]
    by_cases hni : new_id = i
    · simp [hni]
    · simp [hni, CStmtId.mk.injEq]
  refine ⟨h.bind_le, ?_, h.types_le, h.exprs_le, h.decls_le, ?_, ?_, ?_, ?_, ?_, ?_, ?_⟩
  · intro i k hk
    rw [hproc] at hk
    by_cases hni : new_id = i
    · exact hni ▸ hle
    · rw [if_neg hni] at hk
      exact h.proc_le i k hk
  · intro i hi
    rw [hstmts] at hi
    by_cases hni : new_id = i
    · exact hni ▸ hle
    · rw [if_neg hni] at hi
      exact h.stmts_le i hi
  · intro i hi
    have hi' : (alookup s.typed_context.c_types ⟨i⟩).isSome := hi
    rw [hproc]
    by_cases hni : new_id = i
    · rcases h.types_proc i hi' with hc | hc <;> rw [← hni] at hc <;> rw [hpn] at hc <;>
        cases hc
    · rw [if_neg hni]
      exact h.types_proc i hi'
  · intro i hi
    have hi' : (alookup s.typed_context.c_exprs ⟨i⟩).isSome := hi
    rw [hproc]
    by_cases hni : new_id = i
    · have hc := h.exprs_proc i hi'
      rw [← hni] at hc
      rw [hpn] at hc
      cases hc
    · rw [if_neg hni]
      exact h.exprs_proc i hi'
  · intro i hi
    have hi' : (alookup s.typed_context.c_decls ⟨i⟩).isSome := hi
    rw [hproc]
    by_cases hni : new_id = i
    · rcases h.decls_proc i hi' with hc | hc | hc | hc | hc <;> rw [← hni] at hc <;>
        rw [hpn] at hc <;> cases hc
    · rw [if_neg hni]
      exact h.decls_proc i hi'
  · intro i hi
    rw [hproc]
    by_cases hni : new_id = i
    · rw [if_pos hni]
      rcases hkind with hk | hk | hk <;> rw [hk]
      · exact Or.inr (Or.inr (Or.inl rfl))
      · exact Or.inr (Or.inl rfl)
      · exact Or.inr (Or.inr (Or.inr rfl))
    · rw [if_neg hni]
      rw [hstmts] at hi
      rw [if_neg hni] at hi
      exact h.stmts_proc i hi
  · intro i hpn2 hst x hx
    rw [hproc] at hpn2
    by_cases hni : new_id = i
    · rw [if_pos hni] at hpn2
      cases hpn2
    · rw [if_neg hni] at hpn2
      rw [hstmts] at hst
      rw [if_neg hni] at hst
      exact h.chainK i hpn2 hst x hx
  · intro i hpn2 x y hx hy
    rw [hproc] at hpn2
    by_cases hni : new_id = i
    · rw [if_pos hni] at hpn2
      cases hpn2
    · rw [if_neg hni] at hpn2
      exact h.chainR i hpn2 x y hx hy

theorem inv8_add_stmt_noproc {u : AstContext} {s : ConversionContext} {new_id : NewId}
    {v : CStmt} (h : Inv8 u s)
    (hle : new_id ≤ srcOf s) (hpn : procOf s new_id = none)
    (hsoc : ∀ x, bindOf s x = some new_id → StmtOnlyChain u x) :
    Inv8 u (s.add_stmt new_id v) := by
  have hstmts : ∀ i, alookup (s.add_stmt new_id v).typed_context.c_stmts ⟨i⟩ =
      if new_id = i then some v else alookup s.typed_context.c_stmts ⟨i⟩ := by
    intro i
    show alookup (ainsert s.typed_context.c_stmts ⟨new_id⟩ v) ⟨i⟩ = _
    rw [alookup_ainsert]
    by_cases hni : new_id = i
    · simp [hni]
    · simp [hni, CStmtId.mk.injEq]
  refine ⟨h.bind_le, h.proc_le, h.types_le, h.exprs_le, h.decls_le, ?_, h.types_proc,
    h.exprs_proc, h.decls_proc, ?_, ?_, h.chainR⟩
  · intro i hi
    rw [hstmts] at hi
    by_cases hni : new_id = i
    · exact hni ▸ hle
    · rw [if_neg hni] at hi
      exact h.stmts_le i hi
  · intro i hi
    by_cases hni : new_id = i
    · rw [← hni]
      exact Or.inl hpn
    · rw [hstmts] at hi
      rw [if_neg hni] at hi
      exact h.stmts_proc i hi
  · intro i hpn2 hst x hx
    by_cases hni : new_id = i
    · subst hni
      exact hsoc x hx
    · rw [hstmts] at hst
      rw [if_neg hni] at hst
      exact h.chainK i hpn2 hst x hx

theorem inv8_add_type_processed {u : AstContext} {s : ConversionContext} {new_id : NewId}
    {v : CType} {kind : NodeType} (h : Inv8 u s)
    (hkind : kind = node_types.FUNC_TYPE ∨ kind = node_types.OTHER_TYPE)
    (hle : new_id ≤ srcOf s) (hpn : procOf s new_id = none)
    (hstn : alookup s.typed_context.c_stmts ⟨new_id⟩ = none) :
    Inv8 u ((s.add_type new_id v).set_processed new_id kind) := by
  have hproc : ∀ i, procOf ((s.add_type new_id v).set_processed new_id kind) i =
      if new_id = i then some kind else procOf s i := by
    intro i
    show alookup (ainsert s.processed_nodes new_id kind) i = _
    rw [alookup_ainsert]
    rfl
  have htypes : ∀ i, alookup ((s.add_type new_id v).set_processed new_id
      kind).typed_context.c_types ⟨i⟩ =
      if new_id = i then some v else alookup s.typed_context.c_types ⟨i⟩ := by
    intro i
    show alookup (ainsert s.typed_context.c_types ⟨new_id⟩ v) ⟨i⟩ = _
    rw [alookup_ainsert]
    by_cases hni : new_id = i
    · simp [hni]
    · simp [hni, CTypeId.mk.injEq]
  refine ⟨h.bind_le, ?_, ?_, h.exprs_le, h.decls_le, h.stmts_le, ?_, ?_, ?_, ?_, ?_, ?_⟩
  · intro i k hk
    rw [hproc] at hk
    by_cases hni : new_id = i
    · exact hni ▸ hle
    · rw [if_neg hni] at hk
      exact h.proc_le i k hk
  · intro i hi
    rw [htypes] at hi
    by_cases hni : new_id = i
    · exact hni ▸ hle
    · rw [if_neg hni] at hi
      exact h.types_le i hi
  · intro i hi
    rw [hproc]
    by_cases hni : new_id = i
    · rw [if_pos hni]
      rcases hkind with hk | hk <;> rw [hk]
      · exact Or.inl rfl
      · exact Or.inr rfl
    · rw [if_neg hni]
      rw [htypes] at hi
      rw [if_neg hni] at hi
      exact h.types_proc i hi
  · intro i hi
    have hi' : (alookup s.typed_context.c_exprs ⟨i⟩).isSome := hi
    rw [hproc]
    by_cases hni : new_id = i
    · have hc := h.exprs_proc i hi'
      rw [← hni] at hc
      rw [hpn] at hc
      cases hc
    · rw [if_neg hni]
      exact h.exprs_proc i hi'
  · intro i hi
    have hi' : (alookup s.typed_context.c_decls ⟨i⟩).isSome := hi
    rw [hproc]
    by_cases hni : new_id = i
    · rcases h.decls_proc i hi' with hc | hc | hc | hc | hc <;> rw [← hni] at hc <;>
        rw [hpn] at hc <;> cases hc
    · rw [if_neg hni]
      exact h.decls_proc i hi'
  · intro i hi
    have hi' : (alookup s.typed_context.c_stmts ⟨i⟩).isSome := hi
    rw [hproc]
    by_cases hni : new_id = i
    · rw [← hni] at hi'
      rw [hstn] at hi'
      cases hi'
    · rw [if_neg hni]
      exact h.stmts_proc i hi'
  · intro i hpn2 hst x hx
    rw [hproc] at hpn2
    by_cases hni : new_id = i
    · rw [if_pos hni] at hpn2
      cases hpn2
    · rw [if_neg hni] at hpn2
      have hst' : (alookup s.typed_context.c_stmts ⟨i⟩).isSome := hst
      exact h.chainK i hpn2 hst' x hx
  · intro i hpn2 x y hx hy
    rw [hproc] at hpn2
    by_cases hni : new_id = i
    · rw [if_pos hni] at hpn2
      cases hpn2
    · rw [if_neg hni] at hpn2
      exact h.chainR i hpn2 x y hx hy

theorem inv8_add_expr_processed {u : AstContext} {s : ConversionContext} {new_id : NewId}
    {v : CExpr} (h : Inv8 u s)
    (hle : new_id ≤ srcOf s) (hpn : procOf s new_id = none)
    (hstn : alookup s.typed_context.c_stmts ⟨new_id⟩ = none) :
    Inv8 u ((s.add_expr new_id v).set_processed new_id node_types.EXPR) := by
  have hproc : ∀ i, procOf ((s.add_expr new_id v).set_processed new_id
      node_types.EXPR) i =
      if new_id = i then some node_types.EXPR else procOf s i := by
    intro i
    show alookup (ainsert s.processed_nodes new_id node_types.EXPR) i = _
    rw [alookup_ainsert]
    rfl
  have hexprs : ∀ i, alookup ((s.add_expr new_id v).set_processed new_id
      node_types.EXPR).typed_context.c_exprs ⟨i⟩ =
      if new_id = i then some v else alookup s.typed_context.c_exprs ⟨i⟩ := by
    intro i
    show alookup (ainsert s.typed_context.c_exprs ⟨new_id⟩ v) ⟨i⟩ = _
    rw [alookup_ainsert]
    by_cases hni : new_id = i
    · simp [hni]
    · simp [hni, CExprId.mk.injEq]
  refine ⟨h.bind_le, ?_, h.types_le, ?_, h.decls_le, h.stmts_le, ?_, ?_, ?_, ?_, ?_, ?_⟩
  · intro i k hk
    rw [hproc] at hk
    by_cases hni : new_id = i
    · exact hni ▸ hle
    · rw [if_neg hni] at hk
      exact h.proc_le i k hk
  · intro i hi
    rw [hexprs] at hi
    by_cases hni : new_id = i
    · exact hni ▸ hle
    · rw [if_neg hni] at hi
      exact h.exprs_le i hi
  · intro i hi
    have hi' : (alookup s.typed_context.c_types ⟨i⟩).isSome := hi
    rw [hproc]
    by_cases hni : new_id = i
    · rcases h.types_proc i hi' with hc | hc <;> rw [← hni] at hc <;> rw [hpn] at hc <;>
        cases hc
    · rw [if_neg hni]
      exact h.types_proc i hi'
  · intro i hi
    rw [hproc]
    by_cases hni : new_id = i
    · rw [if_pos hni]
    · rw [if_neg hni]
      rw [hexprs] at hi
      rw [if_neg hni] at hi
      exact h.exprs_proc i hi
  · intro i hi
    have hi' : (alookup s.typed_context.c_decls ⟨i⟩).isSome := hi
    rw [hproc]
    by_cases hni : new_id = i
    · rcases h.decls_proc i hi' with hc | hc | hc | hc | hc <;> rw [← hni] at hc <;>
        rw [hpn] at hc <;> cases hc
    · rw [if_neg hni]
      exact h.decls_proc i hi'
  · intro i hi
    have hi' : (alookup s.typed_context.c_stmts ⟨i⟩).isSome := hi
    rw [hproc]
    by_cases hni : new_id = i
    · rw [← hni] at hi'
      rw [hstn] at hi'
      cases hi'
    · rw [if_neg hni]
      exact h.stmts_proc i hi'
  · intro i hpn2 hst x hx
    rw [hproc] at hpn2
    by_cases hni : new_id = i
    · rw [if_pos hni] at hpn2
      cases hpn2
    · rw [if_neg hni] at hpn2
      have hst' : (alookup s.typed_context.c_stmts ⟨i⟩).isSome := hst
      exact h.chainK i hpn2 hst' x hx
  · intro i hpn2 x y hx hy
    rw [hproc] at hpn2
    by_cases hni : new_id = i
    · rw [if_pos hni] at hpn2
      cases hpn2
    · rw [if_neg hni] at hpn2
      exact h.chainR i hpn2 x y hx hy

theorem inv8_add_decl_processed {u : AstContext} {s : ConversionContext} {new_id : NewId}
    {v : CDecl} {kind : NodeType} (h : Inv8 u s)
    (hkind : kind = node_types.FIELD_DECL ∨ kind = node_types.VAR_DECL ∨
      kind = node_types.RECORD_DECL ∨ kind = node_types.TYPDEF_DECL ∨
      kind = node_types.OTHER_DECL)
    (hle : new_id ≤ srcOf s) (hpn : procOf s new_id = none)
    (hstn : alookup s.typed_context.c_stmts ⟨new_id⟩ = none) :
    Inv8 u ((s.add_decl new_id v).set_processed new_id kind) := by
  have hproc : ∀ i, procOf ((s.add_decl new_id v).set_processed new_id kind) i =
      if new_id = i then some kind else procOf s i := by
    intro i
    show alookup (ainsert s.processed_nodes new_id kind) i = _
    rw [alookup_ainsert]
    rfl
  have hdecls : ∀ i, alookup ((s.add_decl new_id v).set_processed new_id
      kind).typed_context.c_decls ⟨i⟩ =
      if new_id = i then some v else alookup s.typed_context.c_decls ⟨i⟩ := by
    intro i
    show alookup (ainsert s.typed_context.c_decls ⟨new_id⟩ v) ⟨i⟩ = _
    rw [alookup_ainsert]
    by_cases hni : new_id = i
    · simp [hni]
    · simp [hni, CDeclId.mk.injEq]
  refine ⟨h.bind_le, ?_, h.types_le, h.exprs_le, ?_, h.stmts_le, ?_, ?_, ?_, ?_, ?_, ?_⟩
  · intro i k hk
    rw [hproc] at hk
    by_cases hni : new_id = i
    · exact hni ▸ hle
    · rw [if_neg hni] at hk
      exact h.proc_le i k hk
  · intro i hi
    rw [hdecls] at hi
    by_cases hni : new_id = i
    · exact hni ▸ hle
    · rw [if_neg hni] at hi
      exact h.decls_le i hi
  · intro i hi
    have hi' : (alookup s.typed_context.c_types ⟨i⟩).isSome := hi
    rw [hproc]
    by_cases hni : new_id = i
    · rcases h.types_proc i hi' with hc | hc <;> rw [← hni] at hc <;> rw [hpn] at hc <;>
        cases hc
    · rw [if_neg hni]
      exact h.types_proc i hi'
  · intro i hi
    have hi' : (alookup s.typed_context.c_exprs ⟨i⟩).isSome := hi
    rw [hproc]
    by_cases hni : new_id = i
    · have hc := h.exprs_proc i hi'
      rw [← hni] at hc
      rw [hpn] at hc
      cases hc
    · rw [if_neg hni]
      exact h.exprs_proc i hi'
  · intro i hi
    rw [hproc]
    by_cases hni : new_id = i
    · rw [if_pos hni]
      rcases hkind with hk | hk | hk | hk | hk <;> rw [hk]
      · exact Or.inl rfl
      · exact Or.inr (Or.inl rfl)
      · exact Or.inr (Or.inr (Or.inl rfl))
      · exact Or.inr (Or.inr (Or.inr (Or.inl rfl)))
      · exact Or.inr (Or.inr (Or.inr (Or.inr rfl)))
    · rw [if_neg hni]
      rw [hdecls] at hi
      rw [if_neg hni] at hi
      exact h.decls_proc i hi
  · intro i hi
    have hi' : (alookup s.typed_context.c_stmts ⟨i⟩).isSome := hi
    rw [hproc]
    by_cases hni : new_id = i
    · rw [← hni] at hi'
      rw [hstn] at hi'
      cases hi'
    · rw [if_neg hni]
      exact h.stmts_proc i hi'
  · intro i hpn2 hst x hx
    rw [hproc] at hpn2
    by_cases hni : new_id = i
    · rw [if_pos hni] at hpn2
      cases hpn2
    · rw [if_neg hni] at hpn2
      have hst' : (alookup s.typed_context.c_stmts ⟨i⟩).isSome := hst
      exact h.chainK i hpn2 hst' x hx
  · intro i hpn2 x y hx hy
    rw [hproc] at hpn2
    by_cases hni : new_id = i
    · rw [if_pos hni] at hpn2
      cases hpn2
    · rw [if_neg hni] at hpn2
      exact h.chainR i hpn2 x y hx hy

theorem inv8_fresh_bump {u : AstContext} {s : ConversionContext} (h : Inv8 u s) :
    Inv8 u { s with id_mapper := s.id_mapper.fresh_id.2 } := by
  refine ⟨?_, ?_, ?_, ?_, ?_, ?_, h.types_proc, h.exprs_proc, h.decls_proc,
    h.stmts_proc, h.chainK, h.chainR⟩
  · intro x i hx
    exact Nat.le_succ_of_le (h.bind_le x i hx)
  · intro i k hk
    exact Nat.le_succ_of_le (h.proc_le i k hk)
  · intro i hi
    exact Nat.le_succ_of_le (h.types_le i hi)
  · intro i hi
    exact Nat.le_succ_of_le (h.exprs_le i hi)
  · intro i hi
    exact Nat.le_succ_of_le (h.decls_le i hi)
  · intro i hi
    exact Nat.le_succ_of_le (h.stmts_le i hi)

theorem inv8_epas {u : AstContext} {s s' : ConversionContext} {e : NodeType}
    {new_id : NewId} {node : AstNode} {ve : CExprKind} (h : Inv8 u s)
    (hle : new_id ≤ srcOf s) (hpn : procOf s new_id = none)
    (hstn : alookup s.typed_context.c_stmts ⟨new_id⟩ = none)
    (hok : s.expr_possibly_as_stmt e new_id node ve = .ok s') : Inv8 u s' := by
  unfold ConversionContext.expr_possibly_as_stmt at hok
  split at hok
  · cases hok
    have h1 : Inv8 u { s with id_mapper := s.id_mapper.fresh_id.2 } := inv8_fresh_bump h
    have hpn1 : procOf { s with id_mapper := s.id_mapper.fresh_id.2 } (srcOf s + 1)
        = none := by
      cases hc : procOf s (srcOf s + 1) with
      | none => exact hc
      | some k => exact (Nat.not_succ_le_self _ (h.proc_le _ _ hc)).elim
    have hstn1 : alookup ({ s with id_mapper := s.id_mapper.fresh_id.2 }
        : ConversionContext).typed_context.c_stmts ⟨srcOf s + 1⟩ = none := by
      cases hc : alookup s.typed_context.c_stmts ⟨srcOf s + 1⟩ with
      | none => rfl
      | some v2 =>
        exact (Nat.not_succ_le_self _ (h.stmts_le (srcOf s + 1) (by rw [hc]; rfl))).elim
    have h2 := @inv8_add_expr_processed u _ _ (located node ve) h1 (le_refl _) hpn1 hstn1
    have hpn2 : procOf ((({ s with id_mapper := s.id_mapper.fresh_id.2 }
        : ConversionContext).add_expr (srcOf s + 1) (located node ve)).set_processed
        (srcOf s + 1) node_types.EXPR) new_id = none := by
      show alookup (ainsert s.processed_nodes (srcOf s + 1) node_types.EXPR) new_id = none
      rw [alookup_ainsert_ne _ _ _ _ (Nat.lt_succ_of_le hle).ne']
      exact hpn
    exact inv8_add_stmt_processed h2 (Or.inr (Or.inr rfl)) (Nat.le_succ_of_le hle) hpn2
  · split at hok
    · cases hok
      exact inv8_add_expr_processed h hle hpn hstn
    · cases hok

theorem inv8_merge {u : AstContext} {s : ConversionContext} {p w : ClangId}
    (h : Inv8 u s) (hpc : parenChild u p w) :
    Inv8 u { s with id_mapper := (s.id_mapper.merge_old p w).2 } := by
  cases hgp : s.id_mapper.get_new p with
  | none =>
    rw [merge_old_of_none _ _ _ hgp]
    exact h
  | some P =>
    rw [merge_old_of_some _ _ _ _ hgp]
    have hbind : ∀ x, bindOf { s with id_mapper :=
        { s.id_mapper with old_to_new := ainsert s.id_mapper.old_to_new w P } } x =
        if w = x then some P else bindOf s x := by
      intro x
      show alookup (ainsert s.id_mapper.old_to_new w P) x = _
      rw [alookup_ainsert]
      rfl
    refine ⟨?_, h.proc_le, h.types_le, h.exprs_le, h.decls_le, h.stmts_le,
      h.types_proc, h.exprs_proc, h.decls_proc, h.stmts_proc, ?_, ?_⟩
    · intro x j hx
      rw [hbind] at hx
      by_cases hwx : w = x
      · rw [if_pos hwx] at hx
        injection hx with hPj
        rw [← hPj]
        exact h.bind_le p P hgp
      · rw [if_neg hwx] at hx
        exact h.bind_le x j hx
    · intro i hpn2 hst x hx
      have hpn2' : procOf s i = none := hpn2
      have hst' : (alookup s.typed_context.c_stmts ⟨i⟩).isSome := hst
      rw [hbind] at hx
      by_cases hwx : w = x
      · subst hwx
        rw [if_pos rfl] at hx
        injection hx with hPi
        subst hPi
        have hsocp := h.chainK P hpn2' hst' p hgp
        exact soc_inv_paren hsocp hpc
      · rw [if_neg hwx] at hx
        exact h.chainK i hpn2' hst' x hx
    · intro i hpn2 x y hx hy
      have hpn2' : procOf s i = none := hpn2
      rw [hbind] at hx
      rw [hbind] at hy
      by_cases hwx : w = x
      · subst hwx
        rw [if_pos rfl] at hx
        injection hx with hPi
        subst hPi
        by_cases hwy : w = y
        · exact Or.inl hwy
        · rw [if_neg hwy] at hy
          rcases h.chainR P hpn2' y p hy hgp with hyp | hyp | hyp
          · subst hyp
            exact Or.inr (Or.inr (.step y w hpc))
          · exact Or.inr (Or.inr (parenDesc_snoc hyp hpc))
          · obtain ⟨c, hc, hrest⟩ := parenDesc_head hyp
            have hcw : c = w := parenChild_fun hc hpc
            subst hcw
            rcases hrest with hyc | hyc
            · exact Or.inl hyc.symm
            · exact Or.inr (Or.inl hyc)
      · rw [if_neg hwx] at hx
        by_cases hwy : w = y
        · subst hwy
          rw [if_pos rfl] at hy
          injection hy with hPi
          subst hPi
          rcases h.chainR P hpn2' x p hx hgp with hxp | hxp | hxp
          · subst hxp
            exact Or.inr (Or.inl (.step x w hpc))
          · exact Or.inr (Or.inl (parenDesc_snoc hxp hpc))
          · obtain ⟨c, hc, hrest⟩ := parenDesc_head hxp
            have hcw : c = w := parenChild_fun hc hpc
            subst hcw
            rcases hrest with hxc | hxc
            · exact Or.inl hxc
            · exact Or.inr (Or.inr hxc)
        · rw [if_neg hwy] at hy
          exact h.chainR i hpn2' x y hx hy

theorem inv8_get_or_create {u : AstContext} {s : ConversionContext} {node_id : ClangId}
    (h : Inv8 u s) :
    Inv8 u { s with id_mapper := (s.id_mapper.get_or_create_new node_id).2 } := by
  cases hg : s.id_mapper.get_new node_id with
  | some i =>
    rw [get_or_create_new_of_some _ _ _ hg]
    exact h
  | none =>
    rw [get_or_create_new_of_none _ _ hg]
    have hbind : ∀ x, bindOf { s with id_mapper :=
        { s.id_mapper with new_id_source := s.id_mapper.new_id_source + 1
                           old_to_new := ainsert s.id_mapper.old_to_new node_id
                             (s.id_mapper.new_id_source + 1) } } x =
        if node_id = x then some (s.id_mapper.new_id_source + 1) else bindOf s x := by
      intro x
      show alookup (ainsert s.id_mapper.old_to_new node_id
        (s.id_mapper.new_id_source + 1)) x = _
      rw [alookup_ainsert]
      rfl
    refine ⟨?_, ?_, ?_, ?_, ?_, ?_, h.types_proc, h.exprs_proc, h.decls_proc,
      h.stmts_proc, ?_, ?_⟩
    · intro x j hx
      rw [hbind] at hx
      by_cases hnx : node_id = x
      · rw [if_pos hnx] at hx
        injection hx with hj
        exact le_of_eq hj.symm
      · rw [if_neg hnx] at hx
        exact Nat.le_succ_of_le (h.bind_le x j hx)
    · intro i k hk
      exact Nat.le_succ_of_le (h.proc_le i k hk)
    · intro i hi
      exact Nat.le_succ_of_le (h.types_le i hi)
    · intro i hi
      exact Nat.le_succ_of_le (h.exprs_le i hi)
    · intro i hi
      exact Nat.le_succ_of_le (h.decls_le i hi)
    · intro i hi
      exact Nat.le_succ_of_le (h.stmts_le i hi)
    · intro i hpn2 hst x hx
      have hpn2' : procOf s i = none := hpn2
      have hst' : (alookup s.typed_context.c_stmts ⟨i⟩).isSome := hst
      rw [hbind] at hx
      by_cases hnx : node_id = x
      · rw [if_pos hnx] at hx
        injection hx with hj
        rw [← hj] at hst'
        exact (Nat.not_succ_le_self _ (h.stmts_le _ hst')).elim
      · rw [if_neg hnx] at hx
        exact h.chainK i hpn2' hst' x hx
    · intro i hpn2 x y hx hy
      have hpn2' : procOf s i = none := hpn2
      rw [hbind] at hx
      rw [hbind] at hy
      by_cases hnx : node_id = x
      · by_cases hny : node_id = y
        · exact Or.inl (hnx ▸ hny ▸ rfl)
        · rw [if_pos hnx] at hx
          rw [if_neg hny] at hy
          injection hx with hj
          rw [← hj] at hy
          exact (Nat.not_succ_le_self _ (h.bind_le y _ hy)).elim
      · rw [if_neg hnx] at hx
        by_cases hny : node_id = y
        · rw [if_pos hny] at hy
          injection hy with hj
          rw [← hj] at hx
          exact (Nat.not_succ_le_self _ (h.bind_le x _ hx)).elim
        · rw [if_neg hny] at hy
          exact h.chainR i hpn2' x y hx hy

theorem inv8_diag {u : AstContext} {s : ConversionContext} {t : ASTEntryTag}
    {e : NodeType} (h : Inv8 u s) : Inv8 u (s.diag t e) :=
  ⟨h.bind_le, h.proc_le, h.types_le, h.exprs_le, h.decls_le, h.stmts_le,
   h.types_proc, h.exprs_proc, h.decls_proc, h.stmts_proc, h.chainK, h.chainR⟩

theorem inv8_mark_top {u : AstContext} {s : ConversionContext} {new_id : NewId}
    (h : Inv8 u s) : Inv8 u (s.mark_top new_id) :=
  ⟨h.bind_le, h.proc_le, h.types_le, h.exprs_le, h.decls_le, h.stmts_le,
   h.types_proc, h.exprs_proc, h.decls_proc, h.stmts_proc, h.chainK, h.chainR⟩

theorem inv8_visit_as {u : AstContext} {s : ConversionContext}
    {vas : List (ClangId × NodeType)} (h : Inv8 u s) :
    Inv8 u { s with visit_as := vas } :=
  ⟨h.bind_le, h.proc_le, h.types_le, h.exprs_le, h.decls_le, h.stmts_le,
   h.types_proc, h.exprs_proc, h.decls_proc, h.stmts_proc, h.chainK, h.chainR⟩

theorem gocn_bind (m : IdMapper) (c : ClangId) :
    (m.get_or_create_new c).2.get_new c = some (m.get_or_create_new c).1 := by
  cases hg : m.get_new c with
  | some i =>
    rw [get_or_create_new_of_some _ _ _ hg]
    exact hg
  | none =>
    rw [get_or_create_new_of_none _ _ hg]
    exact alookup_ainsert_self _ _ _

theorem gocn_le (m : IdMapper) (c : ClangId) (hb : MapperBounded m) :
    (m.get_or_create_new c).1 ≤ (m.get_or_create_new c).2.new_id_source := by
  cases hg : m.get_new c with
  | some i =>
    rw [get_or_create_new_of_some _ _ _ hg]
    exact hb c i hg
  | none =>
    rw [get_or_create_new_of_none _ _ hg]

theorem gocn_proc_none (m : IdMapper) (pr : List (Nat × NodeType)) (c : ClangId)
    (hple : ∀ i k, alookup pr i = some k → i ≤ m.new_id_source)
    (hnone : (m.get_new c).bind (fun n => alookup pr n) = none) :
    alookup pr (m.get_or_create_new c).1 = none := by
  cases hg : m.get_new c with
  | some i =>
    rw [get_or_create_new_of_some _ _ _ hg]
    rw [hg] at hnone
    exact hnone
  | none =>
    rw [get_or_create_new_of_none _ _ hg]
    dsimp only
    cases hc : alookup pr (m.new_id_source + 1) with
    | none => rfl
    | some k => exact (Nat.not_succ_le_self _ (hple _ _ hc)).elim

theorem inv8_shape {u : AstContext} {s : ConversionContext} {node_id : ClangId}
    {new_id : NewId} {e : NodeType} {s' : ConversionContext}
    (hdisj : DisjointKeys u) (h : Inv8 u s)
    (hbind : bindOf s node_id = some new_id)
    (hle : new_id ≤ srcOf s) (hpn : procOf s new_id = none)
    (hsh : VNShape u s node_id new_id e s') : Inv8 u s' := by
  cases hsh with
  | diag t => exact inv8_diag h
  | typeStore sk k kind hv hkind hq htype =>
    have hsk := inv8_visitsOnly h hv
    obtain ⟨hp, htc, hsrc, -, -, -, -, -⟩ := hv
    have hle2 : new_id ≤ srcOf sk := le_trans hle hsrc
    have hpn2 : procOf sk new_id = none := by
      show alookup sk.processed_nodes new_id = none
      rw [hp]
      exact hpn
    have hstn : alookup s.typed_context.c_stmts ⟨new_id⟩ = none := by
      cases hcs : alookup s.typed_context.c_stmts ⟨new_id⟩ with
      | none => rfl
      | some v0 =>
        exact (soc_not_type_key hdisj
          (h.chainK new_id hpn (by rw [hcs]; rfl) node_id hbind) htype).elim
    have hstn2 : alookup sk.typed_context.c_stmts ⟨new_id⟩ = none := by
      rw [htc]
      exact hstn
    exact inv8_add_type_processed hsk hkind hle2 hpn2 hstn2
  | stmtStore sk v kind hv hkind =>
    have hsk := inv8_visitsOnly h hv
    obtain ⟨hp, -, hsrc, -, -, -, -, -⟩ := hv
    have hle2 : new_id ≤ srcOf sk := le_trans hle hsrc
    have hpn2 : procOf sk new_id = none := by
      show alookup sk.processed_nodes new_id = none
      rw [hp]
      exact hpn
    refine inv8_add_stmt_processed hsk ?_ hle2 hpn2
    rcases hkind with hk | hk
    · exact Or.inl hk
    · exact Or.inr (Or.inl hk)
  | stmtStoreNoProc sk v node hv hast ht =>
    have hsk := inv8_visitsOnly h hv
    obtain ⟨hp, -, hsrc, -, -, hpull, -, -⟩ := hv
    have hle2 : new_id ≤ srcOf sk := le_trans hle hsrc
    have hpn2 : procOf sk new_id = none := by
      show alookup sk.processed_nodes new_id = none
      rw [hp]
      exact hpn
    refine inv8_add_stmt_noproc hsk hle2 hpn2 ?_
    intro x hx
    have hx0 : bindOf s x = some new_id := hpull x new_id hx hle
    rcases h.chainR new_id hpn x node_id hx0 hbind with heq | hpd | hpd
    · subst heq
      exact StmtOnlyChain.base x node hast ht
    · exact parenDesc_soc hpd (StmtOnlyChain.base node_id node hast ht)
    · obtain ⟨c, hc, -⟩ := parenDesc_head hpd
      obtain ⟨n', hn', htag, -⟩ := hc
      rw [hast] at hn'
      cases hn'
      rw [htag] at ht
      cases ht
  | declStore sk v kind node hv hkind hq hast ht =>
    have hsk := inv8_visitsOnly h hv
    obtain ⟨hp, htc, hsrc, -, -, -, -, -⟩ := hv
    have hle2 : new_id ≤ srcOf sk := le_trans hle hsrc
    have hpn2 : procOf sk new_id = none := by
      show alookup sk.processed_nodes new_id = none
      rw [hp]
      exact hpn
    have hstn : alookup s.typed_context.c_stmts ⟨new_id⟩ = none := by
      cases hcs : alookup s.typed_context.c_stmts ⟨new_id⟩ with
      | none => rfl
      | some v0 =>
        have hsoc := h.chainK new_id hpn (by rw [hcs]; rfl) node_id hbind
        rcases soc_tag hsoc hast with hc | hc
        · rw [ht.1] at hc
          cases hc
        · exact (ht.2 hc).elim
    have hstn2 : alookup sk.typed_context.c_stmts ⟨new_id⟩ = none := by
      rw [htc]
      exact hstn
    exact inv8_add_decl_processed hsk hkind hle2 hpn2 hstn2
  | exprAsStmt sk node ve s2 hv hast ht hok =>
    have hsk := inv8_visitsOnly h hv
    obtain ⟨hp, htc, hsrc, -, -, -, -, -⟩ := hv
    have hle2 : new_id ≤ srcOf sk := le_trans hle hsrc
    have hpn2 : procOf sk new_id = none := by
      show alookup sk.processed_nodes new_id = none
      rw [hp]
      exact hpn
    have hstn : alookup s.typed_context.c_stmts ⟨new_id⟩ = none := by
      cases hcs : alookup s.typed_context.c_stmts ⟨new_id⟩ with
      | none => rfl
      | some v0 =>
        have hsoc := h.chainK new_id hpn (by rw [hcs]; rfl) node_id hbind
        rcases soc_tag hsoc hast with hc | hc
        · rw [ht.1] at hc
          cases hc
        · exact (ht.2 hc).elim
    have hstn2 : alookup sk.typed_context.c_stmts ⟨new_id⟩ = none := by
      rw [htc]
      exact hstn
    exact inv8_epas hsk hle2 hpn2 hstn2 hok
  | paren w hpc =>
    exact inv8_visitsOnly (inv8_merge h hpc) (visitsOnly_visit_node_type _ w e)

theorem inv8_init (u : AstContext) : Inv8 u (ConversionContext.new u) := by
  refine ⟨?_, ?_, ?_, ?_, ?_, ?_, ?_, ?_, ?_, ?_, ?_, ?_⟩
  · intro x i hx
    exact Option.noConfusion hx
  · intro i k hk
    exact Option.noConfusion hk
  · intro i hi
    exact Bool.noConfusion hi
  · intro i hi
    exact Bool.noConfusion hi
  · intro i hi
    exact Bool.noConfusion hi
  · intro i hi
    exact Bool.noConfusion hi
  · intro i hi
    exact Bool.noConfusion hi
  · intro i hi
    exact Bool.noConfusion hi
  · intro i hi
    exact Bool.noConfusion hi
  · intro i hi
    exact Bool.noConfusion hi
  · intro i hpn hst x hx
    exact Option.noConfusion hx
  · intro i hpn x y hx hy
    exact Option.noConfusion hx

theorem inv8_step {u : AstContext} {s s' : ConversionContext} (hdisj : DisjointKeys u)
    (h : Inv8 u s) (hst : stepNext u s s') : Inv8 u s' := by
  unfold stepNext ConversionContext.convert_step at hst
  cases hvs : s.visit_as with
  | nil =>
    rw [hvs] at hst
    cases hst
  | cons hd rest =>
    obtain ⟨node_id, expected_ty⟩ := hd
    rw [hvs] at hst
    dsimp only at hst
    have h0 : Inv8 u { s with visit_as := rest } := inv8_visit_as h
    split at hst
    · split at hst
      · cases hst
        exact h0
      · cases hst
    · rename_i hnone
      split at hst
      · rename_i s3 hvn
        cases hst
        have hsh := visit_node_ok_shape _ _ _ _ _ _ hvn
        have h1 : Inv8 u { { s with visit_as := rest } with id_mapper :=
            (({ s with visit_as := rest } : ConversionContext).id_mapper.get_or_create_new
              node_id).2 } := inv8_get_or_create h0
        refine inv8_shape hdisj ?_ ?_ ?_ ?_ hsh
        · split
          · exact inv8_mark_top h1
          · exact h1
        · split
          · exact gocn_bind _ _
          · exact gocn_bind _ _
        · split
          · exact gocn_le _ _ h0.bind_le
          · exact gocn_le _ _ h0.bind_le
        · split
          · exact gocn_proc_none _ _ _ h0.proc_le hnone
          · exact gocn_proc_none _ _ _ h0.proc_le hnone
      · cases hst

theorem inv8_stepsTo {u : AstContext} {s s' : ConversionContext} (hdisj : DisjointKeys u)
    (h : Inv8 u s) (hst : StepsTo u s s') : Inv8 u s' := by
  induction hst with
  | refl => exact h
  | tail hab hbc ih => exact inv8_step hdisj ih hbc

theorem storesDisjoint_of_inv8 {u : AstContext} {s : ConversionContext}
    (h : Inv8 u s) : StoresDisjoint s := by
  refine ⟨?_, ?_, ?_, ?_, ?_, ?_⟩
  · intro i h1 h2
    rcases h.types_proc i h1 with hc | hc <;> rw [h.exprs_proc i h2] at hc <;>
      exact absurd (Option.some.inj hc) (by decide)
  · intro i h1 h2
    rcases h.types_proc i h1 with hc | hc <;>
      rcases h.decls_proc i h2 with hd | hd | hd | hd | hd <;> rw [hd] at hc <;>
      exact absurd (Option.some.inj hc) (by decide)
  · intro i h1 h2
    rcases h.types_proc i h1 with hc | hc <;>
      rcases h.stmts_proc i h2 with hd | hd | hd | hd <;> rw [hd] at hc <;>
      first
      | exact Option.noConfusion hc
      | exact absurd (Option.some.inj hc) (by decide)
  · intro i h1 h2
    have hc := h.exprs_proc i h1
    rcases h.decls_proc i h2 with hd | hd | hd | hd | hd <;> rw [hd] at hc <;>
      exact absurd (Option.some.inj hc) (by decide)
  · intro i h1 h2
    have hc := h.exprs_proc i h1
    rcases h.stmts_proc i h2 with hd | hd | hd | hd <;> rw [hd] at hc <;>
      first
      | exact Option.noConfusion hc
      | exact absurd (Option.some.inj hc) (by decide)
  · intro i h1 h2
    rcases h.decls_proc i h1 with hc | hc | hc | hc | hc <;>
      rcases h.stmts_proc i h2 with hd | hd | hd | hd <;> rw [hd] at hc <;>
      first
      | exact Option.noConfusion hc
      | exact absurd (Option.some.inj hc) (by decide)

/-- C8 counterexample: on the concrete input exInputSharedId, whose foreign
ast-node and type-node key spaces share the id 302, the conversion run
succeeds yet internal id 3 ends up stored in both the statement and the type
store of the result, so the four typed stores are not pairwise disjoint. -/
theorem claim_C8_counterexample :
    (∃ s', runConv exInputSharedId 20 = Except.ok (some s')) ∧
    (alookup (finalState exInputSharedId 20).typed_context.c_types ⟨3⟩).isSome = true ∧
    (alookup (finalState exInputSharedId 20).typed_context.c_stmts ⟨3⟩).isSome = true ∧
    ¬ StoresDisjoint (finalState exInputSharedId 20) := by
  refine ⟨⟨finalState exInputSharedId 20, by rfl⟩, by rfl, by rfl, fun hsd => ?_⟩
  exact hsd.2.2.1 3 (by rfl) (by rfl)

/-- C8 (amended): provided the foreign ast-node and type-node key spaces of
the input are disjoint, then throughout conversion — in every state the
worklist loop reaches from the seeded initial state, hence in particular in
the final result of a successful run — no internal id value is stored in
more than one of the four typed stores (types, expressions, statements,
declarations). -/
theorem claim_C8_namespace_disjoint (u : AstContext) (s' : ConversionContext)
    (hdisj : DisjointKeys u)
    (hst : StepsTo u (ConversionContext.new u) s') : StoresDisjoint s' :=
  storesDisjoint_of_inv8 (inv8_stepsTo hdisj (inv8_init u) hst)

theorem claim_C8_witness : StoresDisjoint (finalState exInputSimple 12) :=
  claim_C8_namespace_disjoint exInputSimple (finalState exInputSimple 12)
    (fun p hp => by
      rcases List.mem_cons.mp hp with h | h
      · subst h
        rfl
      · exact absurd h (List.not_mem_nil p))
    (@convert_stepsTo _ _ 12 _ (by rfl))

theorem mem_sinsert_self {α : Type} [DecidableEq α] (l : List α) (a : α) :
    a ∈ sinsert l a := by
  unfold sinsert
  split
  · assumption
  · exact List.mem_cons_self a l

theorem mem_sinsert_of_mem {α : Type} [DecidableEq α] {l : List α} {a b : α}
    (h : b ∈ l) : b ∈ sinsert l a := by
  unfold sinsert
  split
  · exact h
  · exact List.mem_cons_of_mem a h

theorem eq_or_mem_of_mem_sinsert {α : Type} [DecidableEq α] {l : List α} {a b : α}
    (h : b ∈ sinsert l a) : b = a ∨ b ∈ l := by
  unfold sinsert at h
  split at h
  · exact Or.inr h
  · exact List.mem_cons.mp h

theorem inv7_diag {u : AstContext} {s : ConversionContext} {t : ASTEntryTag}
    {e : NodeType} (h : Inv7 u s) : Inv7 u (s.diag t e) :=
  ⟨h.bind_le, h.proc_le, h.marked_le, h.pend, h.procMarked, h.markedImage⟩

theorem inv7_add_type {u : AstContext} {s : ConversionContext} {n : NewId} {v : CType}
    (h : Inv7 u s) : Inv7 u (s.add_type n v) :=
  ⟨h.bind_le, h.proc_le, h.marked_le, h.pend, h.procMarked, h.markedImage⟩

theorem inv7_add_stmt {u : AstContext} {s : ConversionContext} {n : NewId} {v : CStmt}
    (h : Inv7 u s) : Inv7 u (s.add_stmt n v) :=
  ⟨h.bind_le, h.proc_le, h.marked_le, h.pend, h.procMarked, h.markedImage⟩

theorem inv7_add_expr {u : AstContext} {s : ConversionContext} {n : NewId} {v : CExpr}
    (h : Inv7 u s) : Inv7 u (s.add_expr n v) :=
  ⟨h.bind_le, h.proc_le, h.marked_le, h.pend, h.procMarked, h.markedImage⟩

theorem inv7_add_decl {u : AstContext} {s : ConversionContext} {n : NewId} {v : CDecl}
    (h : Inv7 u s) : Inv7 u (s.add_decl n v) :=
  ⟨h.bind_le, h.proc_le, h.marked_le, h.pend, h.procMarked, h.markedImage⟩

theorem inv7_fresh_bump {u : AstContext} {s : ConversionContext} (h : Inv7 u s) :
    Inv7 u { s with id_mapper := s.id_mapper.fresh_id.2 } := by
  refine ⟨?_, ?_, ?_, h.pend, h.procMarked, h.markedImage⟩
  · intro x i hx
    exact Nat.le_succ_of_le (h.bind_le x i hx)
  · intro i k hk
    exact Nat.le_succ_of_le (h.proc_le i k hk)
  · intro d hd
    exact Nat.le_succ_of_le (h.marked_le d hd)

theorem inv7_set_processed {u : AstContext} {s : ConversionContext} {new_id : NewId}
    {kind : NodeType} (h : Inv7 u s)
    (hle : new_id ≤ srcOf s)
    (hm : ∀ f ∈ u.top_nodes, bindOf s f = some new_id →
      (⟨new_id⟩ : CDeclId) ∈ s.typed_context.c_decls_top) :
    Inv7 u (s.set_processed new_id kind) := by
  have hproc : ∀ i, procOf (s.set_processed new_id kind) i =
      if new_id = i then some kind else procOf s i := by
    intro i
    show alookup (ainsert s.processed_nodes new_id kind) i = _
    rw [alookup_ainsert]
    rfl
  refine ⟨h.bind_le, ?_, h.marked_le, h.pend, ?_, h.markedImage⟩
  · intro i k hk
    rw [hproc] at hk
    by_cases hni : new_id = i
    · exact hni ▸ hle
    · rw [if_neg hni] at hk
      exact h.proc_le i k hk
  · intro f hf i hb k hk
    rw [hproc] at hk
    by_cases hni : new_id = i
    · subst hni
      exact hm f hf hb
    · rw [if_neg hni] at hk
      exact h.procMarked f hf i hb k hk

theorem inv7_epas {u : AstContext} {s s' : ConversionContext} {e : NodeType}
    {new_id : NewId} {node : AstNode} {ve : CExprKind} (h : Inv7 u s)
    (hle : new_id ≤ srcOf s)
    (hm : ∀ f ∈ u.top_nodes, bindOf s f = some new_id →
      (⟨new_id⟩ : CDeclId) ∈ s.typed_context.c_decls_top)
    (hok : s.expr_possibly_as_stmt e new_id node ve = .ok s') : Inv7 u s' := by
  unfold ConversionContext.expr_possibly_as_stmt at hok
  split at hok
  · cases hok
    have h1 : Inv7 u { s with id_mapper := s.id_mapper.fresh_id.2 } := inv7_fresh_bump h
    have h2 : Inv7 u ((({ s with id_mapper := s.id_mapper.fresh_id.2 }
        : ConversionContext).add_expr (srcOf s + 1) (located node ve)).set_processed
        (srcOf s + 1) node_types.EXPR) := by
      refine inv7_set_processed (inv7_add_expr h1) (le_refl _) ?_
      intro f hf hb
      exact absurd (h.bind_le f (srcOf s + 1) hb) (Nat.not_succ_le_self _)
    refine inv7_set_processed (inv7_add_stmt h2) (Nat.le_succ_of_le hle) ?_
    intro f hf hb
    exact hm f hf hb
  · split at hok
    · cases hok
      exact inv7_set_processed (inv7_add_expr h) hle hm
    · cases hok

theorem inv7_merge_push {u : AstContext} {s : ConversionContext} {node_id w : ClangId}
    {new_id : NewId} {e : NodeType}
    (hTop : TopNotParenChild u) (h : Inv7 u s)
    (hpc : parenChild u node_id w)
    (hbind : bindOf s node_id = some new_id)
    (htop : node_id ∈ u.top_nodes → (⟨new_id⟩ : CDeclId) ∈ s.typed_context.c_decls_top) :
    Inv7 u (({ s with id_mapper := (s.id_mapper.merge_old node_id w).2
      } : ConversionContext).visit_node_type w e).2 := by
  have hw : w ∉ u.top_nodes := by
    obtain ⟨n, hn, htag, hch⟩ := hpc
    exact hTop (node_id, n) (alookup_some_mem _ _ _ hn) htag w hch
  have hb' : s.id_mapper.get_new node_id = some new_id := hbind
  rw [merge_old_of_some _ _ _ _ hb']
  rw [visit_node_type_eq]
  dsimp only
  rw [get_or_create_new_of_some _ _ _
    (show ({ s.id_mapper with
        old_to_new := ainsert s.id_mapper.old_to_new w new_id } : IdMapper).get_new w =
      some new_id from alookup_ainsert_self _ _ _)]
  have hlook : ∀ x : ClangId, alookup (ainsert s.id_mapper.old_to_new w new_id) x =
      if w = x then some new_id else bindOf s x := by
    intro x
    rw [alookup_ainsert]
    rfl
  refine ⟨?_, h.proc_le, h.marked_le, ?_, ?_, ?_⟩
  · intro x i hx
    have hx' : alookup (ainsert s.id_mapper.old_to_new w new_id) x = some i := hx
    rw [hlook] at hx'
    by_cases hwx : w = x
    · rw [if_pos hwx] at hx'
      injection hx' with hni
      rw [← hni]
      exact h.bind_le node_id new_id hbind
    · rw [if_neg hwx] at hx'
      exact h.bind_le x i hx'
  · intro f hf i hb
    have hb2 : (if w = f then some new_id else bindOf s f) = some i := by
      rw [← hlook]
      exact hb
    by_cases hwf : w = f
    · rw [hwf] at hw
      exact absurd hf hw
    · rw [if_neg hwf] at hb2
      rcases h.pend f hf i hb2 with hmk | ⟨⟨m, hpm⟩, hex⟩
      · exact Or.inl hmk
      · by_cases hin : i = new_id
        · have hfn : node_id = f := hex node_id (by rw [hin]; exact hbind)
          have hnt : node_id ∈ u.top_nodes := by rw [hfn]; exact hf
          refine Or.inl ?_
          show (⟨i⟩ : CDeclId) ∈ s.typed_context.c_decls_top
          rw [hin]
          exact htop hnt
        · refine Or.inr ⟨⟨m, List.mem_cons_of_mem _ hpm⟩, ?_⟩
          intro x hx
          have hx2 : (if w = x then some new_id else bindOf s x) = some i := by
            rw [← hlook]
            exact hx
          by_cases hwx : w = x
          · rw [if_pos hwx] at hx2
            exact absurd (Option.some.inj hx2).symm hin
          · rw [if_neg hwx] at hx2
            exact hex x hx2
  · intro f hf i hb k hk
    have hb2 : (if w = f then some new_id else bindOf s f) = some i := by
      rw [← hlook]
      exact hb
    by_cases hwf : w = f
    · rw [hwf] at hw
      exact absurd hf hw
    · rw [if_neg hwf] at hb2
      exact h.procMarked f hf i hb2 k hk
  · intro d hd
    obtain ⟨f, hf, hb⟩ := h.markedImage d hd
    refine ⟨f, hf, ?_⟩
    have hwf : ¬ w = f := by
      intro hh
      rw [hh] at hw
      exact hw hf
    show alookup (ainsert s.id_mapper.old_to_new w new_id) f = some d.id
    rw [hlook]
    rw [if_neg hwf]
    exact hb

theorem inv7_visitsOnly {u : AstContext} {s s' : ConversionContext}
    (h : Inv7 u s) (hv : VisitsOnly s s') : Inv7 u s' := by
  obtain ⟨hp, htc, hsrc, hvas, hmono, hpull, hnew, hmb⟩ := hv
  obtain ⟨hb2, huniq⟩ := hmb h.bind_le
  have hproc : ∀ i, procOf s' i = procOf s i := by
    intro i
    unfold procOf
    rw [hp]
  have hmarked : s'.typed_context.c_decls_top = s.typed_context.c_decls_top := by
    rw [htc]
  refine ⟨hb2, ?_, ?_, ?_, ?_, ?_⟩
  · intro i k hk
    rw [hproc] at hk
    exact le_trans (h.proc_le i k hk) hsrc
  · intro d hd
    rw [hmarked] at hd
    exact le_trans (h.marked_le d hd) hsrc
  · intro f hf i hb
    by_cases hile : i ≤ srcOf s
    · have hb0 := hpull f i hb hile
      rcases h.pend f hf i hb0 with hmk | ⟨⟨m, hpm⟩, hex⟩
      · exact Or.inl (by rw [hmarked]; exact hmk)
      · refine Or.inr ⟨⟨m, hvas _ hpm⟩, ?_⟩
        intro x hx
        exact hex x (hpull x i hx hile)
    · have hb0 : bindOf s f = none := by
        cases hc : bindOf s f with
        | none => rfl
        | some j =>
          have hmono2 := hmono f j hc
          rw [hb] at hmono2
          injection hmono2 with hji
          rw [← hji] at hc
          exact absurd (h.bind_le f i hc) hile
      obtain ⟨m, hm⟩ := hnew f i hb hb0
      exact Or.inr ⟨⟨m, hm⟩, fun x hx => huniq x f i hx hb (lt_of_not_le hile)⟩
  · intro f hf i hb k hk
    rw [hproc] at hk
    have hile : i ≤ srcOf s := h.proc_le i k hk
    have hb0 := hpull f i hb hile
    rw [hmarked]
    exact h.procMarked f hf i hb0 k hk
  · intro d hd
    rw [hmarked] at hd
    obtain ⟨f, hf, hb⟩ := h.markedImage d hd
    exact ⟨f, hf, hmono f d.id hb⟩

theorem inv7_shape {u : AstContext} {s : ConversionContext} {node_id : ClangId}
    {new_id : NewId} {e : NodeType} {s' : ConversionContext}
    (hTop : TopNotParenChild u) (h : Inv7 u s)
    (hbind : bindOf s node_id = some new_id)
    (htop : node_id ∈ u.top_nodes → (⟨new_id⟩ : CDeclId) ∈ s.typed_context.c_decls_top)
    (hsh : VNShape u s node_id new_id e s') : Inv7 u s' := by
  cases hsh with
  | diag t => exact inv7_diag h
  | typeStore sk k kind hv hkind hq htype =>
    have hsk := inv7_visitsOnly h hv
    obtain ⟨hp, htc, hsrc, hvas, hmono, hpull, hnew, hmb⟩ := hv
    have hbind2 : bindOf sk node_id = some new_id := hmono _ _ hbind
    have hle2 : new_id ≤ srcOf sk := le_trans (h.bind_le _ _ hbind) hsrc
    have hmarked : sk.typed_context.c_decls_top = s.typed_context.c_decls_top := by
      rw [htc]
    have hm : ∀ f ∈ u.top_nodes, bindOf sk f = some new_id →
        (⟨new_id⟩ : CDeclId) ∈ sk.typed_context.c_decls_top := by
      intro f hf hb
      rcases hsk.pend f hf new_id hb with hmk | ⟨-, hex⟩
      · exact hmk
      · have hfn : node_id = f := hex node_id hbind2
        have hnt : node_id ∈ u.top_nodes := by rw [hfn]; exact hf
        rw [hmarked]
        exact htop hnt
    exact inv7_set_processed (inv7_add_type hsk) hle2 hm
  | stmtStore sk v kind hv hkind =>
    have hsk := inv7_visitsOnly h hv
    obtain ⟨hp, htc, hsrc, hvas, hmono, hpull, hnew, hmb⟩ := hv
    have hbind2 : bindOf sk node_id = some new_id := hmono _ _ hbind
    have hle2 : new_id ≤ srcOf sk := le_trans (h.bind_le _ _ hbind) hsrc
    have hmarked : sk.typed_context.c_decls_top = s.typed_context.c_decls_top := by
      rw [htc]
    have hm : ∀ f ∈ u.top_nodes, bindOf sk f = some new_id →
        (⟨new_id⟩ : CDeclId) ∈ sk.typed_context.c_decls_top := by
      intro f hf hb
      rcases hsk.pend f hf new_id hb with hmk | ⟨-, hex⟩
      · exact hmk
      · have hfn : node_id = f := hex node_id hbind2
        have hnt : node_id ∈ u.top_nodes := by rw [hfn]; exact hf
        rw [hmarked]
        exact htop hnt
    exact inv7_set_processed (inv7_add_stmt hsk) hle2 hm
  | stmtStoreNoProc sk v node hv hast ht =>
    exact inv7_add_stmt (inv7_visitsOnly h hv)
  | declStore sk v kind node hv hkind hq hast ht =>
    have hsk := inv7_visitsOnly h hv
    obtain ⟨hp, htc, hsrc, hvas, hmono, hpull, hnew, hmb⟩ := hv
    have hbind2 : bindOf sk node_id = some new_id := hmono _ _ hbind
    have hle2 : new_id ≤ srcOf sk := le_trans (h.bind_le _ _ hbind) hsrc
    have hmarked : sk.typed_context.c_decls_top = s.typed_context.c_decls_top := by
      rw [htc]
    have hm : ∀ f ∈ u.top_nodes, bindOf sk f = some new_id →
        (⟨new_id⟩ : CDeclId) ∈ sk.typed_context.c_decls_top := by
      intro f hf hb
      rcases hsk.pend f hf new_id hb with hmk | ⟨-, hex⟩
      · exact hmk
      · have hfn : node_id = f := hex node_id hbind2
        have hnt : node_id ∈ u.top_nodes := by rw [hfn]; exact hf
        rw [hmarked]
        exact htop hnt
    exact inv7_set_processed (inv7_add_decl hsk) hle2 hm
  | exprAsStmt sk node ve s2 hv hast ht hok =>
    have hsk := inv7_visitsOnly h hv
    obtain ⟨hp, htc, hsrc, hvas, hmono, hpull, hnew, hmb⟩ := hv
    have hbind2 : bindOf sk node_id = some new_id := hmono _ _ hbind
    have hle2 : new_id ≤ srcOf sk := le_trans (h.bind_le _ _ hbind) hsrc
    have hmarked : sk.typed_context.c_decls_top = s.typed_context.c_decls_top := by
      rw [htc]
    have hm : ∀ f ∈ u.top_nodes, bindOf sk f = some new_id →
        (⟨new_id⟩ : CDeclId) ∈ sk.typed_context.c_decls_top := by
      intro f hf hb
      rcases hsk.pend f hf new_id hb with hmk | ⟨-, hex⟩
      · exact hmk
      · have hfn : node_id = f := hex node_id hbind2
        have hnt : node_id ∈ u.top_nodes := by rw [hfn]; exact hf
        rw [hmarked]
        exact htop hnt
    exact inv7_epas hsk hle2 hm hok
  | paren w hpc =>
    exact inv7_merge_push hTop h hpc hbind htop

theorem inv7_pop {u : AstContext} {s : ConversionContext} {node_id : ClangId}
    {ety : NodeType} {rest : List (ClangId × NodeType)} (h : Inv7 u s)
    (hvs : s.visit_as = (node_id, ety) :: rest) :
    Inv7Pop u node_id { s with visit_as := rest } := by
  refine ⟨h.bind_le, h.proc_le, h.marked_le, ?_, h.procMarked, h.markedImage⟩
  intro f hf i hb
  rcases h.pend f hf i hb with hmk | ⟨⟨m, hpm⟩, hex⟩
  · exact Or.inl hmk
  · rw [hvs] at hpm
    rcases List.mem_cons.mp hpm with hhd | htl
    · have hfn : f = node_id := congrArg Prod.fst hhd
      exact Or.inr ⟨Or.inl hfn, hex⟩
    · exact Or.inr ⟨Or.inr ⟨m, htl⟩, hex⟩

theorem inv7pop_gocn {u : AstContext} {s : ConversionContext} {node_id : ClangId}
    (h : Inv7Pop u node_id s) :
    Inv7Pop u node_id { s with id_mapper := (s.id_mapper.get_or_create_new node_id).2 } := by
  obtain ⟨hble, hple, hmle, hpend, hpmk, himg⟩ := h
  cases hg : s.id_mapper.get_new node_id with
  | some j =>
    rw [get_or_create_new_of_some _ _ _ hg]
    exact ⟨hble, hple, hmle, hpend, hpmk, himg⟩
  | none =>
    rw [get_or_create_new_of_none _ _ hg]
    have hlook : ∀ x : ClangId, bindOf { s with id_mapper := { s.id_mapper with
        new_id_source := s.id_mapper.new_id_source + 1
        old_to_new := ainsert s.id_mapper.old_to_new node_id
          (s.id_mapper.new_id_source + 1) } } x =
        if node_id = x then some (s.id_mapper.new_id_source + 1) else bindOf s x := by
      intro x
      show alookup (ainsert s.id_mapper.old_to_new node_id
        (s.id_mapper.new_id_source + 1)) x = _
      rw [alookup_ainsert]
      rfl
    refine ⟨?_, ?_, ?_, ?_, ?_, ?_⟩
    · intro x i hx
      rw [hlook] at hx
      by_cases hnx : node_id = x
      · rw [if_pos hnx] at hx
        injection hx with hj
        exact le_of_eq hj.symm
      · rw [if_neg hnx] at hx
        exact Nat.le_succ_of_le (hble x i hx)
    · intro i k hk
      exact Nat.le_succ_of_le (hple i k hk)
    · intro d hd
      exact Nat.le_succ_of_le (hmle d hd)
    · intro f hf i hb
      rw [hlook] at hb
      by_cases hnf : node_id = f
      · rw [if_pos hnf] at hb
        injection hb with hj
        refine Or.inr ⟨Or.inl hnf.symm, ?_⟩
        intro x hx
        rw [hlook] at hx
        by_cases hnx : node_id = x
        · rw [← hnx]
          exact hnf
        · rw [if_neg hnx] at hx
          rw [← hj] at hx
          exact absurd (hble x _ hx) (Nat.not_succ_le_self _)
      · rw [if_neg hnf] at hb
        rcases hpend f hf i hb with hmk | ⟨hforp, hex⟩
        · exact Or.inl hmk
        · refine Or.inr ⟨hforp, ?_⟩
          intro x hx
          rw [hlook] at hx
          by_cases hnx : node_id = x
          · rw [if_pos hnx] at hx
            injection hx with hj
            rw [← hj] at hb
            exact absurd (hble f _ hb) (Nat.not_succ_le_self _)
          · rw [if_neg hnx] at hx
            exact hex x hx
    · intro f hf i hb k hk
      rw [hlook] at hb
      by_cases hnf : node_id = f
      · rw [if_pos hnf] at hb
        injection hb with hj
        rw [← hj] at hk
        exact absurd (hple _ _ hk) (Nat.not_succ_le_self _)
      · rw [if_neg hnf] at hb
        exact hpmk f hf i hb k hk
    · intro d hd
      obtain ⟨f, hf, hb⟩ := himg d hd
      refine ⟨f, hf, ?_⟩
      rw [hlook]
      by_cases hnf : node_id = f
      · rw [← hnf] at hb
        have hb2 : s.id_mapper.get_new node_id = some d.id := hb
        rw [hg] at hb2
        exact Option.noConfusion hb2
      · rw [if_neg hnf]
        exact hb

theorem inv7pop_mark {u : AstContext} {s : ConversionContext} {node_id : ClangId}
    {nid : NewId} (h : Inv7Pop u node_id s)
    (hbind : bindOf s node_id = some nid) (hle : nid ≤ srcOf s)
    (hmem : node_id ∈ u.top_nodes) : Inv7 u (s.mark_top nid) := by
  obtain ⟨hble, hple, hmle, hpend, hpmk, himg⟩ := h
  have hmk : ∀ d : CDeclId, d ∈ (s.mark_top nid).typed_context.c_decls_top ↔
      d = ⟨nid⟩ ∨ d ∈ s.typed_context.c_decls_top := by
    intro d
    show d ∈ sinsert s.typed_context.c_decls_top ⟨nid⟩ ↔ _
    constructor
    · exact eq_or_mem_of_mem_sinsert
    · intro hd
      rcases hd with hd | hd
      · rw [hd]
        exact mem_sinsert_self _ _
      · exact mem_sinsert_of_mem hd
  refine ⟨hble, hple, ?_, ?_, ?_, ?_⟩
  · intro d hd
    rcases (hmk d).mp hd with hd2 | hd2
    · rw [hd2]
      exact hle
    · exact hmle d hd2
  · intro f hf i hb
    rcases hpend f hf i hb with hmk2 | ⟨hforp, hex⟩
    · exact Or.inl ((hmk _).mpr (Or.inr hmk2))
    · rcases hforp with hfn | hpm
      · subst hfn
        have hb2 : bindOf s f = some i := hb
        rw [hbind] at hb2
        injection hb2 with hni
        refine Or.inl ((hmk _).mpr (Or.inl ?_))
        rw [← hni]
      · exact Or.inr ⟨hpm, hex⟩
  · intro f hf i hb k hk
    exact (hmk _).mpr (Or.inr (hpmk f hf i hb k hk))
  · intro d hd
    rcases (hmk d).mp hd with hd2 | hd2
    · refine ⟨node_id, hmem, ?_⟩
      rw [hd2]
      exact hbind
    · obtain ⟨f, hf, hb⟩ := himg d hd2
      exact ⟨f, hf, hb⟩

theorem inv7pop_notop {u : AstContext} {s : ConversionContext} {node_id : ClangId}
    (h : Inv7Pop u node_id s) (hnot : node_id ∉ u.top_nodes) : Inv7 u s := by
  obtain ⟨hble, hple, hmle, hpend, hpmk, himg⟩ := h
  refine ⟨hble, hple, hmle, ?_, hpmk, himg⟩
  intro f hf i hb
  rcases hpend f hf i hb with hmk | ⟨hforp, hex⟩
  · exact Or.inl hmk
  · rcases hforp with hfn | hpm
    · rw [hfn] at hf
      exact absurd hf hnot
    · exact Or.inr ⟨hpm, hex⟩

theorem inv7_init (u : AstContext) : Inv7 u (ConversionContext.new u) := by
  refine ⟨?_, ?_, ?_, ?_, ?_, ?_⟩
  · intro x i hx
    exact Option.noConfusion hx
  · intro i k hk
    exact Option.noConfusion hk
  · intro d hd
    exact absurd hd (List.not_mem_nil d)
  · intro f hf i hb
    exact Option.noConfusion hb
  · intro f hf i hb k hk
    exact Option.noConfusion hb
  · intro d hd
    exact absurd hd (List.not_mem_nil d)

theorem inv7_step {u : AstContext} {s s' : ConversionContext}
    (hTop : TopNotParenChild u) (h : Inv7 u s) (hst : stepNext u s s') : Inv7 u s' := by
  unfold stepNext ConversionContext.convert_step at hst
  cases hvs : s.visit_as with
  | nil =>
    rw [hvs] at hst
    cases hst
  | cons hd rest =>
    obtain ⟨node_id, ety⟩ := hd
    rw [hvs] at hst
    dsimp only at hst
    split at hst
    · rename_i ty heq
      split at hst
      · cases hst
        refine ⟨h.bind_le, h.proc_le, h.marked_le, ?_, h.procMarked, h.markedImage⟩
        intro f hf i hb
        rcases h.pend f hf i hb with hmk | ⟨⟨m, hpm⟩, hex⟩
        · exact Or.inl hmk
        · rw [hvs] at hpm
          rcases List.mem_cons.mp hpm with hhd | htl
          · have hfn : f = node_id := congrArg Prod.fst hhd
            have heq' : (s.id_mapper.get_new node_id).bind
                (fun n => alookup s.processed_nodes n) = some ty := heq
            cases hg : s.id_mapper.get_new node_id with
            | none =>
              rw [hg] at heq'
              exact Option.noConfusion heq'
            | some nid =>
              rw [hg] at heq'
              have hpp : procOf s nid = some ty := heq'
              have hb2 : s.id_mapper.get_new node_id = some i := by
                rw [← hfn]
                exact hb
              rw [hg] at hb2
              injection hb2 with hni
              rw [hni] at hpp
              exact Or.inl (h.procMarked f hf i hb ty hpp)
          · exact Or.inr ⟨⟨m, htl⟩, hex⟩
      · cases hst
    · rename_i hnone
      split at hst
      · rename_i s3 hvn
        cases hst
        have hsh := visit_node_ok_shape _ _ _ _ _ _ hvn
        have hpop : Inv7Pop u node_id { s with visit_as := rest } := inv7_pop h hvs
        have h1 := inv7pop_gocn hpop
        refine inv7_shape hTop ?_ ?_ ?_ hsh
        · split
          · rename_i hmem
            exact inv7pop_mark h1 (gocn_bind _ _) (gocn_le _ _ hpop.1) hmem
          · rename_i hnot
            exact inv7pop_notop h1 hnot
        · split
          · exact gocn_bind _ _
          · exact gocn_bind _ _
        · split
          · intro hmem
            exact mem_sinsert_self _ _
          · rename_i hnot
            intro hmem
            exact absurd hmem hnot
      · cases hst

theorem inv7_stepsTo {u : AstContext} {s s' : ConversionContext}
    (hTop : TopNotParenChild u) (h : Inv7 u s) (hst : StepsTo u s s') : Inv7 u s' := by
  induction hst with
  | refl => exact h
  | tail hab hbc ih => exact inv7_step hTop ih hbc

theorem vn_preserves {u : AstContext} {s : ConversionContext} {node_id : ClangId}
    {new_id : NewId} {e : NodeType} {s' : ConversionContext}
    (hsh : VNShape u s node_id new_id e s') :
    (∀ p, p ∈ s.visit_as → p ∈ s'.visit_as) ∧
    (∀ x i, bindOf s x = some i → ∃ j, bindOf s' x = some j) := by
  cases hsh with
  | diag t =>
    exact ⟨fun p hp => hp, fun x i hx => ⟨i, hx⟩⟩
  | typeStore sk k kind hv hkind hq htype =>
    obtain ⟨-, -, -, hvas, hmono, -, -, -⟩ := hv
    exact ⟨fun p hp => hvas p hp, fun x i hx => ⟨i, hmono x i hx⟩⟩
  | stmtStore sk v kind hv hkind =>
    obtain ⟨-, -, -, hvas, hmono, -, -, -⟩ := hv
    exact ⟨fun p hp => hvas p hp, fun x i hx => ⟨i, hmono x i hx⟩⟩
  | stmtStoreNoProc sk v node hv hast ht =>
    obtain ⟨-, -, -, hvas, hmono, -, -, -⟩ := hv
    exact ⟨fun p hp => hvas p hp, fun x i hx => ⟨i, hmono x i hx⟩⟩
  | declStore sk v kind node hv hkind hq hast ht =>
    obtain ⟨-, -, -, hvas, hmono, -, -, -⟩ := hv
    exact ⟨fun p hp => hvas p hp, fun x i hx => ⟨i, hmono x i hx⟩⟩
  | exprAsStmt sk node ve s2 hv hast ht hok =>
    obtain ⟨-, -, -, hvas, hmono, -, -, -⟩ := hv
    unfold ConversionContext.expr_possibly_as_stmt at hok
    split at hok
    · cases hok
      exact ⟨fun p hp => hvas p hp, fun x i hx => ⟨i, hmono x i hx⟩⟩
    · split at hok
      · cases hok
        exact ⟨fun p hp => hvas p hp, fun x i hx => ⟨i, hmono x i hx⟩⟩
      · cases hok
  | paren w hpc =>
    constructor
    · intro p hp
      rw [visit_node_type_eq]
      exact List.mem_cons_of_mem _ hp
    · intro x i hx
      rw [visit_node_type_eq]
      cases hg : s.id_mapper.get_new node_id with
      | none =>
        rw [merge_old_of_none _ _ _ hg]
        cases hg2 : s.id_mapper.get_new w with
        | some q =>
          rw [get_or_create_new_of_some _ _ _ hg2]
          exact ⟨i, hx⟩
        | none =>
          rw [get_or_create_new_of_none _ _ hg2]
          refine ⟨i, ?_⟩
          show alookup (ainsert s.id_mapper.old_to_new w
            (s.id_mapper.new_id_source + 1)) x = some i
          have hxw : w ≠ x := by
            intro hh
            rw [← hh] at hx
            have hx2 : s.id_mapper.get_new w = some i := hx
            rw [hg2] at hx2
            exact Option.noConfusion hx2
          rw [alookup_ainsert_ne _ _ _ _ hxw]
          exact hx
      | some P =>
        rw [merge_old_of_some _ _ _ _ hg]
        rw [get_or_create_new_of_some _ _ _
          (show ({ s.id_mapper with
              old_to_new := ainsert s.id_mapper.old_to_new w P } : IdMapper).get_new w =
            some P from alookup_ainsert_self _ _ _)]
        by_cases hwx : w = x
        · refine ⟨P, ?_⟩
          show alookup (ainsert s.id_mapper.old_to_new w P) x = some P
          rw [← hwx]
          exact alookup_ainsert_self _ _ _
        · refine ⟨i, ?_⟩
          show alookup (ainsert s.id_mapper.old_to_new w P) x = some i
          rw [alookup_ainsert_ne _ _ _ _ hwx]
          exact hx

theorem sb_visit_node {u : AstContext} {s : ConversionContext} {node_id : ClangId}
    {new_id : NewId} {e : NodeType} {s' : ConversionContext}
    (h : SeededBound u s) (hsh : VNShape u s node_id new_id e s') : SeededBound u s' := by
  intro f hf hast
  rcases h f hf hast with ⟨m, hm⟩ | ⟨i, hi⟩
  · exact Or.inl ⟨m, (vn_preserves hsh).1 _ hm⟩
  · obtain ⟨j, hj⟩ := (vn_preserves hsh).2 f i hi
    exact Or.inr ⟨j, hj⟩

theorem sb_step {u : AstContext} {s s' : ConversionContext}
    (h : SeededBound u s) (hst : stepNext u s s') : SeededBound u s' := by
  unfold stepNext ConversionContext.convert_step at hst
  cases hvs : s.visit_as with
  | nil =>
    rw [hvs] at hst
    cases hst
  | cons hd rest =>
    obtain ⟨node_id, ety⟩ := hd
    rw [hvs] at hst
    dsimp only at hst
    split at hst
    · rename_i ty heq
      split at hst
      · cases hst
        intro f hf hast
        rcases h f hf hast with ⟨m, hm⟩ | ⟨i, hi⟩
        · rw [hvs] at hm
          rcases List.mem_cons.mp hm with hhd | htl
          · have hfn : f = node_id := congrArg Prod.fst hhd
            have heq' : (s.id_mapper.get_new node_id).bind
                (fun n => alookup s.processed_nodes n) = some ty := heq
            cases hg : s.id_mapper.get_new node_id with
            | none =>
              rw [hg] at heq'
              exact Option.noConfusion heq'
            | some nid =>
              refine Or.inr ⟨nid, ?_⟩
              show s.id_mapper.get_new f = some nid
              rw [hfn]
              exact hg
          · exact Or.inl ⟨m, htl⟩
        · exact Or.inr ⟨i, hi⟩
      · cases hst
    · rename_i hnone
      split at hst
      · rename_i s3 hvn
        cases hst
        have hsh := visit_node_ok_shape _ _ _ _ _ _ hvn
        refine sb_visit_node ?_ hsh
        have hsb1 : SeededBound u { { s with visit_as := rest } with id_mapper :=
            (({ s with visit_as := rest } :
              ConversionContext).id_mapper.get_or_create_new node_id).2 } := by
          intro f hf hast
          rcases h f hf hast with ⟨m, hm⟩ | ⟨i, hi⟩
          · rw [hvs] at hm
            rcases List.mem_cons.mp hm with hhd | htl
            · have hfn : f = node_id := congrArg Prod.fst hhd
              refine Or.inr ⟨(s.id_mapper.get_or_create_new node_id).1, ?_⟩
              show ((s.id_mapper.get_or_create_new node_id).2).get_new f =
                some (s.id_mapper.get_or_create_new node_id).1
              rw [hfn]
              exact gocn_bind _ _
            · exact Or.inl ⟨m, htl⟩
          · cases hg : s.id_mapper.get_new node_id with
            | some j =>
              refine Or.inr ⟨i, ?_⟩
              show ((s.id_mapper.get_or_create_new node_id).2).get_new f = some i
              rw [get_or_create_new_of_some _ _ _ hg]
              exact hi
            | none =>
              refine Or.inr ⟨i, ?_⟩
              show ((s.id_mapper.get_or_create_new node_id).2).get_new f = some i
              rw [get_or_create_new_of_none _ _ hg]
              show alookup (ainsert s.id_mapper.old_to_new node_id
                (s.id_mapper.new_id_source + 1)) f = some i
              have hnf : node_id ≠ f := by
                intro hh
                rw [← hh] at hi
                have hi2 : s.id_mapper.get_new node_id = some i := hi
                rw [hg] at hi2
                exact Option.noConfusion hi2
              rw [alookup_ainsert_ne _ _ _ _ hnf]
              exact hi
        split
        · intro f hf hast
          rcases hsb1 f hf hast with ⟨m, hm⟩ | ⟨i, hi⟩
          · exact Or.inl ⟨m, hm⟩
          · exact Or.inr ⟨i, hi⟩
        · exact hsb1
      · cases hst

theorem sb_stepsTo {u : AstContext} {s s' : ConversionContext}
    (h : SeededBound u s) (hst : StepsTo u s s') : SeededBound u s' := by
  induction hst with
  | refl => exact h
  | tail hab hbc ih => exact sb_step ih hbc

theorem sb_init (u : AstContext) : SeededBound u (ConversionContext.new u) := by
  intro f hf hast
  refine Or.inl ⟨node_types.DECL, ?_⟩
  show (f, node_types.DECL) ∈ ((u.top_nodes.filter
    (fun t => (alookup u.ast_nodes t).isSome)).reverse).map (fun t => (t, node_types.DECL))
  exact List.mem_map_of_mem _ (List.mem_reverse.mpr (List.mem_filter.mpr ⟨hf, hast⟩))

theorem convert_final_empty {s : ConversionContext} {u : AstContext} {fuel : Nat}
    {s' : ConversionContext} (h : s.convert u fuel = .ok (some s')) :
    s'.visit_as = [] := by
  induction fuel generalizing s with
  | zero =>
    unfold ConversionContext.convert at h
    simp at h
  | succ n ih =>
    unfold ConversionContext.convert at h
    cases hcs : s.convert_step u with
    | done s2 =>
      rw [hcs] at h
      cases h
      obtain ⟨he, hemp⟩ := convert_step_done hcs
      rw [he]
      exact hemp
    | next s2 =>
      rw [hcs] at h
      exact ih h
    | fail e =>
      rw [hcs] at h
      cases h

/-- C7 counterexample: on the concrete input exInputTopParen, whose top-level
set holds a foreign id that is also the wrapped child of a parenthesization
node, the conversion run succeeds yet internal id 1 is marked top-level while
no top-level foreign id is bound to it (the parenthesization collapse
re-aliased foreign id 102 from internal id 1 to internal id 3). -/
theorem claim_C7_counterexample :
    (∃ s', runConv exInputTopParen 20 = Except.ok (some s')) ∧
    (⟨1⟩ : CDeclId) ∈ (finalState exInputTopParen 20).typed_context.c_decls_top ∧
    ∀ f ∈ exInputTopParen.top_nodes,
      bindOf (finalState exInputTopParen 20) f ≠ some 1 := by
  refine ⟨⟨finalState exInputTopParen 20, by rfl⟩, by decide, by decide⟩

/-- C7 (amended): provided no top-level foreign id is the wrapped child of a
parenthesization node, then after a successful conversion run every top-level
foreign id that obtained an internal id has that internal id in the output
top-level set, every top-level foreign id backed by an ast node did obtain an
internal id, and conversely every internal id in the output top-level set is
the image of some top-level foreign id. -/
theorem claim_C7_top_level (u : AstContext) (fuel : Nat) (s' : ConversionContext)
    (hTop : TopNotParenChild u)
    (hrun : runConv u fuel = Except.ok (some s')) :
    (∀ f ∈ u.top_nodes, ∀ i, bindOf s' f = some i →
      (⟨i⟩ : CDeclId) ∈ s'.typed_context.c_decls_top) ∧
    (∀ f ∈ u.top_nodes, (alookup u.ast_nodes f).isSome →
      ∃ i, bindOf s' f = some i) ∧
    (∀ d ∈ s'.typed_context.c_decls_top, ∃ f ∈ u.top_nodes, bindOf s' f = some d.id) := by
  have hrun' : (ConversionContext.new u).convert u fuel = .ok (some s') := hrun
  have hst := convert_stepsTo hrun'
  have hemp := convert_final_empty hrun'
  have h7 : Inv7 u s' := inv7_stepsTo hTop (inv7_init u) hst
  have hsb : SeededBound u s' := sb_stepsTo (sb_init u) hst
  refine ⟨?_, ?_, h7.markedImage⟩
  · intro f hf i hb
    rcases h7.pend f hf i hb with hmk | ⟨⟨m, hm⟩, -⟩
    · exact hmk
    · rw [hemp] at hm
      exact absurd hm (List.not_mem_nil _)
  · intro f hf hast
    rcases hsb f hf hast with ⟨m, hm⟩ | hb
    · rw [hemp] at hm
      exact absurd hm (List.not_mem_nil _)
    · exact hb

theorem claim_C7_witness :
    (∀ f ∈ exInputSimple.top_nodes, ∀ i,
      bindOf (finalState exInputSimple 14) f = some i →
      (⟨i⟩ : CDeclId) ∈ (finalState exInputSimple 14).typed_context.c_decls_top) ∧
    (∀ f ∈ exInputSimple.top_nodes, (alookup exInputSimple.ast_nodes f).isSome →
      ∃ i, bindOf (finalState exInputSimple 14) f = some i) ∧
    (∀ d ∈ (finalState exInputSimple 14).typed_context.c_decls_top,
      ∃ f ∈ exInputSimple.top_nodes, bindOf (finalState exInputSimple 14) f = some d.id) :=
  claim_C7_top_level exInputSimple 14 (finalState exInputSimple 14)
    (fun p hp htag => by
      rcases List.mem_cons.mp hp with hh | hh
      · subst hh
        exact absurd htag (by decide)
      · exact absurd hh (List.not_mem_nil p))
    (by rfl)
